import Mathlib

/-!
# Cornell-box ray tracers: a shallow embedding of the three variants

The repository holds three redundant variants of one small recursive ray tracer:

* `V5` : `Einfach/Edits/Shadow Ray Error/V5/V5codeEdited.cpp`
* `V6` : `Initial/Edits/GPT/Dark/Shadow Ray Error/V6/V6codeEdited.cpp`
* `V3` : `Einfach/SolutionsByGPT/C++ Leaning/V3code.cpp`

Each variant is embedded in its own namespace, function by function.  The scalar type
`double` is a linearly ordered field `K` and `std::sqrt` is a parameter `sqrt : K → K`, so every
definition is computable; the theorems are stated for `K = ℝ` and `sqrt = Real.sqrt`
(exact real arithmetic).  The sentinel `+infinity` is the top element of `WithTop K`.
A `vector<Object*>` is a `List Object`, where `Object` is the closed sum of `Sphere` and `Plane`.

After the three variants come the conversion of a colour channel to a pixel value (`Cxx.toInt`,
`V5.channel`, `V3.channel`), where the `double` product is the exact product rounded to
binary64 by a parameter `rnd` (`Cxx.fl` is that rounding), and, for each variant, `traceLog`: the function `trace` returning
its colour together with a log of the nearest-hit scans it performs (and, in V5, of the rays it
passes to `intersect`).  The colour of `traceLog` is proved to be the colour of `trace`.
-/

/-! ## Variant V5 (`V5codeEdited.cpp`) -/

namespace V5

variable {K : Type} [LinearOrderedField K]

/-- The constant `constexpr double EPS = 1e-4;`. -/
def EPS : K := 1 / 10000

/-- The constant `constexpr int MAX_DEPTH = 3;`. -/
def MAX_DEPTH : Int := 3

/-- The value of `std::numeric_limits<double>::max()`, the largest finite binary64 number,
`(2 - 2^(-52)) * 2^1023 = 2^1024 - 2^971`. -/
def DBL_MAX : K := 2 ^ 1024 - 2 ^ 971

/-- The record `struct Vec { double x, y, z; }`. -/
@[ext]
structure Vec (K : Type) where
  x : K
  y : K
  z : K

/-- The sum `Vec::operator+(const Vec&)`. -/
def Vec.add (a b : Vec K) : Vec K := ⟨a.x + b.x, a.y + b.y, a.z + b.z⟩

/-- The difference `Vec::operator-(const Vec&)`. -/
def Vec.sub (a b : Vec K) : Vec K := ⟨a.x - b.x, a.y - b.y, a.z - b.z⟩

/-- The scaling `Vec::operator*(double)`. -/
def Vec.scale (a : Vec K) (s : K) : Vec K := ⟨a.x * s, a.y * s, a.z * s⟩

/-- The component-wise product `Vec::operator*(const Vec&)`. -/
def Vec.mul (a b : Vec K) : Vec K := ⟨a.x * b.x, a.y * b.y, a.z * b.z⟩

/-- The method `Vec::norm`: divide every component by the Euclidean length. -/
def Vec.norm (sqrt : K → K) (a : Vec K) : Vec K :=
  let l := sqrt (a.x * a.x + a.y * a.y + a.z * a.z)
  ⟨a.x / l, a.y / l, a.z / l⟩

/-- The method `Vec::dot`. -/
def Vec.dot (a b : Vec K) : K := a.x * b.x + a.y * b.y + a.z * b.z

/-- The record `struct Ray { Vec o, d; }`. -/
structure Ray (K : Type) where
  o : Vec K
  d : Vec K

/-- The record `struct Material { Vec color; double reflect; }`. -/
structure Material (K : Type) where
  color : Vec K
  reflect : K

/-- The record `struct Hit { double t; Vec p, n; Material m; }`. -/
structure Hit (K : Type) where
  t : K
  p : Vec K
  n : Vec K
  m : Material K

/-- The data members of `struct Sphere`. -/
structure Sphere (K : Type) where
  c : Vec K
  r : K
  m : Material K

/-- The data members of `struct Plane` (the plane `n.x + d = 0`). -/
structure Plane (K : Type) where
  n : Vec K
  d : K
  m : Material K

/-- The method `Sphere::intersect`.  The C++ method returns `bool` and fills the caller's record
`h` exactly when it returns `true` (it never reads `h`), which is the `Option` returned here. -/
def Sphere.intersect (sqrt : K → K) (s : Sphere K) (ray : Ray K) : Option (Hit K) :=
  let oc := ray.o.sub s.c
  let b := oc.dot ray.d
  let c2 := oc.dot oc - s.r * s.r
  let disc := b * b - c2
  if disc < 0 then none
  else
    let t := -b - sqrt disc
    if t < EPS then none
    else
      let p := ray.o.add (ray.d.scale t)
      some ⟨t, p, (p.sub s.c).norm sqrt, s.m⟩

/-- The method `Plane::intersect`, with the same reading of the out-parameter. -/
def Plane.intersect (pl : Plane K) (ray : Ray K) : Option (Hit K) :=
  let denom := pl.n.dot ray.d
  if |denom| < EPS then none
  else
    let t := -(pl.n.dot ray.o + pl.d) / denom
    if t < EPS then none
    else some ⟨t, ray.o.add (ray.d.scale t), pl.n, pl.m⟩

/-- The class hierarchy `Object` with its two subclasses. -/
inductive Object (K : Type) where
  | sphere (s : Sphere K)
  | plane (pl : Plane K)

/-- The virtual call `o->intersect(ray, h)`. -/
def Object.intersect (sqrt : K → K) (o : Object K) (ray : Ray K) : Option (Hit K) :=
  match o with
  | .sphere s => s.intersect sqrt ray
  | .plane pl => pl.intersect ray

/-- The test `dynamic_cast<Plane*>(o)`. -/
def Object.isPlane (o : Object K) : Bool :=
  match o with
  | .sphere _ => false
  | .plane _ => true

/-- The function `reflect`. -/
def reflect (d n : Vec K) : Vec K := d.sub (n.scale (2 * d.dot n))

/-- The value of `hit.t` in the first loop of `trace`: `numeric_limits<double>::max()` as long as
`found` is `false` (`none`), the `t` of the recorded hit afterwards. -/
def hitT (acc : Option (Hit K)) : K :=
  match acc with
  | none => DBL_MAX
  | some b => b.t

/-- One iteration of the first loop of `trace`: `if (o->intersect(ray, h) && h.t < hit.t)`
then `hit = h; found = true;`.  The pair `(found, hit)` is an `Option`. -/
def nearestStep (sqrt : K → K) (ray : Ray K) (acc : Option (Hit K)) (o : Object K) :
    Option (Hit K) :=
  match o.intersect sqrt ray with
  | some h => if h.t < hitT acc then some h else acc
  | none => acc

/-- The first loop of `trace` (nearest-hit scan), started with `found = false`. -/
def nearest (sqrt : K → K) (ray : Ray K) (objs : List (Object K)) : Option (Hit K) :=
  objs.foldl (nearestStep sqrt ray) none

/-- The second loop of `trace` (shadow scan): planes are skipped, the first object that
reports a hit sets `shadowed` and leaves the loop. -/
def shadowed (sqrt : K → K) (shadow : Ray K) : List (Object K) → Bool
  | [] => false
  | o :: rest =>
    if o.isPlane then shadowed sqrt shadow rest
    else if (o.intersect sqrt shadow).isSome then true
    else shadowed sqrt shadow rest

/-- The local `ldir` of `trace`. -/
def ldir (sqrt : K → K) (light : Vec K) (hit : Hit K) : Vec K :=
  (light.sub hit.p).norm sqrt

/-- The local `shadow` of `trace`. -/
def shadowRay (sqrt : K → K) (light : Vec K) (hit : Hit K) : Ray K :=
  ⟨hit.p.add (hit.n.scale EPS), ldir sqrt light hit⟩

/-- The local `diff` of `trace` (the diffuse factor). -/
def diff (sqrt : K → K) (objs : List (Object K)) (light : Vec K) (hit : Hit K) : K :=
  if shadowed sqrt (shadowRay sqrt light hit) objs then 0
  else max 0 (hit.n.dot (ldir sqrt light hit))

/-- The local `rr` of `trace` (the reflection ray). -/
def reflRay (sqrt : K → K) (ray : Ray K) (hit : Hit K) : Ray K :=
  ⟨hit.p.add (hit.n.scale EPS), (reflect ray.d hit.n).norm sqrt⟩

/-- The function `trace`. -/
def trace (sqrt : K → K) (ray : Ray K) (objs : List (Object K)) (light : Vec K) (depth : Int) :
    Vec K :=
  if depth > MAX_DEPTH then ⟨0, 0, 0⟩
  else
    match nearest sqrt ray objs with
    | none => ⟨0, 0, 0⟩
    | some hit =>
      let color := hit.m.color.scale (diff sqrt objs light hit)
      if hit.m.reflect > 0 then
        (color.scale (1 - hit.m.reflect)).add
          ((trace sqrt (reflRay sqrt ray hit) objs light (depth + 1)).scale hit.m.reflect)
      else color
termination_by (MAX_DEPTH + 1 - depth).toNat
decreasing_by
  simp only [MAX_DEPTH] at *
  omega

end V5

/-! ## Variant V6 (`V6codeEdited.cpp`) -/

namespace V6

variable {K : Type} [LinearOrderedField K]

/-- The constant `constexpr double INF = std::numeric_limits<double>::infinity();`. -/
def INF : WithTop K := ⊤

/-- The constant `constexpr int MAX_DEPTH = 3;`. -/
def MAX_DEPTH : Int := 3

/-- The record `struct Vec { double x,y,z; }`. -/
@[ext]
structure Vec (K : Type) where
  x : K
  y : K
  z : K

/-- The constructor `Vec(double v=0)`, which is also the default constructor. -/
def Vec.splat (v : K) : Vec K := ⟨v, v, v⟩

/-- The sum `Vec::operator+(const Vec&)`. -/
def Vec.add (a o : Vec K) : Vec K := ⟨a.x + o.x, a.y + o.y, a.z + o.z⟩

/-- The difference `Vec::operator-(const Vec&)`. -/
def Vec.sub (a o : Vec K) : Vec K := ⟨a.x - o.x, a.y - o.y, a.z - o.z⟩

/-- The scaling `Vec::operator*(double)`. -/
def Vec.scale (a : Vec K) (s : K) : Vec K := ⟨a.x * s, a.y * s, a.z * s⟩

/-- The component-wise product `Vec::operator*(const Vec&)`. -/
def Vec.mul (a o : Vec K) : Vec K := ⟨a.x * o.x, a.y * o.y, a.z * o.z⟩

/-- The method `Vec::norm`: scale by the reciprocal of the Euclidean length. -/
def Vec.norm (sqrt : K → K) (a : Vec K) : Vec K :=
  let m := sqrt (a.x * a.x + a.y * a.y + a.z * a.z)
  a.scale (1 / m)

/-- The method `Vec::dot`. -/
def Vec.dot (a o : Vec K) : K := a.x * o.x + a.y * o.y + a.z * o.z

/-- The record `struct Ray { Vec o,d; }`. -/
structure Ray (K : Type) where
  o : Vec K
  d : Vec K

/-- The record `struct Hit { double t; Vec p,n,color; double refl; }`; `t` may hold `INF`. -/
@[ext]
structure Hit (K : Type) where
  t : WithTop K
  p : Vec K
  n : Vec K
  color : Vec K
  refl : K

/-- The data members of `struct Sphere`. -/
structure Sphere (K : Type) where
  c : Vec K
  color : Vec K
  r : K
  refl : K

/-- The data members of `struct Plane`. -/
structure Plane (K : Type) where
  p : Vec K
  n : Vec K
  color : Vec K
  refl : K

/-- The constructor `Plane(Vec p, Vec n, Vec col, double refl)`, which stores `n.norm()`. -/
def Plane.new (sqrt : K → K) (p n col : Vec K) (refl : K) : Plane K :=
  ⟨p, n.norm sqrt, col, refl⟩

/-- The method `Sphere::intersect`: it reads `h.t`, and returns the boolean together with the
caller's record as the call leaves it. -/
def Sphere.intersect (sqrt : K → K) (s : Sphere K) (ray : Ray K) (h : Hit K) : Bool × Hit K :=
  let oc := ray.o.sub s.c
  let b := oc.dot ray.d
  let c2 := oc.dot oc - s.r * s.r
  let disc := b * b - c2
  if disc < 0 then (false, h)
  else
    let t := -b - sqrt disc
    if t < 1 / 10000 ∨ (t : WithTop K) > h.t then (false, h)
    else
      let p := ray.o.add (ray.d.scale t)
      (true, ⟨(t : WithTop K), p, (p.sub s.c).norm sqrt, s.color, s.refl⟩)

/-- The method `Plane::intersect`. -/
def Plane.intersect (pl : Plane K) (ray : Ray K) (h : Hit K) : Bool × Hit K :=
  let d := pl.n.dot ray.d
  if |d| < 1 / 1000000 then (false, h)
  else
    let t := (pl.p.sub ray.o).dot pl.n / d
    if t < 1 / 10000 ∨ (t : WithTop K) > h.t then (false, h)
    else (true, ⟨(t : WithTop K), ray.o.add (ray.d.scale t), pl.n, pl.color, pl.refl⟩)

/-- The class hierarchy `Object` with its two subclasses. -/
inductive Object (K : Type) where
  | sphere (s : Sphere K)
  | plane (pl : Plane K)

/-- The virtual call `o->intersect(ray, h)`. -/
def Object.intersect (sqrt : K → K) (o : Object K) (ray : Ray K) (h : Hit K) : Bool × Hit K :=
  match o with
  | .sphere s => s.intersect sqrt ray h
  | .plane pl => pl.intersect ray h

/-- The test `dynamic_cast<Plane*>(o)`. -/
def Object.isPlane (o : Object K) : Bool :=
  match o with
  | .sphere _ => false
  | .plane _ => true

/-- The record after `Hit h; h.t=INF;`: the three vectors are default-constructed to zero;
`refl` is indeterminate in C++ and is read only after a hit has overwritten it. -/
def Hit.init : Hit K := ⟨INF, Vec.splat 0, Vec.splat 0, Vec.splat 0, 0⟩

/-- One iteration of the first loop of `trace`: `if(o->intersect(r,h)) hit=o;`, on the state
`(h, hit)`. -/
def nearestStep (sqrt : K → K) (r : Ray K) (st : Hit K × Option (Object K)) (o : Object K) :
    Hit K × Option (Object K) :=
  let res := o.intersect sqrt r st.1
  if res.1 then (res.2, some o) else (res.2, st.2)

/-- The first loop of `trace`, started from `h.t = INF` and `hit = nullptr`. -/
def nearest (sqrt : K → K) (r : Ray K) (objs : List (Object K)) : Hit K × Option (Object K) :=
  objs.foldl (nearestStep sqrt r) (Hit.init, none)

/-- One iteration of the shadow loop of `trace`: a fresh record with `sh.t = INF`, planes are
skipped, a reported hit sets `blocked`. -/
def blockedStep (sqrt : K → K) (shadow : Ray K) (blocked : Bool) (o : Object K) : Bool :=
  if o.isPlane then blocked
  else if (o.intersect sqrt shadow Hit.init).1 then true
  else blocked

/-- The shadow loop of `trace`. -/
def blocked (sqrt : K → K) (shadow : Ray K) (objs : List (Object K)) : Bool :=
  objs.foldl (blockedStep sqrt shadow) false

/-- The local `ldir` of `trace`. -/
def ldir (sqrt : K → K) (light : Vec K) (h : Hit K) : Vec K :=
  (light.sub h.p).norm sqrt

/-- The local `shadow` of `trace`. -/
def shadowRay (sqrt : K → K) (light : Vec K) (h : Hit K) : Ray K :=
  ⟨h.p.add (h.n.scale (1 / 10000)), ldir sqrt light h⟩

/-- The local `diff` of `trace` (the diffuse factor). -/
def diff (sqrt : K → K) (objs : List (Object K)) (light : Vec K) (h : Hit K) : K :=
  if blocked sqrt (shadowRay sqrt light h) objs then 0
  else max 0 (h.n.dot (ldir sqrt light h))

/-- The ray of the recursive call of `trace`: origin `h.p+h.n*1e-4`, direction `rd.norm()` with
`rd = r.d - h.n*2*r.d.dot(h.n)`. -/
def reflRay (sqrt : K → K) (r : Ray K) (h : Hit K) : Ray K :=
  let rd := r.d.sub ((h.n.scale 2).scale (r.d.dot h.n))
  ⟨h.p.add (h.n.scale (1 / 10000)), rd.norm sqrt⟩

/-- The function `trace`. -/
def trace (sqrt : K → K) (r : Ray K) (objs : List (Object K)) (light : Vec K) (depth : Int) :
    Vec K :=
  match nearest sqrt r objs with
  | (_, none) => Vec.splat 0
  | (h, some _) =>
    let col := h.color.scale (diff sqrt objs light h)
    if depth < MAX_DEPTH ∧ h.refl > 0 then
      (col.scale (1 - h.refl)).add
        ((trace sqrt (reflRay sqrt r h) objs light (depth + 1)).scale h.refl)
    else col
termination_by (MAX_DEPTH - depth).toNat
decreasing_by
  simp only [MAX_DEPTH] at *
  omega

end V6

/-! ## Variant V3 (`V3code.cpp`) -/

namespace V3

variable {K : Type} [LinearOrderedField K]

/-- The constant `constexpr double EPS = 1e-4;`. -/
def EPS : K := 1 / 10000

/-- The constant `constexpr double INF = std::numeric_limits<double>::infinity();`. -/
def INF : WithTop K := ⊤

/-- The record `struct Vec3 { double x, y, z; }`. -/
@[ext]
structure Vec3 (K : Type) where
  x : K
  y : K
  z : K

/-- The constructor `Vec3(double v)`. -/
def Vec3.splat (v : K) : Vec3 K := ⟨v, v, v⟩

/-- The sum `Vec3::operator+` (and the update `operator+=`). -/
def Vec3.add (a b : Vec3 K) : Vec3 K := ⟨a.x + b.x, a.y + b.y, a.z + b.z⟩

/-- The difference `Vec3::operator-`. -/
def Vec3.sub (a b : Vec3 K) : Vec3 K := ⟨a.x - b.x, a.y - b.y, a.z - b.z⟩

/-- The scaling `Vec3::operator*(double)`. -/
def Vec3.scale (a : Vec3 K) (s : K) : Vec3 K := ⟨a.x * s, a.y * s, a.z * s⟩

/-- The division `Vec3::operator/(double)`. -/
def Vec3.div (a : Vec3 K) (s : K) : Vec3 K := ⟨a.x / s, a.y / s, a.z / s⟩

/-- The method `Vec3::dot`. -/
def Vec3.dot (a b : Vec3 K) : K := a.x * b.x + a.y * b.y + a.z * b.z

/-- The method `Vec3::normalize`. -/
def Vec3.normalize (sqrt : K → K) (a : Vec3 K) : Vec3 K :=
  let len := sqrt (a.dot a)
  a.div len

/-- The function `reflect`. -/
def reflect (v n : Vec3 K) : Vec3 K := v.sub (n.scale (2 * v.dot n))

/-- The record `struct Ray`. -/
structure Ray (K : Type) where
  origin : Vec3 K
  direction : Vec3 K

/-- The record `struct Material`. -/
structure Material (K : Type) where
  color : Vec3 K
  reflectivity : K

/-- The record `struct Hit`; the pointer `const Material* material` to the immutable material of
the primitive is the material itself. -/
structure Hit (K : Type) where
  t : K
  position : Vec3 K
  normal : Vec3 K
  material : Material K

/-- The data members of `struct Sphere`. -/
structure Sphere (K : Type) where
  center : Vec3 K
  radius : K
  material : Material K

/-- The data members of `struct Plane`. -/
structure Plane (K : Type) where
  point : Vec3 K
  normal : Vec3 K
  material : Material K

/-- The constructor `Plane(const Vec3& p, const Vec3& n, const Material& m)`, which stores
`n.normalize()`. -/
def Plane.new (sqrt : K → K) (p n : Vec3 K) (m : Material K) : Plane K :=
  ⟨p, n.normalize sqrt, m⟩

/-- The method `Sphere::intersect`; the out-parameter is written exactly when the result is
`true` and never read, which is the `Option` returned here. -/
def Sphere.intersect (sqrt : K → K) (s : Sphere K) (ray : Ray K) : Option (Hit K) :=
  let oc := ray.origin.sub s.center
  let a := ray.direction.dot ray.direction
  let b := 2 * oc.dot ray.direction
  let c := oc.dot oc - s.radius * s.radius
  let disc := b * b - 4 * a * c
  if disc < 0 then none
  else
    let t := (-b - sqrt disc) / (2 * a)
    if t < EPS then none
    else
      let position := ray.origin.add (ray.direction.scale t)
      some ⟨t, position, (position.sub s.center).normalize sqrt, s.material⟩

/-- The method `Plane::intersect`. -/
def Plane.intersect (pl : Plane K) (ray : Ray K) : Option (Hit K) :=
  let denom := pl.normal.dot ray.direction
  if |denom| < EPS then none
  else
    let t := (pl.point.sub ray.origin).dot pl.normal / denom
    if t < EPS then none
    else some ⟨t, ray.origin.add (ray.direction.scale t), pl.normal, pl.material⟩

/-- The class hierarchy `Object` with its two subclasses. -/
inductive Object (K : Type) where
  | sphere (s : Sphere K)
  | plane (pl : Plane K)

/-- The virtual call `obj->intersect(ray, hit)`. -/
def Object.intersect (sqrt : K → K) (o : Object K) (ray : Ray K) : Option (Hit K) :=
  match o with
  | .sphere s => s.intersect sqrt ray
  | .plane pl => pl.intersect ray

/-- The record `struct Light`. -/
structure Light (K : Type) where
  position : Vec3 K
  intensity : Vec3 K

/-- The record `struct Scene`. -/
structure Scene (K : Type) where
  objects : List (Object K)
  lights : List (Light K)

/-- The value of `closestHit.t` in the first loop of `trace`: `INF` as long as `hitSomething`
is `false` (`none`), the `t` of the recorded hit afterwards. -/
def closestT (acc : Option (Hit K)) : WithTop K :=
  match acc with
  | none => INF
  | some b => (b.t : WithTop K)

/-- One iteration of the first loop of `trace`:
`if (obj->intersect(ray, hit) && hit.t < closestHit.t)` then
`closestHit = hit; hitSomething = true;`.  The pair `(hitSomething, closestHit)` is an
`Option`. -/
def nearestStep (sqrt : K → K) (ray : Ray K) (acc : Option (Hit K)) (obj : Object K) :
    Option (Hit K) :=
  match obj.intersect sqrt ray with
  | some hit => if (hit.t : WithTop K) < closestT acc then some hit else acc
  | none => acc

/-- The first loop of `trace` (nearest-hit scan). -/
def nearest (sqrt : K → K) (ray : Ray K) (objects : List (Object K)) : Option (Hit K) :=
  objects.foldl (nearestStep sqrt ray) none

/-- The inner loop over `scene.objects` for one light: the first object that reports a hit for
the shadow ray sets `inShadow` and leaves the loop. -/
def inShadow (sqrt : K → K) (shadowRay : Ray K) : List (Object K) → Bool
  | [] => false
  | obj :: rest =>
    if (obj.intersect sqrt shadowRay).isSome then true
    else inShadow sqrt shadowRay rest

/-- The local `toLight` of `trace`. -/
def toLight (sqrt : K → K) (light : Light K) (closestHit : Hit K) : Vec3 K :=
  (light.position.sub closestHit.position).normalize sqrt

/-- The local `shadowRay` of `trace`. -/
def shadowRay (sqrt : K → K) (light : Light K) (closestHit : Hit K) : Ray K :=
  ⟨closestHit.position.add (closestHit.normal.scale EPS), toLight sqrt light closestHit⟩

/-- What one light adds to `color` in the loop over `scene.lights`: nothing when `inShadow`,
`closestHit.material->color * diff` otherwise. -/
def lightTerm (sqrt : K → K) (objects : List (Object K)) (closestHit : Hit K)
    (light : Light K) : Vec3 K :=
  if inShadow sqrt (shadowRay sqrt light closestHit) objects then Vec3.splat 0
  else
    let diff := max 0 (closestHit.normal.dot (toLight sqrt light closestHit))
    closestHit.material.color.scale diff

/-- The loop over `scene.lights`, started from `Vec3 color(0)`. -/
def direct (sqrt : K → K) (scene : Scene K) (closestHit : Hit K) : Vec3 K :=
  scene.lights.foldl (fun color light => color.add (lightTerm sqrt scene.objects closestHit light))
    (Vec3.splat 0)

/-- The local `reflRay` of `trace`. -/
def reflRay (sqrt : K → K) (ray : Ray K) (closestHit : Hit K) : Ray K :=
  ⟨closestHit.position.add (closestHit.normal.scale EPS),
    (reflect ray.direction closestHit.normal).normalize sqrt⟩

/-- The function `trace`. -/
def trace (sqrt : K → K) (ray : Ray K) (scene : Scene K) (depth : Int) : Vec3 K :=
  if depth ≤ 0 then Vec3.splat 0
  else
    match nearest sqrt ray scene.objects with
    | none => Vec3.splat 0
    | some closestHit =>
      let color := direct sqrt scene closestHit
      if closestHit.material.reflectivity > 0 then
        let reflColor := trace sqrt (reflRay sqrt ray closestHit) scene (depth - 1)
        (color.scale (1 - closestHit.material.reflectivity)).add
          (reflColor.scale closestHit.material.reflectivity)
      else color
termination_by depth.toNat
decreasing_by
  omega

end V3

/-! ## Conversion of a colour channel to a pixel value -/

namespace Cxx

variable {K : Type} [LinearOrderedField K] [FloorRing K]

/-- Rounding toward zero, the rounding of a C++ conversion from `double` to `int`. -/
def trunc (x : K) : Int := if 0 ≤ x then Int.floor x else Int.ceil x

/-- The conversion `int(x)` of a `double` to a 32-bit `int`: the value rounded toward zero
when that is representable (`-2^31 ≤ trunc x ≤ 2^31 - 1`), undefined (`none`) otherwise. -/
def toInt (x : K) : Option Int :=
  if -(2 ^ 31 : K) - 1 < x ∧ x < (2 ^ 31 : K) then some (trunc x) else none

end Cxx

namespace V5

variable {K : Type} [LinearOrderedField K] [FloorRing K]

/-- The pixel conversion of `main`, for one channel: `std::min(255,int(c.x*255))`.  The product
`c.x*255` is a `double`: the exact product rounded to binary64, by the parameter `rnd`
(`Cxx.fl` for the program as compiled). -/
def channel (rnd : K → K) (c : K) : Option Int :=
  (Cxx.toInt (rnd (c * 255))).map (fun v => min 255 v)

end V5

namespace V3

variable {K : Type} [LinearOrderedField K] [FloorRing K]

/-- The pixel conversion of `main`, for one channel: `col.x = std::min(1.0, col.x);` followed
by `int(col.x * 255)`.  The product `col.x * 255` is a `double`: the exact product rounded to
binary64, by the parameter `rnd` (`Cxx.fl` for the program as compiled). -/
def channel (rnd : K → K) (c : K) : Option Int := Cxx.toInt (rnd (min 1 c * 255))

end V3

namespace V5

variable {K : Type} [LinearOrderedField K]

/-- What one execution of the body of `trace` past the depth test does: the `depth` it was
called with, the rays it passes to `intersect` in call order, and the nearest hit it finds. -/
structure Level (K : Type) where
  depth : Int
  rays : List (Ray K)
  hit : Option (Hit K)

/-- The rays the second loop of `trace` passes to `intersect`: one call for every object that
is not a plane, up to and including the first that reports a hit. -/
def shadowCalls (sqrt : K → K) (shadow : Ray K) : List (Object K) → List (Ray K)
  | [] => []
  | o :: rest =>
    if o.isPlane then shadowCalls sqrt shadow rest
    else if (o.intersect sqrt shadow).isSome then [shadow]
    else shadow :: shadowCalls sqrt shadow rest

/-- The function `trace` returning, next to its colour, one `Level` for every nearest-hit scan it
performs, outermost call first.  The first loop passes `ray` to `intersect` once per object. -/
def traceLog (sqrt : K → K) (ray : Ray K) (objs : List (Object K)) (light : Vec K)
    (depth : Int) : Vec K × List (Level K) :=
  if depth > MAX_DEPTH then (⟨0, 0, 0⟩, [])
  else
    match nearest sqrt ray objs with
    | none => (⟨0, 0, 0⟩, [⟨depth, objs.map (fun _ => ray), none⟩])
    | some hit =>
      let color := hit.m.color.scale (diff sqrt objs light hit)
      let level : Level K :=
        ⟨depth, objs.map (fun _ => ray) ++ shadowCalls sqrt (shadowRay sqrt light hit) objs,
          some hit⟩
      if hit.m.reflect > 0 then
        let sub := traceLog sqrt (reflRay sqrt ray hit) objs light (depth + 1)
        ((color.scale (1 - hit.m.reflect)).add (sub.1.scale hit.m.reflect), level :: sub.2)
      else (color, [level])
termination_by (MAX_DEPTH + 1 - depth).toNat
decreasing_by
  simp only [MAX_DEPTH] at *
  omega

end V5

namespace V6

variable {K : Type} [LinearOrderedField K]

/-- The function `trace` returning, next to its colour, the `depth` of every call that performs
the nearest-hit scan, outermost call first. -/
def traceLog (sqrt : K → K) (r : Ray K) (objs : List (Object K)) (light : Vec K) (depth : Int) :
    Vec K × List Int :=
  match nearest sqrt r objs with
  | (_, none) => (Vec.splat 0, [depth])
  | (h, some _) =>
    let col := h.color.scale (diff sqrt objs light h)
    if depth < MAX_DEPTH ∧ h.refl > 0 then
      let sub := traceLog sqrt (reflRay sqrt r h) objs light (depth + 1)
      ((col.scale (1 - h.refl)).add (sub.1.scale h.refl), depth :: sub.2)
    else (col, [depth])
termination_by (MAX_DEPTH - depth).toNat
decreasing_by
  simp only [MAX_DEPTH] at *
  omega

end V6

namespace V3

variable {K : Type} [LinearOrderedField K]

/-- The function `trace` returning, next to its colour, the `depth` of every call that performs
the nearest-hit scan, outermost call first. -/
def traceLog (sqrt : K → K) (ray : Ray K) (scene : Scene K) (depth : Int) :
    Vec3 K × List Int :=
  if depth ≤ 0 then (Vec3.splat 0, [])
  else
    match nearest sqrt ray scene.objects with
    | none => (Vec3.splat 0, [depth])
    | some closestHit =>
      let color := direct sqrt scene closestHit
      if closestHit.material.reflectivity > 0 then
        let sub := traceLog sqrt (reflRay sqrt ray closestHit) scene (depth - 1)
        ((color.scale (1 - closestHit.material.reflectivity)).add
          (sub.1.scale closestHit.material.reflectivity), depth :: sub.2)
      else (color, [depth])
termination_by depth.toNat
decreasing_by
  omega

end V3

/-! ## Theorems -/

/-! ### Helper lemmas on the quadratic of the sphere intersection -/

/-- With a unit direction, the squared distance from the centre of the point at parameter `x`
is `x^2 + 2*b*x + oc.oc`. -/
theorem quad_expand (ox oy oz dx dy dz x : ℝ) (hd : dx * dx + dy * dy + dz * dz = 1) :
    (ox + dx * x) * (ox + dx * x) + (oy + dy * x) * (oy + dy * x) + (oz + dz * x) * (oz + dz * x)
      = x * x + 2 * (ox * dx + oy * dy + oz * dz) * x + (ox * ox + oy * oy + oz * oz) := by
  linear_combination (x * x) * hd

/-- The parameter `-b - sqrt (b*b - c2)` is a root of `x^2 + 2*b*x + c2`. -/
theorem small_root_is_root (b c2 : ℝ) (hdisc : ¬ b * b - c2 < 0) :
    (-b - Real.sqrt (b * b - c2)) * (-b - Real.sqrt (b * b - c2))
      + 2 * b * (-b - Real.sqrt (b * b - c2)) + c2 = 0 := by
  have hs := Real.mul_self_sqrt (not_lt.mp hdisc)
  linear_combination hs

/-- The parameter `-b - sqrt (b*b - c2)` is below every root of `x^2 + 2*b*x + c2`. -/
theorem small_root_le (b c2 x : ℝ) (hdisc : ¬ b * b - c2 < 0) (hx : x * x + 2 * b * x + c2 = 0) :
    -b - Real.sqrt (b * b - c2) ≤ x := by
  have hs := Real.mul_self_sqrt (not_lt.mp hdisc)
  have h0 := Real.sqrt_nonneg (b * b - c2)
  by_contra hlt
  push_neg at hlt
  have h1 : x + b + Real.sqrt (b * b - c2) < 0 := by linarith
  have h2 : x + b - Real.sqrt (b * b - c2) < 0 := by linarith
  have h3 := mul_pos_of_neg_of_neg h1 h2
  nlinarith

/-! ### What a reported hit looks like -/

/-- A hit reported by `Sphere::intersect` of V5: the discriminant is not negative, the smaller
root is not below `EPS`, and the record holds that root, the point at it, the normalised
offset from the centre and the sphere's material. -/
theorem V5_sphere_hit {s : V5.Sphere ℝ} {ray : V5.Ray ℝ} {h : V5.Hit ℝ}
    (hint : s.intersect Real.sqrt ray = some h) :
    ¬ ((ray.o.sub s.c).dot ray.d * (ray.o.sub s.c).dot ray.d
        - ((ray.o.sub s.c).dot (ray.o.sub s.c) - s.r * s.r) < 0) ∧
    ¬ (h.t < V5.EPS) ∧
    h.t = -(ray.o.sub s.c).dot ray.d - Real.sqrt ((ray.o.sub s.c).dot ray.d
        * (ray.o.sub s.c).dot ray.d - ((ray.o.sub s.c).dot (ray.o.sub s.c) - s.r * s.r)) ∧
    h.p = ray.o.add (ray.d.scale h.t) ∧
    h.n = (h.p.sub s.c).norm Real.sqrt ∧
    h.m = s.m := by
  simp only [V5.Sphere.intersect] at hint
  split_ifs at hint with hdisc ht
  simp only [Option.some.injEq] at hint
  subst hint
  exact ⟨hdisc, ht, rfl, rfl, rfl, rfl⟩

/-- A hit reported by `Sphere::intersect` of V6 on the incoming record `h0`. -/
theorem V6_sphere_hit {s : V6.Sphere ℝ} {ray : V6.Ray ℝ} {h0 h : V6.Hit ℝ}
    (hint : s.intersect Real.sqrt ray h0 = (true, h)) :
    ∃ t : ℝ, ¬ ((ray.o.sub s.c).dot ray.d * (ray.o.sub s.c).dot ray.d
        - ((ray.o.sub s.c).dot (ray.o.sub s.c) - s.r * s.r) < 0) ∧
    ¬ (t < 1 / 10000) ∧ ¬ ((t : WithTop ℝ) > h0.t) ∧
    t = -(ray.o.sub s.c).dot ray.d - Real.sqrt ((ray.o.sub s.c).dot ray.d
        * (ray.o.sub s.c).dot ray.d - ((ray.o.sub s.c).dot (ray.o.sub s.c) - s.r * s.r)) ∧
    h.t = (t : WithTop ℝ) ∧
    h.p = ray.o.add (ray.d.scale t) ∧
    h.n = (h.p.sub s.c).norm Real.sqrt ∧
    h.color = s.color ∧ h.refl = s.refl := by
  simp only [V6.Sphere.intersect] at hint
  split_ifs at hint with hdisc ht
  · simp at hint
  · simp at hint
  · simp only [Prod.mk.injEq, true_and] at hint
    subst hint
    push_neg at ht
    exact ⟨_, hdisc, not_lt.mpr ht.1, not_lt.mpr ht.2, rfl, rfl, rfl, rfl, rfl, rfl⟩

/-! ### C1 -/

/-- C1 (V5, V6 with incoming `h.t = INF`): for a sphere of radius `r > 0` and a ray with a
unit-length direction, whenever `Sphere::intersect` reports a hit, the reported position is
`o + t*d`, it lies on the sphere (`|p - c|^2 = r^2`), and `t` is below every real `x` with
`|o + x*d - c|^2 = r^2`.  The ray from `(0,0,-4)` toward `(0,0,1)` against the unit sphere at
the origin reports `t = 3`, position `(0,0,-1)` and normal `(0,0,-1)`. -/
theorem sphere_intersect_nearest_root :
    (∀ (s : V5.Sphere ℝ) (ray : V5.Ray ℝ) (h : V5.Hit ℝ), 0 < s.r → ray.d.dot ray.d = 1 →
      s.intersect Real.sqrt ray = some h →
        h.p = ray.o.add (ray.d.scale h.t) ∧
        (h.p.sub s.c).dot (h.p.sub s.c) = s.r * s.r ∧
        ∀ x : ℝ, ((ray.o.add (ray.d.scale x)).sub s.c).dot ((ray.o.add (ray.d.scale x)).sub s.c)
          = s.r * s.r → h.t ≤ x) ∧
    (∀ (s : V6.Sphere ℝ) (ray : V6.Ray ℝ) (h0 h : V6.Hit ℝ), 0 < s.r → ray.d.dot ray.d = 1 →
      h0.t = V6.INF → s.intersect Real.sqrt ray h0 = (true, h) →
        ∃ t : ℝ, h.t = (t : WithTop ℝ) ∧
          h.p = ray.o.add (ray.d.scale t) ∧
          (h.p.sub s.c).dot (h.p.sub s.c) = s.r * s.r ∧
          ∀ x : ℝ, ((ray.o.add (ray.d.scale x)).sub s.c).dot ((ray.o.add (ray.d.scale x)).sub s.c)
            = s.r * s.r → t ≤ x) ∧
    (∀ m : V5.Material ℝ,
      V5.Sphere.intersect Real.sqrt ⟨⟨0, 0, 0⟩, 1, m⟩ ⟨⟨0, 0, -4⟩, ⟨0, 0, 1⟩⟩
        = some ⟨3, ⟨0, 0, -1⟩, ⟨0, 0, -1⟩, m⟩) ∧
    (∀ (col : V6.Vec ℝ) (refl : ℝ) (h0 : V6.Hit ℝ), h0.t = V6.INF →
      V6.Sphere.intersect Real.sqrt ⟨⟨0, 0, 0⟩, col, 1, refl⟩ ⟨⟨0, 0, -4⟩, ⟨0, 0, 1⟩⟩ h0
        = (true, ⟨((3 : ℝ) : WithTop ℝ), ⟨0, 0, -1⟩, ⟨0, 0, -1⟩, col, refl⟩)) := by
  refine ⟨?_, ?_, ?_, ?_⟩
  · intro s ray h _ hd hint
    obtain ⟨hdisc, _, ht, hp, _, _⟩ := V5_sphere_hit hint
    simp only [V5.Vec.dot, V5.Vec.sub] at hdisc ht hd
    have hr := small_root_is_root _ _ hdisc
    rw [← ht] at hr
    refine ⟨hp, ?_, ?_⟩
    · have he := quad_expand (ray.o.x - s.c.x) (ray.o.y - s.c.y) (ray.o.z - s.c.z)
        ray.d.x ray.d.y ray.d.z h.t hd
      rw [hp]
      simp only [V5.Vec.dot, V5.Vec.sub, V5.Vec.add, V5.Vec.scale]
      linear_combination he + hr
    · intro x hx
      have he := quad_expand (ray.o.x - s.c.x) (ray.o.y - s.c.y) (ray.o.z - s.c.z)
        ray.d.x ray.d.y ray.d.z x hd
      simp only [V5.Vec.dot, V5.Vec.sub, V5.Vec.add, V5.Vec.scale] at hx
      rw [ht]
      apply small_root_le _ _ _ hdisc
      linear_combination hx - he
  · intro s ray h0 h _ hd _ hint
    obtain ⟨t, hdisc, _, _, ht, hht, hp, _, _, _⟩ := V6_sphere_hit hint
    simp only [V6.Vec.dot, V6.Vec.sub] at hdisc ht hd
    have hr := small_root_is_root _ _ hdisc
    rw [← ht] at hr
    refine ⟨t, hht, hp, ?_, ?_⟩
    · have he := quad_expand (ray.o.x - s.c.x) (ray.o.y - s.c.y) (ray.o.z - s.c.z)
        ray.d.x ray.d.y ray.d.z t hd
      rw [hp]
      simp only [V6.Vec.dot, V6.Vec.sub, V6.Vec.add, V6.Vec.scale]
      linear_combination he + hr
    · intro x hx
      have he := quad_expand (ray.o.x - s.c.x) (ray.o.y - s.c.y) (ray.o.z - s.c.z)
        ray.d.x ray.d.y ray.d.z x hd
      simp only [V6.Vec.dot, V6.Vec.sub, V6.Vec.add, V6.Vec.scale] at hx
      rw [ht]
      apply small_root_le _ _ _ hdisc
      linear_combination hx - he
  · intro m
    simp [V5.Sphere.intersect, V5.Vec.dot, V5.Vec.sub, V5.Vec.add, V5.Vec.scale, V5.Vec.norm,
      V5.EPS]
    norm_num
  · intro col refl h0 h0t
    have h43 : (4 : ℝ) - 1 = 3 := by norm_num
    simp [V6.Sphere.intersect, V6.Vec.dot, V6.Vec.sub, V6.Vec.add, V6.Vec.scale, V6.Vec.norm,
      h0t, V6.INF, h43]
    norm_num

/-- C1, at the ray from `(0,0,-4)` toward `(0,0,1)` and the unit sphere at the origin: the
hypotheses hold there and the reported `t = 3` is below every root. -/
theorem sphere_intersect_nearest_root_witness :
    (0 : ℝ) < 1 ∧ V5.Vec.dot (⟨0, 0, 1⟩ : V5.Vec ℝ) ⟨0, 0, 1⟩ = 1 ∧
    V5.Sphere.intersect Real.sqrt ⟨⟨0, 0, 0⟩, 1, ⟨⟨1, 1, 1⟩, 0⟩⟩ ⟨⟨0, 0, -4⟩, ⟨0, 0, 1⟩⟩
      = some ⟨3, ⟨0, 0, -1⟩, ⟨0, 0, -1⟩, ⟨⟨1, 1, 1⟩, 0⟩⟩ ∧
    ((⟨0, 0, -1⟩ : V5.Vec ℝ) = V5.Vec.add ⟨0, 0, -4⟩ (V5.Vec.scale ⟨0, 0, 1⟩ 3) ∧
      V5.Vec.dot (V5.Vec.sub (⟨0, 0, -1⟩ : V5.Vec ℝ) ⟨0, 0, 0⟩)
        (V5.Vec.sub ⟨0, 0, -1⟩ ⟨0, 0, 0⟩) = 1 * 1 ∧
      ∀ x : ℝ, V5.Vec.dot
          (V5.Vec.sub (V5.Vec.add (⟨0, 0, -4⟩ : V5.Vec ℝ) (V5.Vec.scale ⟨0, 0, 1⟩ x)) ⟨0, 0, 0⟩)
          (V5.Vec.sub (V5.Vec.add ⟨0, 0, -4⟩ (V5.Vec.scale ⟨0, 0, 1⟩ x)) ⟨0, 0, 0⟩) = 1 * 1 →
        3 ≤ x) :=
  ⟨by norm_num, by simp [V5.Vec.dot], sphere_intersect_nearest_root.2.2.1 _,
    sphere_intersect_nearest_root.1 ⟨⟨0, 0, 0⟩, 1, ⟨⟨1, 1, 1⟩, 0⟩⟩ ⟨⟨0, 0, -4⟩, ⟨0, 0, 1⟩⟩
      ⟨3, ⟨0, 0, -1⟩, ⟨0, 0, -1⟩, ⟨⟨1, 1, 1⟩, 0⟩⟩ (by norm_num) (by simp [V5.Vec.dot])
      (sphere_intersect_nearest_root.2.2.1 _)⟩

/-! ### C2 -/

/-- The nearest-hit scan of V5 keeps its state over objects that report no hit. -/
theorem V5_foldl_nearestStep_none (ray : V5.Ray ℝ) (objs : List (V5.Object ℝ))
    (acc : Option (V5.Hit ℝ)) (hmiss : ∀ o ∈ objs, o.intersect Real.sqrt ray = none) :
    objs.foldl (V5.nearestStep Real.sqrt ray) acc = acc := by
  induction objs generalizing acc with
  | nil => rfl
  | cons o rest ih =>
    have ho : o.intersect Real.sqrt ray = none := hmiss o (List.mem_cons_self _ _)
    have hstep : V5.nearestStep Real.sqrt ray acc o = acc := by
      simp only [V5.nearestStep, ho]
    rw [List.foldl_cons, hstep]
    exact ih acc (fun o' ho' => hmiss o' (List.mem_cons_of_mem _ ho'))

/-- The nearest-hit scan of V3 keeps its state over objects that report no hit. -/
theorem V3_foldl_nearestStep_none (ray : V3.Ray ℝ) (objs : List (V3.Object ℝ))
    (acc : Option (V3.Hit ℝ)) (hmiss : ∀ o ∈ objs, o.intersect Real.sqrt ray = none) :
    objs.foldl (V3.nearestStep Real.sqrt ray) acc = acc := by
  induction objs generalizing acc with
  | nil => rfl
  | cons o rest ih =>
    have ho : o.intersect Real.sqrt ray = none := hmiss o (List.mem_cons_self _ _)
    have hstep : V3.nearestStep Real.sqrt ray acc o = acc := by
      simp only [V3.nearestStep, ho]
    rw [List.foldl_cons, hstep]
    exact ih acc (fun o' ho' => hmiss o' (List.mem_cons_of_mem _ ho'))

/-- A call of `intersect` of V6 that returns `false` leaves the caller's record as it was. -/
theorem V6_intersect_false_unchanged (o : V6.Object ℝ) (r : V6.Ray ℝ) (h : V6.Hit ℝ)
    (hf : (o.intersect Real.sqrt r h).1 = false) : (o.intersect Real.sqrt r h).2 = h := by
  cases o with
  | sphere s =>
    simp only [V6.Object.intersect, V6.Sphere.intersect] at hf ⊢
    split_ifs at hf ⊢ <;> simp_all
  | plane pl =>
    simp only [V6.Object.intersect, V6.Plane.intersect] at hf ⊢
    split_ifs at hf ⊢ <;> simp_all

/-- The nearest-hit scan of V6, started from the initial record, keeps its state over objects
that report no hit on that record. -/
theorem V6_foldl_nearestStep_none (r : V6.Ray ℝ) (objs : List (V6.Object ℝ))
    (hit : Option (V6.Object ℝ))
    (hmiss : ∀ o ∈ objs, (o.intersect Real.sqrt r V6.Hit.init).1 = false) :
    objs.foldl (V6.nearestStep Real.sqrt r) (V6.Hit.init, hit) = (V6.Hit.init, hit) := by
  induction objs with
  | nil => rfl
  | cons o rest ih =>
    have ho := hmiss o (List.mem_cons_self _ _)
    have hstep : V6.nearestStep Real.sqrt r (V6.Hit.init, hit) o = (V6.Hit.init, hit) := by
      simp only [V6.nearestStep, ho, V6_intersect_false_unchanged o r _ ho]
      simp
    rw [List.foldl_cons, hstep]
    exact ih (fun o' ho' => hmiss o' (List.mem_cons_of_mem _ ho'))

/-- C2 (V5, V3, V6): if no primitive of the list reports a hit for the ray, `trace` returns
exactly `(0,0,0)`, whatever the light(s) and the depth; in particular it returns `(0,0,0)` for
every ray when the primitive list is empty. -/
theorem trace_miss_black :
    (∀ (ray : V5.Ray ℝ) (objs : List (V5.Object ℝ)) (light : V5.Vec ℝ) (depth : Int),
      (∀ o ∈ objs, o.intersect Real.sqrt ray = none) →
        V5.trace Real.sqrt ray objs light depth = ⟨0, 0, 0⟩) ∧
    (∀ (ray : V3.Ray ℝ) (scene : V3.Scene ℝ) (depth : Int),
      (∀ o ∈ scene.objects, o.intersect Real.sqrt ray = none) →
        V3.trace Real.sqrt ray scene depth = ⟨0, 0, 0⟩) ∧
    (∀ (r : V6.Ray ℝ) (objs : List (V6.Object ℝ)) (light : V6.Vec ℝ) (depth : Int),
      (∀ o ∈ objs, (o.intersect Real.sqrt r V6.Hit.init).1 = false) →
        V6.trace Real.sqrt r objs light depth = ⟨0, 0, 0⟩) ∧
    (∀ (ray : V5.Ray ℝ) (light : V5.Vec ℝ) (depth : Int),
      V5.trace Real.sqrt ray [] light depth = ⟨0, 0, 0⟩) ∧
    (∀ (ray : V3.Ray ℝ) (lights : List (V3.Light ℝ)) (depth : Int),
      V3.trace Real.sqrt ray ⟨[], lights⟩ depth = ⟨0, 0, 0⟩) ∧
    (∀ (r : V6.Ray ℝ) (light : V6.Vec ℝ) (depth : Int),
      V6.trace Real.sqrt r [] light depth = ⟨0, 0, 0⟩) := by
  have h5 : ∀ (ray : V5.Ray ℝ) (objs : List (V5.Object ℝ)) (light : V5.Vec ℝ) (depth : Int),
      (∀ o ∈ objs, o.intersect Real.sqrt ray = none) →
        V5.trace Real.sqrt ray objs light depth = ⟨0, 0, 0⟩ := by
    intro ray objs light depth hmiss
    have hn : V5.nearest Real.sqrt ray objs = none :=
      V5_foldl_nearestStep_none ray objs none hmiss
    rw [V5.trace, hn]
    simp
  have h3 : ∀ (ray : V3.Ray ℝ) (scene : V3.Scene ℝ) (depth : Int),
      (∀ o ∈ scene.objects, o.intersect Real.sqrt ray = none) →
        V3.trace Real.sqrt ray scene depth = ⟨0, 0, 0⟩ := by
    intro ray scene depth hmiss
    have hn : V3.nearest Real.sqrt ray scene.objects = none :=
      V3_foldl_nearestStep_none ray scene.objects none hmiss
    rw [V3.trace, hn]
    simp [V3.Vec3.splat]
  have h6 : ∀ (r : V6.Ray ℝ) (objs : List (V6.Object ℝ)) (light : V6.Vec ℝ) (depth : Int),
      (∀ o ∈ objs, (o.intersect Real.sqrt r V6.Hit.init).1 = false) →
        V6.trace Real.sqrt r objs light depth = ⟨0, 0, 0⟩ := by
    intro r objs light depth hmiss
    have hn : V6.nearest Real.sqrt r objs = (V6.Hit.init, none) :=
      V6_foldl_nearestStep_none r objs none hmiss
    rw [V6.trace, hn]
    simp [V6.Vec.splat]
  refine ⟨h5, h3, h6, ?_, ?_, ?_⟩
  · intro ray light depth
    exact h5 ray [] light depth (by simp)
  · intro ray lights depth
    exact h3 ray ⟨[], lights⟩ depth (by simp)
  · intro r light depth
    exact h6 r [] light depth (by simp)

/-- C2, at a ray that starts at `(0,0,-4)` and points away from the unit sphere at the origin:
the sphere reports no hit and `trace` of V5 returns black. -/
theorem trace_miss_black_witness :
    (∀ o ∈ [V5.Object.sphere (⟨⟨0, 0, 0⟩, 1, ⟨⟨1, 1, 1⟩, 0⟩⟩ : V5.Sphere ℝ)],
      o.intersect Real.sqrt ⟨⟨0, 0, -4⟩, ⟨0, 0, -1⟩⟩ = none) ∧
    V5.trace Real.sqrt ⟨⟨0, 0, -4⟩, ⟨0, 0, -1⟩⟩
      [V5.Object.sphere (⟨⟨0, 0, 0⟩, 1, ⟨⟨1, 1, 1⟩, 0⟩⟩ : V5.Sphere ℝ)] ⟨0, 2, 0⟩ 0
      = ⟨0, 0, 0⟩ := by
  have hmiss : ∀ o ∈ [V5.Object.sphere (⟨⟨0, 0, 0⟩, 1, ⟨⟨1, 1, 1⟩, 0⟩⟩ : V5.Sphere ℝ)],
      o.intersect Real.sqrt ⟨⟨0, 0, -4⟩, ⟨0, 0, -1⟩⟩ = none := by
    intro o ho
    rw [List.mem_singleton] at ho
    subst ho
    simp [V5.Object.intersect, V5.Sphere.intersect, V5.Vec.dot, V5.Vec.sub, V5.EPS]
    norm_num
  exact ⟨hmiss, trace_miss_black.1 _ _ _ _ hmiss⟩

/-! ### C3 -/

/-- The scan "take the candidate when its key beats the key of the state" over a list, for a
transitive relation `beats` (`<` or `≤`): either no candidate beat the starting state, or the
result is the state made from the candidate of one element, whose key beats the key of every
candidate before it and is beaten by the key of no candidate after it. -/
theorem scan_min {α H S T : Type} (beats : T → T → Prop)
    (beats_trans : ∀ a b c, beats a b → beats b c → beats a c)
    (beats_skip : ∀ a b c, beats a c → ¬ beats b c → beats a b)
    (f : α → Option H) (key : H → T) (thr : S → T) (mk : α → H → S) (step : S → α → S)
    (h_none : ∀ st o, f o = none → step st o = st)
    (h_take : ∀ st o h, f o = some h → beats (key h) (thr st) → step st o = mk o h)
    (h_skip : ∀ st o h, f o = some h → ¬ beats (key h) (thr st) → step st o = st)
    (thr_mk : ∀ o h, thr (mk o h) = key h) (l : List α) (st : S) :
    (l.foldl step st = st ∧ ∀ o ∈ l, ∀ h, f o = some h → ¬ beats (key h) (thr st)) ∨
    (∃ pre o post h, l = pre ++ o :: post ∧ f o = some h ∧ l.foldl step st = mk o h ∧
      beats (key h) (thr st) ∧ (∀ o' ∈ pre, ∀ h', f o' = some h' → beats (key h) (key h')) ∧
      (∀ o' ∈ post, ∀ h', f o' = some h' → ¬ beats (key h') (key h))) := by
  induction l generalizing st with
  | nil => exact Or.inl ⟨rfl, by simp⟩
  | cons o rest ih =>
    rw [List.foldl_cons]
    cases hfo : f o with
    | none =>
      rw [h_none st o hfo]
      rcases ih st with ⟨hres, hall⟩ | ⟨pre, o2, post, h2, hl, hf2, hres, hlt, hpre, hpost⟩
      · refine Or.inl ⟨hres, ?_⟩
        intro o' ho' h' hf'
        rcases List.mem_cons.mp ho' with rfl | hin
        · rw [hfo] at hf'
          cases hf'
        · exact hall o' hin h' hf'
      · refine Or.inr ⟨o :: pre, o2, post, h2, by rw [hl]; rfl, hf2, hres, hlt, ?_, hpost⟩
        intro o' ho' h' hf'
        rcases List.mem_cons.mp ho' with rfl | hin
        · rw [hfo] at hf'
          cases hf'
        · exact hpre o' hin h' hf'
    | some h =>
      by_cases hk : beats (key h) (thr st)
      · rw [h_take st o h hfo hk]
        rcases ih (mk o h) with
          ⟨hres, hall⟩ | ⟨pre, o2, post, h2, hl, hf2, hres, hlt, hpre, hpost⟩
        · refine Or.inr ⟨[], o, rest, h, rfl, hfo, hres, hk, by simp, ?_⟩
          intro o' ho' h' hf'
          have := hall o' ho' h' hf'
          rwa [thr_mk] at this
        · rw [thr_mk] at hlt
          refine Or.inr ⟨o :: pre, o2, post, h2, by rw [hl]; rfl, hf2, hres,
            beats_trans _ _ _ hlt hk, ?_, hpost⟩
          intro o' ho' h' hf'
          rcases List.mem_cons.mp ho' with rfl | hin
          · rw [hfo] at hf'
            cases hf'
            exact hlt
          · exact hpre o' hin h' hf'
      · rw [h_skip st o h hfo hk]
        rcases ih st with ⟨hres, hall⟩ | ⟨pre, o2, post, h2, hl, hf2, hres, hlt, hpre, hpost⟩
        · refine Or.inl ⟨hres, ?_⟩
          intro o' ho' h' hf'
          rcases List.mem_cons.mp ho' with rfl | hin
          · rw [hfo] at hf'
            cases hf'
            exact hk
          · exact hall o' hin h' hf'
        · refine Or.inr ⟨o :: pre, o2, post, h2, by rw [hl]; rfl, hf2, hres, hlt, ?_, hpost⟩
          intro o' ho' h' hf'
          rcases List.mem_cons.mp ho' with rfl | hin
          · rw [hfo] at hf'
            cases hf'
            exact beats_skip _ _ _ hlt hk
          · exact hpre o' hin h' hf'

/-- The scan of V5 from any state: either no hit is below the state's `hit.t`, or the result
is the record of the first object whose `t` is the least. -/
theorem V5_nearest_scan (ray : V5.Ray ℝ) (objs : List (V5.Object ℝ)) (acc : Option (V5.Hit ℝ)) :
    (objs.foldl (V5.nearestStep Real.sqrt ray) acc = acc ∧
      ∀ o ∈ objs, ∀ h, o.intersect Real.sqrt ray = some h → V5.hitT acc ≤ h.t) ∨
    (∃ pre o post h, objs = pre ++ o :: post ∧ o.intersect Real.sqrt ray = some h ∧
      objs.foldl (V5.nearestStep Real.sqrt ray) acc = some h ∧ h.t < V5.hitT acc ∧
      (∀ o' ∈ pre, ∀ h', o'.intersect Real.sqrt ray = some h' → h.t < h'.t) ∧
      (∀ o' ∈ post, ∀ h', o'.intersect Real.sqrt ray = some h' → h.t ≤ h'.t)) := by
  have key := scan_min (fun a b : ℝ => a < b) (fun _ _ _ => lt_trans)
    (fun _ _ _ hac hbc => lt_of_lt_of_le hac (not_lt.mp hbc))
    (fun o => V5.Object.intersect Real.sqrt o ray) (fun h => h.t) V5.hitT (fun _ h => some h)
    (V5.nearestStep Real.sqrt ray)
    (by intro acc o ho; simp only [V5.nearestStep, ho])
    (by intro acc o h ho hk; simp only [V5.nearestStep, ho, hk, if_true])
    (by intro acc o h ho hk; simp only [V5.nearestStep, ho, hk, if_false])
    (fun _ _ => rfl) objs acc
  simpa only [not_lt] using key

/-- The scan of V3 from any state. -/
theorem V3_nearest_scan (ray : V3.Ray ℝ) (objs : List (V3.Object ℝ)) (acc : Option (V3.Hit ℝ)) :
    (objs.foldl (V3.nearestStep Real.sqrt ray) acc = acc ∧
      ∀ o ∈ objs, ∀ h, o.intersect Real.sqrt ray = some h → V3.closestT acc ≤ (h.t : WithTop ℝ)) ∨
    (∃ pre o post h, objs = pre ++ o :: post ∧ o.intersect Real.sqrt ray = some h ∧
      objs.foldl (V3.nearestStep Real.sqrt ray) acc = some h ∧
      (h.t : WithTop ℝ) < V3.closestT acc ∧
      (∀ o' ∈ pre, ∀ h', o'.intersect Real.sqrt ray = some h' →
        (h.t : WithTop ℝ) < (h'.t : WithTop ℝ)) ∧
      (∀ o' ∈ post, ∀ h', o'.intersect Real.sqrt ray = some h' →
        (h.t : WithTop ℝ) ≤ (h'.t : WithTop ℝ))) := by
  have key := scan_min (fun a b : WithTop ℝ => a < b) (fun _ _ _ => lt_trans)
    (fun _ _ _ hac hbc => lt_of_lt_of_le hac (not_lt.mp hbc))
    (fun o => V3.Object.intersect Real.sqrt o ray) (fun h => (h.t : WithTop ℝ)) V3.closestT
    (fun _ h => some h) (V3.nearestStep Real.sqrt ray)
    (by intro acc o ho; simp only [V3.nearestStep, ho])
    (by intro acc o h ho hk; simp only [V3.nearestStep, ho, hk, if_true])
    (by intro acc o h ho hk; simp only [V3.nearestStep, ho, hk, if_false])
    (fun _ _ => rfl) objs acc
  simpa only [not_lt] using key

/-- The nearest-hit scans of V5 and V3 (the property of C3, away from the starting value of
V5): the record used for shading is the record reported by the first primitive, in list order,
whose reported `t` is the minimum over all primitives that report a hit (every hit before it
has a strictly larger `t`, every hit after it a `t` that is not smaller).  In V3 this holds as
soon as one primitive reports a hit; in V5 as soon as one primitive reports a hit with `t`
below `numeric_limits<double>::max()`, the value `hit.t` starts from. -/
theorem nearest_first_minimum :
    (∀ (ray : V5.Ray ℝ) (objs : List (V5.Object ℝ)),
      (∃ o ∈ objs, ∃ h, o.intersect Real.sqrt ray = some h ∧ h.t < V5.DBL_MAX) →
      ∃ pre o post h, objs = pre ++ o :: post ∧ o.intersect Real.sqrt ray = some h ∧
        V5.nearest Real.sqrt ray objs = some h ∧
        (∀ o' ∈ pre, ∀ h', o'.intersect Real.sqrt ray = some h' → h.t < h'.t) ∧
        (∀ o' ∈ post, ∀ h', o'.intersect Real.sqrt ray = some h' → h.t ≤ h'.t)) ∧
    (∀ (ray : V3.Ray ℝ) (objs : List (V3.Object ℝ)),
      (∃ o ∈ objs, ∃ h, o.intersect Real.sqrt ray = some h) →
      ∃ pre o post h, objs = pre ++ o :: post ∧ o.intersect Real.sqrt ray = some h ∧
        V3.nearest Real.sqrt ray objs = some h ∧
        (∀ o' ∈ pre, ∀ h', o'.intersect Real.sqrt ray = some h' → h.t < h'.t) ∧
        (∀ o' ∈ post, ∀ h', o'.intersect Real.sqrt ray = some h' → h.t ≤ h'.t)) := by
  constructor
  · rintro ray objs ⟨o, ho, h, hint, hlt⟩
    rcases V5_nearest_scan ray objs none with ⟨_, hall⟩ | ⟨pre, o2, post, h2, hl, hf, hres, _, hpre, hpost⟩
    · have := hall o ho h hint
      simp only [V5.hitT] at this
      exact absurd hlt (not_lt.mpr this)
    · exact ⟨pre, o2, post, h2, hl, hf, hres, hpre, hpost⟩
  · rintro ray objs ⟨o, ho, h, hint⟩
    rcases V3_nearest_scan ray objs none with ⟨_, hall⟩ | ⟨pre, o2, post, h2, hl, hf, hres, _, hpre, hpost⟩
    · have := hall o ho h hint
      simp [V3.closestT, V3.INF] at this
    · refine ⟨pre, o2, post, h2, hl, hf, hres, ?_, ?_⟩
      · intro o' ho' h' hf'
        exact WithTop.coe_lt_coe.mp (hpre o' ho' h' hf')
      · intro o' ho' h' hf'
        exact WithTop.coe_le_coe.mp (hpost o' ho' h' hf')

/-- The plane `z = 0` of V5 reports `t = 1` for the ray from `(0,0,-1)` toward `(0,0,1)`. -/
theorem V5_plane_z_hit (m : V5.Material ℝ) :
    V5.Object.intersect Real.sqrt (V5.Object.plane ⟨⟨0, 0, 1⟩, 0, m⟩) ⟨⟨0, 0, -1⟩, ⟨0, 0, 1⟩⟩
      = some ⟨1, ⟨0, 0, 0⟩, ⟨0, 0, 1⟩, m⟩ := by
  simp [V5.Object.intersect, V5.Plane.intersect, V5.Vec.dot, V5.Vec.add, V5.Vec.scale, V5.EPS]
  norm_num

/-- The scan of V5 at the one-plane scene `z = 0` and the ray from `(0,0,-1)` toward
`(0,0,1)`: the plane reports `t = 1`, below the starting value, and the scan keeps a record. -/
theorem nearest_first_minimum_witness :
    (∃ o ∈ [V5.Object.plane (⟨⟨0, 0, 1⟩, 0, ⟨⟨1, 1, 1⟩, 0⟩⟩ : V5.Plane ℝ)],
      ∃ h, o.intersect Real.sqrt ⟨⟨0, 0, -1⟩, ⟨0, 0, 1⟩⟩ = some h ∧ h.t < V5.DBL_MAX) ∧
    ∃ pre o post h,
      [V5.Object.plane (⟨⟨0, 0, 1⟩, 0, ⟨⟨1, 1, 1⟩, 0⟩⟩ : V5.Plane ℝ)] = pre ++ o :: post ∧
      o.intersect Real.sqrt ⟨⟨0, 0, -1⟩, ⟨0, 0, 1⟩⟩ = some h ∧
      V5.nearest Real.sqrt ⟨⟨0, 0, -1⟩, ⟨0, 0, 1⟩⟩
        [V5.Object.plane (⟨⟨0, 0, 1⟩, 0, ⟨⟨1, 1, 1⟩, 0⟩⟩ : V5.Plane ℝ)] = some h ∧
      (∀ o' ∈ pre, ∀ h', o'.intersect Real.sqrt ⟨⟨0, 0, -1⟩, ⟨0, 0, 1⟩⟩ = some h' → h.t < h'.t) ∧
      (∀ o' ∈ post, ∀ h', o'.intersect Real.sqrt ⟨⟨0, 0, -1⟩, ⟨0, 0, 1⟩⟩ = some h' →
        h.t ≤ h'.t) := by
  have hyp : ∃ o ∈ [V5.Object.plane (⟨⟨0, 0, 1⟩, 0, ⟨⟨1, 1, 1⟩, 0⟩⟩ : V5.Plane ℝ)],
      ∃ h, o.intersect Real.sqrt ⟨⟨0, 0, -1⟩, ⟨0, 0, 1⟩⟩ = some h ∧ h.t < V5.DBL_MAX := by
    refine ⟨_, List.mem_singleton.mpr rfl, _, V5_plane_z_hit _, ?_⟩
    norm_num [V5.DBL_MAX]
  exact ⟨hyp, nearest_first_minimum.1 _ _ hyp⟩

/-- C3 fails in V5 at the ray from `(0,0,-DBL_MAX)` toward `(0,0,1)`: the plane `z = 0`
reports a hit with `t = DBL_MAX`, the only and so the minimal hit, but `h.t < hit.t` is false
against the starting `hit.t = numeric_limits<double>::max()`, so the scan ends with
`found = false`: no record is used for shading and `trace` returns black as for a ray that
hits nothing. -/
theorem V5_nearest_drops_hit_at_max :
    V5.Object.intersect Real.sqrt
        (V5.Object.plane (⟨⟨0, 0, 1⟩, 0, ⟨⟨1, 1, 1⟩, 0⟩⟩ : V5.Plane ℝ))
        ⟨⟨0, 0, -V5.DBL_MAX⟩, ⟨0, 0, 1⟩⟩
      = some ⟨V5.DBL_MAX, ⟨0, 0, 0⟩, ⟨0, 0, 1⟩, ⟨⟨1, 1, 1⟩, 0⟩⟩ ∧
    V5.nearest Real.sqrt ⟨⟨0, 0, -V5.DBL_MAX⟩, ⟨0, 0, 1⟩⟩
        [V5.Object.plane (⟨⟨0, 0, 1⟩, 0, ⟨⟨1, 1, 1⟩, 0⟩⟩ : V5.Plane ℝ)] = none ∧
    V5.trace Real.sqrt ⟨⟨0, 0, -V5.DBL_MAX⟩, ⟨0, 0, 1⟩⟩
        [V5.Object.plane (⟨⟨0, 0, 1⟩, 0, ⟨⟨1, 1, 1⟩, 0⟩⟩ : V5.Plane ℝ)] ⟨0, 0, 4⟩ 0
      = ⟨0, 0, 0⟩ := by
  have hM : ¬ ((V5.DBL_MAX : ℝ) < 1 / 10000) := by norm_num [V5.DBL_MAX]
  have hint : V5.Object.intersect Real.sqrt
        (V5.Object.plane (⟨⟨0, 0, 1⟩, 0, ⟨⟨1, 1, 1⟩, 0⟩⟩ : V5.Plane ℝ))
        ⟨⟨0, 0, -V5.DBL_MAX⟩, ⟨0, 0, 1⟩⟩
      = some ⟨V5.DBL_MAX, ⟨0, 0, 0⟩, ⟨0, 0, 1⟩, ⟨⟨1, 1, 1⟩, 0⟩⟩ := by
    simp [V5.Object.intersect, V5.Plane.intersect, V5.Vec.dot, V5.Vec.add, V5.Vec.scale, V5.EPS]
    constructor
    · norm_num
    · simpa using hM
  have hn : V5.nearest Real.sqrt ⟨⟨0, 0, -V5.DBL_MAX⟩, ⟨0, 0, 1⟩⟩
      [V5.Object.plane (⟨⟨0, 0, 1⟩, 0, ⟨⟨1, 1, 1⟩, 0⟩⟩ : V5.Plane ℝ)] = none := by
    simp [V5.nearest, V5.nearestStep, hint, V5.hitT]
  refine ⟨hint, hn, ?_⟩
  rw [V5.trace, hn]
  simp

/-! ### C4 -/

/-- Two nested early returns `if P then a else if Q ∨ t > x then a else b` as one test. -/
theorem guard_ite {A : Type} (P Q : Prop) [Decidable P] [Decidable Q] (t : ℝ) (x : WithTop ℝ)
    (a b : A) :
    (if P then a else if Q ∨ (t : WithTop ℝ) > x then a else b) =
      if decide (¬ P ∧ ¬ Q) = true ∧ (t : WithTop ℝ) ≤ x then b else a := by
  by_cases hP : P
  · simp [hP]
  · by_cases hQ : Q
    · simp [hP, hQ]
    · by_cases hx : (t : WithTop ℝ) ≤ x
      · simp [hP, hQ, hx, not_lt.mpr hx]
      · simp [hP, hQ, hx, not_le.mp hx]

/-- The shape of a call of `intersect` of V6: a primitive and a ray fix a candidate (whether
there is one, its real `t`, its record), and the call on the incoming record `h0` takes the
candidate iff there is one and its `t` is not above `h0.t`; it leaves `h0` as it was
otherwise. -/
theorem V6_intersect_shape (o : V6.Object ℝ) (r : V6.Ray ℝ) :
    ∃ (c : Bool) (t : ℝ) (rec : V6.Hit ℝ), rec.t = (t : WithTop ℝ) ∧
      ∀ h0 : V6.Hit ℝ, o.intersect Real.sqrt r h0 =
        if c = true ∧ (t : WithTop ℝ) ≤ h0.t then (true, rec) else (false, h0) := by
  cases o with
  | sphere s =>
    simp only [V6.Object.intersect, V6.Sphere.intersect]
    generalize (-(r.o.sub s.c).dot r.d - Real.sqrt ((r.o.sub s.c).dot r.d * (r.o.sub s.c).dot r.d
      - ((r.o.sub s.c).dot (r.o.sub s.c) - s.r * s.r))) = t
    generalize ((r.o.sub s.c).dot r.d * (r.o.sub s.c).dot r.d
      - ((r.o.sub s.c).dot (r.o.sub s.c) - s.r * s.r)) = disc
    refine ⟨decide (¬ disc < 0 ∧ ¬ t < 1 / 10000), t,
      ⟨(t : WithTop ℝ), r.o.add (r.d.scale t), ((r.o.add (r.d.scale t)).sub s.c).norm Real.sqrt,
        s.color, s.refl⟩, rfl, fun h0 => ?_⟩
    exact guard_ite _ _ _ _ _ _
  | plane pl =>
    simp only [V6.Object.intersect, V6.Plane.intersect]
    generalize ((pl.p.sub r.o).dot pl.n / pl.n.dot r.d) = t
    refine ⟨decide (¬ |pl.n.dot r.d| < 1 / 1000000 ∧ ¬ t < 1 / 10000), t,
      ⟨(t : WithTop ℝ), r.o.add (r.d.scale t), pl.n, pl.color, pl.refl⟩, rfl, fun h0 => ?_⟩
    exact guard_ite _ _ _ _ _ _

/-- A primitive of V6 and a ray: either every call returns `false` and leaves the record as it
was, or there is a candidate record `h` with a real `t`, reported on the initial record, and a
call on `h0` reports `h` iff `h.t ≤ h0.t`. -/
theorem V6_cand_cases (o : V6.Object ℝ) (r : V6.Ray ℝ) :
    (∀ h0 : V6.Hit ℝ, o.intersect Real.sqrt r h0 = (false, h0)) ∨
    (∃ (h : V6.Hit ℝ) (t : ℝ), h.t = (t : WithTop ℝ) ∧
      o.intersect Real.sqrt r V6.Hit.init = (true, h) ∧
      ∀ h0 : V6.Hit ℝ, o.intersect Real.sqrt r h0 =
        if h.t ≤ h0.t then (true, h) else (false, h0)) := by
  obtain ⟨c, t, rec, hrec, hsh⟩ := V6_intersect_shape o r
  cases c with
  | false =>
    left
    intro h0
    rw [hsh h0]
    simp
  | true =>
    right
    refine ⟨rec, t, hrec, ?_, ?_⟩
    · rw [hsh V6.Hit.init]
      simp [V6.Hit.init, V6.INF]
    · intro h0
      rw [hsh h0, hrec]
      simp

/-- The scan of V6 from any state `(h, hit)`: either no candidate has a `t` that is not above
`h.t`, or the result is the candidate of the last object whose `t` is the least. -/
theorem V6_nearest_scan (r : V6.Ray ℝ) (objs : List (V6.Object ℝ))
    (st : V6.Hit ℝ × Option (V6.Object ℝ)) :
    (objs.foldl (V6.nearestStep Real.sqrt r) st = st ∧
      ∀ o ∈ objs, ∀ h, o.intersect Real.sqrt r V6.Hit.init = (true, h) → st.1.t < h.t) ∨
    (∃ pre o post h, objs = pre ++ o :: post ∧
      o.intersect Real.sqrt r V6.Hit.init = (true, h) ∧
      objs.foldl (V6.nearestStep Real.sqrt r) st = (h, some o) ∧ h.t ≤ st.1.t ∧
      (∀ o' ∈ pre, ∀ h', o'.intersect Real.sqrt r V6.Hit.init = (true, h') → h.t ≤ h'.t) ∧
      (∀ o' ∈ post, ∀ h', o'.intersect Real.sqrt r V6.Hit.init = (true, h') → h.t < h'.t)) := by
  have hf : ∀ (o : V6.Object ℝ) (h : V6.Hit ℝ),
      (if (o.intersect Real.sqrt r V6.Hit.init).1 = true
        then some (o.intersect Real.sqrt r V6.Hit.init).2 else none) = some h ↔
      o.intersect Real.sqrt r V6.Hit.init = (true, h) := by
    intro o h
    rcases hres : o.intersect Real.sqrt r V6.Hit.init with ⟨b, h1⟩
    cases b <;> simp
  have key := scan_min (fun a b : WithTop ℝ => a ≤ b) (fun _ _ _ => le_trans)
    (fun _ _ _ hac hbc => le_of_lt (lt_of_le_of_lt hac (not_le.mp hbc)))
    (fun o : V6.Object ℝ => if (o.intersect Real.sqrt r V6.Hit.init).1 = true
        then some (o.intersect Real.sqrt r V6.Hit.init).2 else none)
    (fun h : V6.Hit ℝ => h.t) (fun st : V6.Hit ℝ × Option (V6.Object ℝ) => st.1.t)
    (fun o h => (h, some o)) (V6.nearestStep Real.sqrt r)
    (by
      intro st o ho
      rcases V6_cand_cases o r with hno | ⟨h, t, _, hc, _⟩
      · simp only [V6.nearestStep, hno st.1]
        simp
      · simp [hc] at ho)
    (by
      intro st o h ho hk
      rw [hf] at ho
      rcases V6_cand_cases o r with hno | ⟨h1, t, _, hc, hall⟩
      · rw [hno] at ho
        simp at ho
      · rw [hc] at ho
        simp only [Prod.mk.injEq, true_and] at ho
        subst ho
        simp only [V6.nearestStep, hall st.1, if_pos hk]
        simp)
    (by
      intro st o h ho hk
      rw [hf] at ho
      rcases V6_cand_cases o r with hno | ⟨h1, t, _, hc, hall⟩
      · rw [hno] at ho
        simp at ho
      · rw [hc] at ho
        simp only [Prod.mk.injEq, true_and] at ho
        subst ho
        simp only [V6.nearestStep, hall st.1, if_neg hk]
        simp)
    (fun _ _ => rfl) objs st
  simpa only [hf, not_le] using key

/-- C4, as amended (V6): for every ray and primitive list in which some primitive has a
candidate, the record left after the scan (position, normal, colour, reflectivity) is the
candidate of the last primitive, in iteration order, whose candidate `t` is the minimum: every
candidate before it has a `t` that is not smaller, every candidate after it a strictly larger
`t`.  When two or more primitives have the same minimal `t`, the last of them wins. -/
theorem V6_nearest_last_minimum (r : V6.Ray ℝ) (objs : List (V6.Object ℝ))
    (hsome : ∃ o ∈ objs, (o.intersect Real.sqrt r V6.Hit.init).1 = true) :
    ∃ pre o post h, objs = pre ++ o :: post ∧
      o.intersect Real.sqrt r V6.Hit.init = (true, h) ∧
      V6.nearest Real.sqrt r objs = (h, some o) ∧
      (∀ o' ∈ pre, ∀ h', o'.intersect Real.sqrt r V6.Hit.init = (true, h') → h.t ≤ h'.t) ∧
      (∀ o' ∈ post, ∀ h', o'.intersect Real.sqrt r V6.Hit.init = (true, h') → h.t < h'.t) := by
  obtain ⟨o, ho, hc⟩ := hsome
  rcases V6_nearest_scan r objs (V6.Hit.init, none) with
    ⟨_, hall⟩ | ⟨pre, o2, post, h2, hl, hf, hres, _, hpre, hpost⟩
  · exfalso
    rcases V6_cand_cases o r with hno | ⟨h, t, ht, hc', _⟩
    · rw [hno] at hc
      simp at hc
    · have := hall o ho h hc'
      rw [ht] at this
      simp [V6.Hit.init, V6.INF] at this
  · exact ⟨pre, o2, post, h2, hl, hf, hres, hpre, hpost⟩

/-- The floor plane `y = 0` of V6 (point `(0,0,0)`, normal `(0,1,0)`) and the ray from
`(0,1,0)` straight down: the candidate has `t = 1`, and it is reported on every record whose
`t` is not below `1`. -/
theorem V6_floor_hit (col : V6.Vec ℝ) (refl : ℝ) (h0 : V6.Hit ℝ)
    (hle : ((1 : ℝ) : WithTop ℝ) ≤ h0.t) :
    V6.Object.intersect Real.sqrt (V6.Object.plane ⟨⟨0, 0, 0⟩, ⟨0, 1, 0⟩, col, refl⟩)
        ⟨⟨0, 1, 0⟩, ⟨0, -1, 0⟩⟩ h0
      = (true, ⟨((1 : ℝ) : WithTop ℝ), ⟨0, 0, 0⟩, ⟨0, 1, 0⟩, col, refl⟩) := by
  have hnot : ¬ (((1 : ℝ) : WithTop ℝ) > h0.t) := not_lt.mpr hle
  have hd : (-1 : ℝ) / -1 = 1 := by norm_num
  have habs : ¬ (|(-1 : ℝ)| < 1 / 1000000) := by norm_num
  have heps : ¬ ((1 : ℝ) < 1 / 10000) := by norm_num
  simp only [V6.Object.intersect, V6.Plane.intersect, V6.Vec.dot, V6.Vec.sub, V6.Vec.add,
    V6.Vec.scale, mul_zero, zero_mul, add_zero, zero_add, mul_one, one_mul, zero_sub, sub_zero,
    mul_neg, neg_zero, hd, habs, heps, hnot, if_false, or_self, neg_mul, add_neg_cancel]

/-- C4 as amended, at two coincident floor planes (red first, green second) and the ray from
`(0,1,0)` straight down: a candidate exists and the scan ends on the last minimal one. -/
theorem V6_nearest_last_minimum_witness :
    (∃ o ∈ [V6.Object.plane (⟨⟨0, 0, 0⟩, ⟨0, 1, 0⟩, ⟨1, 0, 0⟩, 0⟩ : V6.Plane ℝ),
          V6.Object.plane ⟨⟨0, 0, 0⟩, ⟨0, 1, 0⟩, ⟨0, 1, 0⟩, 0⟩],
      (o.intersect Real.sqrt ⟨⟨0, 1, 0⟩, ⟨0, -1, 0⟩⟩ V6.Hit.init).1 = true) ∧
    ∃ pre o post h,
      [V6.Object.plane (⟨⟨0, 0, 0⟩, ⟨0, 1, 0⟩, ⟨1, 0, 0⟩, 0⟩ : V6.Plane ℝ),
          V6.Object.plane ⟨⟨0, 0, 0⟩, ⟨0, 1, 0⟩, ⟨0, 1, 0⟩, 0⟩] = pre ++ o :: post ∧
      o.intersect Real.sqrt ⟨⟨0, 1, 0⟩, ⟨0, -1, 0⟩⟩ V6.Hit.init = (true, h) ∧
      V6.nearest Real.sqrt ⟨⟨0, 1, 0⟩, ⟨0, -1, 0⟩⟩
        [V6.Object.plane (⟨⟨0, 0, 0⟩, ⟨0, 1, 0⟩, ⟨1, 0, 0⟩, 0⟩ : V6.Plane ℝ),
          V6.Object.plane ⟨⟨0, 0, 0⟩, ⟨0, 1, 0⟩, ⟨0, 1, 0⟩, 0⟩] = (h, some o) ∧
      (∀ o' ∈ pre, ∀ h',
        o'.intersect Real.sqrt ⟨⟨0, 1, 0⟩, ⟨0, -1, 0⟩⟩ V6.Hit.init = (true, h') → h.t ≤ h'.t) ∧
      (∀ o' ∈ post, ∀ h',
        o'.intersect Real.sqrt ⟨⟨0, 1, 0⟩, ⟨0, -1, 0⟩⟩ V6.Hit.init = (true, h') → h.t < h'.t) := by
  have hyp : ∃ o ∈ [V6.Object.plane (⟨⟨0, 0, 0⟩, ⟨0, 1, 0⟩, ⟨1, 0, 0⟩, 0⟩ : V6.Plane ℝ),
          V6.Object.plane ⟨⟨0, 0, 0⟩, ⟨0, 1, 0⟩, ⟨0, 1, 0⟩, 0⟩],
      (o.intersect Real.sqrt ⟨⟨0, 1, 0⟩, ⟨0, -1, 0⟩⟩ V6.Hit.init).1 = true := by
    refine ⟨_, List.mem_cons_self _ _, ?_⟩
    rw [V6_floor_hit _ _ _ (by simp [V6.Hit.init, V6.INF])]
  exact ⟨hyp, V6_nearest_last_minimum _ _ hyp⟩

/-- C4 as stated fails in V6: two coincident floor planes, red first and green second, both
have the candidate `t = 1` for the ray from `(0,1,0)` straight down; the second call is not
rejected (`t > h.t` is false at a tie), so the record left after the scan is the green one, the
candidate of the second plane, not of the first. -/
theorem V6_nearest_tie_counterexample :
    V6.Object.intersect Real.sqrt
        (V6.Object.plane (⟨⟨0, 0, 0⟩, ⟨0, 1, 0⟩, ⟨1, 0, 0⟩, 0⟩ : V6.Plane ℝ))
        ⟨⟨0, 1, 0⟩, ⟨0, -1, 0⟩⟩ V6.Hit.init
      = (true, ⟨((1 : ℝ) : WithTop ℝ), ⟨0, 0, 0⟩, ⟨0, 1, 0⟩, ⟨1, 0, 0⟩, 0⟩) ∧
    V6.Object.intersect Real.sqrt
        (V6.Object.plane (⟨⟨0, 0, 0⟩, ⟨0, 1, 0⟩, ⟨0, 1, 0⟩, 0⟩ : V6.Plane ℝ))
        ⟨⟨0, 1, 0⟩, ⟨0, -1, 0⟩⟩ V6.Hit.init
      = (true, ⟨((1 : ℝ) : WithTop ℝ), ⟨0, 0, 0⟩, ⟨0, 1, 0⟩, ⟨0, 1, 0⟩, 0⟩) ∧
    (V6.nearest Real.sqrt ⟨⟨0, 1, 0⟩, ⟨0, -1, 0⟩⟩
        [V6.Object.plane (⟨⟨0, 0, 0⟩, ⟨0, 1, 0⟩, ⟨1, 0, 0⟩, 0⟩ : V6.Plane ℝ),
          V6.Object.plane ⟨⟨0, 0, 0⟩, ⟨0, 1, 0⟩, ⟨0, 1, 0⟩, 0⟩]).1
      = ⟨((1 : ℝ) : WithTop ℝ), ⟨0, 0, 0⟩, ⟨0, 1, 0⟩, ⟨0, 1, 0⟩, 0⟩ ∧
    (V6.nearest Real.sqrt ⟨⟨0, 1, 0⟩, ⟨0, -1, 0⟩⟩
        [V6.Object.plane (⟨⟨0, 0, 0⟩, ⟨0, 1, 0⟩, ⟨1, 0, 0⟩, 0⟩ : V6.Plane ℝ),
          V6.Object.plane ⟨⟨0, 0, 0⟩, ⟨0, 1, 0⟩, ⟨0, 1, 0⟩, 0⟩]).1.color
      ≠ (⟨1, 0, 0⟩ : V6.Vec ℝ) := by
  have hinit : ((1 : ℝ) : WithTop ℝ) ≤ (V6.Hit.init : V6.Hit ℝ).t := by
    simp [V6.Hit.init, V6.INF]
  have hscan : V6.nearest Real.sqrt ⟨⟨0, 1, 0⟩, ⟨0, -1, 0⟩⟩
        [V6.Object.plane (⟨⟨0, 0, 0⟩, ⟨0, 1, 0⟩, ⟨1, 0, 0⟩, 0⟩ : V6.Plane ℝ),
          V6.Object.plane ⟨⟨0, 0, 0⟩, ⟨0, 1, 0⟩, ⟨0, 1, 0⟩, 0⟩]
      = (⟨((1 : ℝ) : WithTop ℝ), ⟨0, 0, 0⟩, ⟨0, 1, 0⟩, ⟨0, 1, 0⟩, 0⟩,
          some (V6.Object.plane ⟨⟨0, 0, 0⟩, ⟨0, 1, 0⟩, ⟨0, 1, 0⟩, 0⟩)) := by
    simp only [V6.nearest, List.foldl_cons, List.foldl_nil, V6.nearestStep]
    rw [V6_floor_hit _ _ _ hinit]
    simp only [if_true]
    rw [V6_floor_hit _ _ _ (le_refl _)]
    simp only [if_true]
  refine ⟨V6_floor_hit _ _ _ hinit, V6_floor_hit _ _ _ hinit, ?_, ?_⟩
  · rw [hscan]
  · rw [hscan]
    intro hcol
    have := congrArg V6.Vec.x hcol
    norm_num at this

/-! ### C5 -/

/-- A hit reported by `Plane::intersect` of V5: the denominator is not within `EPS` of zero,
`t` is not below `EPS`, and the record holds the quotient, the point at it, the stored normal
and the plane's material. -/
theorem V5_plane_hit {pl : V5.Plane ℝ} {ray : V5.Ray ℝ} {h : V5.Hit ℝ}
    (hint : pl.intersect ray = some h) :
    ¬ (|pl.n.dot ray.d| < V5.EPS) ∧ ¬ (h.t < V5.EPS) ∧
    h.t = -(pl.n.dot ray.o + pl.d) / pl.n.dot ray.d ∧
    h.p = ray.o.add (ray.d.scale h.t) ∧ h.n = pl.n ∧ h.m = pl.m := by
  simp only [V5.Plane.intersect] at hint
  split_ifs at hint with hden ht
  simp only [Option.some.injEq] at hint
  subst hint
  exact ⟨hden, ht, rfl, rfl, rfl, rfl⟩

/-- C5, as amended (V5, `EPS = 1e-4`): `Sphere::intersect` and `Plane::intersect` return no-hit
whenever the candidate ray parameter `t` satisfies `t < EPS`; equivalently, every hit they report
has `t ≥ EPS`. -/
theorem V5_intersect_eps :
    (∀ (s : V5.Sphere ℝ) (ray : V5.Ray ℝ),
      -(ray.o.sub s.c).dot ray.d - Real.sqrt ((ray.o.sub s.c).dot ray.d
        * (ray.o.sub s.c).dot ray.d - ((ray.o.sub s.c).dot (ray.o.sub s.c) - s.r * s.r))
        < V5.EPS → s.intersect Real.sqrt ray = none) ∧
    (∀ (pl : V5.Plane ℝ) (ray : V5.Ray ℝ),
      -(pl.n.dot ray.o + pl.d) / pl.n.dot ray.d < V5.EPS → pl.intersect ray = none) ∧
    (∀ (s : V5.Sphere ℝ) (ray : V5.Ray ℝ) (h : V5.Hit ℝ),
      s.intersect Real.sqrt ray = some h → V5.EPS ≤ h.t) ∧
    (∀ (pl : V5.Plane ℝ) (ray : V5.Ray ℝ) (h : V5.Hit ℝ),
      pl.intersect ray = some h → V5.EPS ≤ h.t) := by
  refine ⟨?_, ?_, ?_, ?_⟩
  · intro s ray ht
    simp only [V5.Sphere.intersect]
    split_ifs
    · rfl
    · rfl
  · intro pl ray ht
    simp only [V5.Plane.intersect]
    split_ifs
    · rfl
    · rfl
  · intro s ray h hint
    exact not_lt.mp (V5_sphere_hit hint).2.1
  · intro pl ray h hint
    exact not_lt.mp (V5_plane_hit hint).2.1

/-- The plane `z = 0` of V5 reports `t = EPS` for the ray from `(0,0,-EPS)` toward
`(0,0,1)`. -/
theorem V5_plane_hit_at_eps (m : V5.Material ℝ) :
    V5.Plane.intersect (⟨⟨0, 0, 1⟩, 0, m⟩ : V5.Plane ℝ) ⟨⟨0, 0, -V5.EPS⟩, ⟨0, 0, 1⟩⟩
      = some ⟨V5.EPS, ⟨0, 0, 0⟩, ⟨0, 0, 1⟩, m⟩ := by
  simp [V5.Plane.intersect, V5.Vec.dot, V5.Vec.add, V5.Vec.scale]
  norm_num [V5.EPS]

/-- The unit sphere at the origin of V5 reports `t = EPS` for the ray from `(0,0,-(1+EPS))`
toward `(0,0,1)`. -/
theorem V5_sphere_hit_at_eps (m : V5.Material ℝ) :
    V5.Sphere.intersect Real.sqrt (⟨⟨0, 0, 0⟩, 1, m⟩ : V5.Sphere ℝ)
        ⟨⟨0, 0, -(1 + V5.EPS)⟩, ⟨0, 0, 1⟩⟩
      = some ⟨V5.EPS, ⟨0, 0, -1⟩, ⟨0, 0, -1⟩, m⟩ := by
  simp [V5.Sphere.intersect, V5.Vec.dot, V5.Vec.sub, V5.Vec.add, V5.Vec.scale, V5.Vec.norm,
    V5.EPS]

/-- C5 as amended, at the plane `z = 0` and the ray from `(0,0,-EPS)` toward `(0,0,1)`: the
plane reports a hit and its `t` is not below `EPS`. -/
theorem V5_intersect_eps_witness :
    V5.Plane.intersect (⟨⟨0, 0, 1⟩, 0, ⟨⟨1, 1, 1⟩, 0⟩⟩ : V5.Plane ℝ)
        ⟨⟨0, 0, -V5.EPS⟩, ⟨0, 0, 1⟩⟩
      = some ⟨V5.EPS, ⟨0, 0, 0⟩, ⟨0, 0, 1⟩, ⟨⟨1, 1, 1⟩, 0⟩⟩ ∧
    (V5.EPS : ℝ) ≤ (⟨V5.EPS, ⟨0, 0, 0⟩, ⟨0, 0, 1⟩, ⟨⟨1, 1, 1⟩, 0⟩⟩ : V5.Hit ℝ).t :=
  ⟨V5_plane_hit_at_eps _, V5_intersect_eps.2.2.2 _ _ _ (V5_plane_hit_at_eps _)⟩

/-- C5 as stated fails in V5: the test is `t < EPS`, so a candidate with `t = EPS` exactly is
reported.  The plane `z = 0` reports `t = EPS` for the ray from `(0,0,-EPS)` toward `(0,0,1)`,
and the unit sphere at the origin reports `t = EPS` for the ray from `(0,0,-(1+EPS))` toward
`(0,0,1)`; neither `t` is strictly greater than `EPS`. -/
theorem V5_intersect_eps_counterexample :
    (∃ h : V5.Hit ℝ,
      V5.Plane.intersect (⟨⟨0, 0, 1⟩, 0, ⟨⟨1, 1, 1⟩, 0⟩⟩ : V5.Plane ℝ)
        ⟨⟨0, 0, -V5.EPS⟩, ⟨0, 0, 1⟩⟩ = some h ∧ h.t ≤ V5.EPS ∧ ¬ (h.t > V5.EPS)) ∧
    (∃ h : V5.Hit ℝ,
      V5.Sphere.intersect Real.sqrt (⟨⟨0, 0, 0⟩, 1, ⟨⟨1, 1, 1⟩, 0⟩⟩ : V5.Sphere ℝ)
        ⟨⟨0, 0, -(1 + V5.EPS)⟩, ⟨0, 0, 1⟩⟩ = some h ∧ h.t ≤ V5.EPS ∧ ¬ (h.t > V5.EPS)) := by
  exact ⟨⟨_, V5_plane_hit_at_eps _, le_refl _, lt_irrefl _⟩,
    ⟨_, V5_sphere_hit_at_eps _, le_refl _, lt_irrefl _⟩⟩

/-! ### C6 -/

/-- The shadow scan of V5 answers `true` as soon as a sphere of the list reports a hit. -/
theorem V5_shadowed_of_sphere (shadow : V5.Ray ℝ) (objs : List (V5.Object ℝ))
    (hocc : ∃ s, V5.Object.sphere s ∈ objs ∧ (s.intersect Real.sqrt shadow).isSome = true) :
    V5.shadowed Real.sqrt shadow objs = true := by
  obtain ⟨s, hs, hhit⟩ := hocc
  induction objs with
  | nil => cases hs
  | cons o rest ih =>
    rcases List.mem_cons.mp hs with heq | hin
    · subst heq
      simp [V5.shadowed, V5.Object.isPlane, V5.Object.intersect, hhit]
    · have := ih hin
      simp only [V5.shadowed, this]
      split_ifs <;> rfl

/-- The shadow loop of V6 never resets `blocked`. -/
theorem V6_foldl_blockedStep_true (shadow : V6.Ray ℝ) (objs : List (V6.Object ℝ)) :
    objs.foldl (V6.blockedStep Real.sqrt shadow) true = true := by
  induction objs with
  | nil => rfl
  | cons o rest ih =>
    have hstep : V6.blockedStep Real.sqrt shadow true o = true := by
      simp only [V6.blockedStep]
      split_ifs <;> rfl
    rw [List.foldl_cons, hstep, ih]

/-- The shadow loop of V6 sets `blocked` as soon as a sphere of the list reports a hit. -/
theorem V6_blocked_of_sphere (shadow : V6.Ray ℝ) (objs : List (V6.Object ℝ))
    (hocc : ∃ s, V6.Object.sphere s ∈ objs ∧
      (s.intersect Real.sqrt shadow V6.Hit.init).1 = true) :
    V6.blocked Real.sqrt shadow objs = true := by
  obtain ⟨s, hs, hhit⟩ := hocc
  have hgen : ∀ b : Bool, objs.foldl (V6.blockedStep Real.sqrt shadow) b = true := by
    induction objs with
    | nil => cases hs
    | cons o rest ih =>
      intro b
      rw [List.foldl_cons]
      rcases List.mem_cons.mp hs with heq | hin
      · subst heq
        have hstep : V6.blockedStep Real.sqrt shadow b (V6.Object.sphere s) = true := by
          simp [V6.blockedStep, V6.Object.isPlane, V6.Object.intersect, hhit]
        rw [hstep]
        exact V6_foldl_blockedStep_true shadow rest
      · exact ih hin _
  exact hgen false

/-- The shadow scan of V5 answers `true` only when a sphere of the list reports a hit: planes
are skipped, whatever they would report. -/
theorem V5_sphere_of_shadowed (shadow : V5.Ray ℝ) (objs : List (V5.Object ℝ))
    (hsh : V5.shadowed Real.sqrt shadow objs = true) :
    ∃ s, V5.Object.sphere s ∈ objs ∧ (s.intersect Real.sqrt shadow).isSome = true := by
  induction objs with
  | nil => simp [V5.shadowed] at hsh
  | cons o rest ih =>
    simp only [V5.shadowed] at hsh
    cases o with
    | plane pl =>
      simp only [V5.Object.isPlane, if_true] at hsh
      obtain ⟨s, hs, hhit⟩ := ih hsh
      exact ⟨s, List.mem_cons_of_mem _ hs, hhit⟩
    | sphere s =>
      by_cases hhit : (s.intersect Real.sqrt shadow).isSome = true
      · exact ⟨s, List.mem_cons_self _ _, hhit⟩
      · simp only [V5.Object.isPlane, V5.Object.intersect, hhit, if_false] at hsh
        obtain ⟨s', hs', hhit'⟩ := ih (by simpa using hsh)
        exact ⟨s', List.mem_cons_of_mem _ hs', hhit'⟩

/-- The shadow loop of V6 sets `blocked` only when a sphere of the list reports a hit: planes
are skipped, whatever they would report. -/
theorem V6_sphere_of_blocked (shadow : V6.Ray ℝ) (objs : List (V6.Object ℝ))
    (hbl : V6.blocked Real.sqrt shadow objs = true) :
    ∃ s, V6.Object.sphere s ∈ objs ∧ (s.intersect Real.sqrt shadow V6.Hit.init).1 = true := by
  have hgen : ∀ b : Bool, objs.foldl (V6.blockedStep Real.sqrt shadow) b = true →
      b = true ∨ ∃ s, V6.Object.sphere s ∈ objs ∧
        (s.intersect Real.sqrt shadow V6.Hit.init).1 = true := by
    clear hbl
    induction objs with
    | nil =>
      intro b hb
      exact Or.inl hb
    | cons o rest ih =>
      intro b hb
      rw [List.foldl_cons] at hb
      rcases ih _ hb with hstep | ⟨s, hs, hhit⟩
      · cases o with
        | plane pl =>
          simp only [V6.blockedStep, V6.Object.isPlane, if_true] at hstep
          exact Or.inl hstep
        | sphere s =>
          by_cases hhit : (s.intersect Real.sqrt shadow V6.Hit.init).1 = true
          · exact Or.inr ⟨s, List.mem_cons_self _ _, hhit⟩
          · simp only [V6.blockedStep, V6.Object.isPlane, V6.Object.intersect, hhit,
              if_false] at hstep
            exact Or.inl (by simpa using hstep)
      · exact Or.inr ⟨s, List.mem_cons_of_mem _ hs, hhit⟩
  rcases hgen false hbl with hf | hex
  · cases hf
  · exact hex

/-- C6, as amended (V5 and V6): if some sphere of the scene reports a hit for the shadow ray
(origin `hit.p + hit.n*EPS`, direction `normalize(light - hit.p)`), at whatever parameter and so
in particular at one smaller than the distance to the light, then the diffuse factor is exactly
`0` whatever `normal.dot(lightDirection)` is, and a nearest hit on a material with reflectivity
`0` makes `trace` return `(0,0,0)`.  A plane is never an occluder: when no sphere reports a hit
for the shadow ray, the diffuse factor is `max(0, normal.dot(lightDirection))`, whatever the
planes of the scene report for the shadow ray. -/
theorem shadow_by_sphere_black :
    (∀ (objs : List (V5.Object ℝ)) (light : V5.Vec ℝ) (hit : V5.Hit ℝ),
      (∃ s, V5.Object.sphere s ∈ objs ∧
        (s.intersect Real.sqrt (V5.shadowRay Real.sqrt light hit)).isSome = true) →
      V5.diff Real.sqrt objs light hit = 0 ∧
      ∀ (ray : V5.Ray ℝ) (depth : Int), V5.nearest Real.sqrt ray objs = some hit →
        hit.m.reflect = 0 → V5.trace Real.sqrt ray objs light depth = ⟨0, 0, 0⟩) ∧
    (∀ (objs : List (V6.Object ℝ)) (light : V6.Vec ℝ) (h : V6.Hit ℝ),
      (∃ s, V6.Object.sphere s ∈ objs ∧
        (s.intersect Real.sqrt (V6.shadowRay Real.sqrt light h) V6.Hit.init).1 = true) →
      V6.diff Real.sqrt objs light h = 0 ∧
      ∀ (r : V6.Ray ℝ) (depth : Int) (o : V6.Object ℝ),
        V6.nearest Real.sqrt r objs = (h, some o) →
        h.refl = 0 → V6.trace Real.sqrt r objs light depth = ⟨0, 0, 0⟩) ∧
    (∀ (objs : List (V5.Object ℝ)) (light : V5.Vec ℝ) (hit : V5.Hit ℝ),
      (¬ ∃ s, V5.Object.sphere s ∈ objs ∧
        (s.intersect Real.sqrt (V5.shadowRay Real.sqrt light hit)).isSome = true) →
      V5.diff Real.sqrt objs light hit = max 0 (hit.n.dot (V5.ldir Real.sqrt light hit))) ∧
    (∀ (objs : List (V6.Object ℝ)) (light : V6.Vec ℝ) (h : V6.Hit ℝ),
      (¬ ∃ s, V6.Object.sphere s ∈ objs ∧
        (s.intersect Real.sqrt (V6.shadowRay Real.sqrt light h) V6.Hit.init).1 = true) →
      V6.diff Real.sqrt objs light h = max 0 (h.n.dot (V6.ldir Real.sqrt light h))) := by
  refine ⟨?_, ?_, ?_, ?_⟩
  · intro objs light hit hocc
    have hdiff : V5.diff Real.sqrt objs light hit = 0 := by
      simp only [V5.diff, V5_shadowed_of_sphere _ _ hocc, if_true]
    refine ⟨hdiff, ?_⟩
    intro ray depth hn hrefl
    rw [V5.trace, hn]
    simp [hdiff, hrefl, V5.Vec.scale]
  · intro objs light h hocc
    have hdiff : V6.diff Real.sqrt objs light h = 0 := by
      simp only [V6.diff, V6_blocked_of_sphere _ _ hocc, if_true]
    refine ⟨hdiff, ?_⟩
    intro r depth o hn hrefl
    rw [V6.trace, hn]
    simp [hdiff, hrefl, V6.Vec.scale]
  · intro objs light hit hno
    have hsh : ¬ (V5.shadowed Real.sqrt (V5.shadowRay Real.sqrt light hit) objs = true) :=
      fun h => hno (V5_sphere_of_shadowed _ _ h)
    simp [V5.diff, hsh]
  · intro objs light h hno
    have hbl : ¬ (V6.blocked Real.sqrt (V6.shadowRay Real.sqrt light h) objs = true) :=
      fun hb => hno (V6_sphere_of_blocked _ _ hb)
    simp [V6.diff, hbl]

/-- The square root of sixteen. -/
theorem sqrt_sixteen : Real.sqrt 16 = 4 := by
  rw [show (16 : ℝ) = 4 ^ 2 by norm_num]
  exact Real.sqrt_sq (by norm_num)

/-- The floor plane `y = 0` of V5 reports `t = 1/2` at the origin for the ray from `(0,1/2,0)`
straight down. -/
theorem V5_floor_hit (m : V5.Material ℝ) :
    V5.Object.intersect Real.sqrt (V5.Object.plane ⟨⟨0, 1, 0⟩, 0, m⟩)
        ⟨⟨0, 1 / 2, 0⟩, ⟨0, -1, 0⟩⟩
      = some ⟨1 / 2, ⟨0, 0, 0⟩, ⟨0, 1, 0⟩, m⟩ := by
  simp [V5.Object.intersect, V5.Plane.intersect, V5.Vec.dot, V5.Vec.add, V5.Vec.scale, V5.EPS]
  norm_num

/-- The plane `y = 1` of V5 reports no hit for the ray from `(0,1/2,0)` straight down. -/
theorem V5_upper_plane_miss (m : V5.Material ℝ) :
    V5.Object.intersect Real.sqrt (V5.Object.plane ⟨⟨0, 1, 0⟩, -1, m⟩)
        ⟨⟨0, 1 / 2, 0⟩, ⟨0, -1, 0⟩⟩ = none := by
  simp [V5.Object.intersect, V5.Plane.intersect, V5.Vec.dot, V5.EPS]
  norm_num

/-- The sphere of radius `1` around `(0,2,0)` of V5 reports no hit for the ray from `(0,1/2,0)`
straight down. -/
theorem V5_upper_sphere_miss (m : V5.Material ℝ) :
    V5.Object.intersect Real.sqrt (V5.Object.sphere ⟨⟨0, 2, 0⟩, 1, m⟩)
        ⟨⟨0, 1 / 2, 0⟩, ⟨0, -1, 0⟩⟩ = none := by
  simp [V5.Object.intersect, V5.Sphere.intersect, V5.Vec.dot, V5.Vec.sub, V5.EPS]
  norm_num

/-- The shadow ray of V5 from the origin with normal `(0,1,0)` to the light at `(0,4,0)`. -/
theorem V5_shadowRay_up (t : ℝ) (m : V5.Material ℝ) :
    V5.shadowRay Real.sqrt ⟨0, 4, 0⟩ ⟨t, ⟨0, 0, 0⟩, ⟨0, 1, 0⟩, m⟩
      = ⟨⟨0, V5.EPS, 0⟩, ⟨0, 1, 0⟩⟩ := by
  have h16 : Real.sqrt (4 * 4) = 4 := by
    rw [show (4 : ℝ) * 4 = 16 by norm_num]
    exact sqrt_sixteen
  simp [V5.shadowRay, V5.ldir, V5.Vec.norm, V5.Vec.sub, V5.Vec.add, V5.Vec.scale, h16]

/-- The sphere of radius `1` around `(0,2,0)` of V5 reports a hit for the shadow ray from
`(0,EPS,0)` straight up. -/
theorem V5_upper_sphere_occludes (m : V5.Material ℝ) :
    (V5.Sphere.intersect Real.sqrt (⟨⟨0, 2, 0⟩, 1, m⟩ : V5.Sphere ℝ)
        ⟨⟨0, V5.EPS, 0⟩, ⟨0, 1, 0⟩⟩).isSome = true := by
  simp [V5.Sphere.intersect, V5.Vec.dot, V5.Vec.sub, V5.EPS]
  norm_num

/-- The plane `y = 1` of V5 reports a hit with `t = 1 - EPS` for the shadow ray from
`(0,EPS,0)` straight up. -/
theorem V5_upper_plane_occludes (m : V5.Material ℝ) :
    V5.Object.intersect Real.sqrt (V5.Object.plane ⟨⟨0, 1, 0⟩, -1, m⟩)
        ⟨⟨0, V5.EPS, 0⟩, ⟨0, 1, 0⟩⟩
      = some ⟨1 - V5.EPS, ⟨0, 1, 0⟩, ⟨0, 1, 0⟩, m⟩ := by
  simp [V5.Object.intersect, V5.Plane.intersect, V5.Vec.dot, V5.Vec.add, V5.Vec.scale, V5.EPS]
  norm_num

/-- The nearest-hit scan of V5 for the ray from `(0,1/2,0)` straight down, when the floor
plane `y = 0` comes first and the second object reports no hit: the floor's record. -/
theorem V5_nearest_floor (m : V5.Material ℝ) (o : V5.Object ℝ)
    (hmiss : o.intersect Real.sqrt ⟨⟨0, 1 / 2, 0⟩, ⟨0, -1, 0⟩⟩ = none) :
    V5.nearest Real.sqrt ⟨⟨0, 1 / 2, 0⟩, ⟨0, -1, 0⟩⟩ [V5.Object.plane ⟨⟨0, 1, 0⟩, 0, m⟩, o]
      = some ⟨1 / 2, ⟨0, 0, 0⟩, ⟨0, 1, 0⟩, m⟩ := by
  have hlt : (1 : ℝ) / 2 < V5.DBL_MAX := by norm_num [V5.DBL_MAX]
  simp only [V5.nearest, List.foldl_cons, List.foldl_nil, V5.nearestStep, V5_floor_hit, hmiss,
    V5.hitT, hlt, if_true]

/-- C6 as amended, at the floor plane `y = 0` under a sphere of radius `1` around `(0,2,0)`,
with the light at `(0,4,0)` and the ray from `(0,1/2,0)` straight down: the sphere reports a hit
for the shadow ray, the diffuse factor is `0` and `trace` returns black. -/
theorem shadow_by_sphere_black_witness :
    (∃ s, V5.Object.sphere s ∈
        [V5.Object.plane (⟨⟨0, 1, 0⟩, 0, ⟨⟨1, 1, 1⟩, 0⟩⟩ : V5.Plane ℝ),
          V5.Object.sphere ⟨⟨0, 2, 0⟩, 1, ⟨⟨1, 1, 1⟩, 0⟩⟩] ∧
      (s.intersect Real.sqrt (V5.shadowRay Real.sqrt ⟨0, 4, 0⟩
        ⟨1 / 2, ⟨0, 0, 0⟩, ⟨0, 1, 0⟩, ⟨⟨1, 1, 1⟩, 0⟩⟩)).isSome = true) ∧
    V5.diff Real.sqrt
        [V5.Object.plane (⟨⟨0, 1, 0⟩, 0, ⟨⟨1, 1, 1⟩, 0⟩⟩ : V5.Plane ℝ),
          V5.Object.sphere ⟨⟨0, 2, 0⟩, 1, ⟨⟨1, 1, 1⟩, 0⟩⟩]
        ⟨0, 4, 0⟩ ⟨1 / 2, ⟨0, 0, 0⟩, ⟨0, 1, 0⟩, ⟨⟨1, 1, 1⟩, 0⟩⟩ = 0 ∧
    V5.trace Real.sqrt ⟨⟨0, 1 / 2, 0⟩, ⟨0, -1, 0⟩⟩
        [V5.Object.plane (⟨⟨0, 1, 0⟩, 0, ⟨⟨1, 1, 1⟩, 0⟩⟩ : V5.Plane ℝ),
          V5.Object.sphere ⟨⟨0, 2, 0⟩, 1, ⟨⟨1, 1, 1⟩, 0⟩⟩]
        ⟨0, 4, 0⟩ 0 = ⟨0, 0, 0⟩ := by
  have hocc : ∃ s, V5.Object.sphere s ∈
        [V5.Object.plane (⟨⟨0, 1, 0⟩, 0, ⟨⟨1, 1, 1⟩, 0⟩⟩ : V5.Plane ℝ),
          V5.Object.sphere ⟨⟨0, 2, 0⟩, 1, ⟨⟨1, 1, 1⟩, 0⟩⟩] ∧
      (s.intersect Real.sqrt (V5.shadowRay Real.sqrt ⟨0, 4, 0⟩
        ⟨1 / 2, ⟨0, 0, 0⟩, ⟨0, 1, 0⟩, ⟨⟨1, 1, 1⟩, 0⟩⟩)).isSome = true := by
    refine ⟨⟨⟨0, 2, 0⟩, 1, ⟨⟨1, 1, 1⟩, 0⟩⟩, by simp, ?_⟩
    rw [V5_shadowRay_up]
    exact V5_upper_sphere_occludes _
  have hthm := shadow_by_sphere_black.1 _ _ _ hocc
  exact ⟨hocc, hthm.1,
    hthm.2 _ 0 (V5_nearest_floor _ _ (V5_upper_sphere_miss _)) rfl⟩

/-- The plane `y = 2` of V6 (point `(0,2,0)`, normal `(0,1,0)`) reports no hit for the ray from
`(0,1,0)` straight down and leaves the record as it was. -/
theorem V6_upper_plane_miss (col : V6.Vec ℝ) (refl : ℝ) (h0 : V6.Hit ℝ) :
    V6.Object.intersect Real.sqrt (V6.Object.plane ⟨⟨0, 2, 0⟩, ⟨0, 1, 0⟩, col, refl⟩)
        ⟨⟨0, 1, 0⟩, ⟨0, -1, 0⟩⟩ h0 = (false, h0) := by
  have hd : ((2 : ℝ) - 1) / -1 = -1 := by norm_num
  have habs : ¬ (|(-1 : ℝ)| < 1 / 1000000) := by norm_num
  have heps : (-1 : ℝ) < 1 / 10000 := by norm_num
  simp only [V6.Object.intersect, V6.Plane.intersect, V6.Vec.dot, V6.Vec.sub,
    mul_zero, zero_mul, add_zero, zero_add, mul_one, one_mul, sub_self, mul_neg, neg_zero,
    hd, habs, heps, if_false, true_or, if_true]

/-- The nearest-hit scan of V6 over the floor plane `y = 0` and the plane `y = 2`, for the ray
from `(0,1,0)` straight down: the floor's record. -/
theorem V6_nearest_floor_pair (col col2 : V6.Vec ℝ) (refl refl2 : ℝ) :
    V6.nearest Real.sqrt ⟨⟨0, 1, 0⟩, ⟨0, -1, 0⟩⟩
        [V6.Object.plane ⟨⟨0, 0, 0⟩, ⟨0, 1, 0⟩, col, refl⟩,
          V6.Object.plane ⟨⟨0, 2, 0⟩, ⟨0, 1, 0⟩, col2, refl2⟩]
      = (⟨((1 : ℝ) : WithTop ℝ), ⟨0, 0, 0⟩, ⟨0, 1, 0⟩, col, refl⟩,
          some (V6.Object.plane ⟨⟨0, 0, 0⟩, ⟨0, 1, 0⟩, col, refl⟩)) := by
  have hinit : ((1 : ℝ) : WithTop ℝ) ≤ (V6.Hit.init : V6.Hit ℝ).t := by
    simp [V6.Hit.init, V6.INF]
  simp only [V6.nearest, List.foldl_cons, List.foldl_nil, V6.nearestStep]
  rw [V6_floor_hit _ _ _ hinit]
  simp only [if_true]
  rw [V6_upper_plane_miss]
  simp

/-- The shadow ray of V6 from the origin with normal `(0,1,0)` to the light at `(0,4,0)`. -/
theorem V6_shadowRay_up (t : WithTop ℝ) (col : V6.Vec ℝ) (refl : ℝ) :
    V6.shadowRay Real.sqrt ⟨0, 4, 0⟩ ⟨t, ⟨0, 0, 0⟩, ⟨0, 1, 0⟩, col, refl⟩
      = ⟨⟨0, 1 / 10000, 0⟩, ⟨0, 1, 0⟩⟩ := by
  have h16 : Real.sqrt (4 * 4) = 4 := by
    rw [show (4 : ℝ) * 4 = 16 by norm_num]
    exact sqrt_sixteen
  simp [V6.shadowRay, V6.ldir, V6.Vec.norm, V6.Vec.sub, V6.Vec.add, V6.Vec.scale, h16]

/-- The plane `y = 2` of V6 reports a hit with `t = 2 - 1/10000` for the shadow ray from
`(0,1/10000,0)` straight up, called as the shadow loop calls it (`sh.t = INF`). -/
theorem V6_upper_plane_occludes (col : V6.Vec ℝ) (refl : ℝ) :
    V6.Object.intersect Real.sqrt (V6.Object.plane ⟨⟨0, 2, 0⟩, ⟨0, 1, 0⟩, col, refl⟩)
        ⟨⟨0, 1 / 10000, 0⟩, ⟨0, 1, 0⟩⟩ V6.Hit.init
      = (true, ⟨(((2 : ℝ) - 1 / 10000 : ℝ) : WithTop ℝ), ⟨0, 2, 0⟩, ⟨0, 1, 0⟩, col, refl⟩) := by
  have habs : ¬ (|(1 : ℝ)| < 1 / 1000000) := by norm_num
  have hguard : ¬ ((2 : ℝ) - 1 / 10000 < 1 / 10000 ∨
      (((2 : ℝ) - 1 / 10000 : ℝ) : WithTop ℝ) > (V6.Hit.init : V6.Hit ℝ).t) := by
    intro h
    rcases h with h | h
    · norm_num at h
    · simp [V6.Hit.init, V6.INF] at h
  have hp : (1 : ℝ) / 10000 + (2 - 1 / 10000) = 2 := by norm_num
  simp only [V6.Object.intersect, V6.Plane.intersect, V6.Vec.dot, V6.Vec.sub, V6.Vec.add,
    V6.Vec.scale, mul_zero, zero_mul, add_zero, zero_add, mul_one, one_mul, sub_self, div_one,
    habs, hguard, hp, if_false]

/-- The diffuse factor of V6 on the floor plane `y = 0` at the origin, lit from `(0,4,0)`,
when the scene holds that plane and the plane `y = 2`: the shadow loop skips both planes. -/
theorem V6_diff_floor_pair (col col2 : V6.Vec ℝ) (refl refl2 : ℝ) (t : WithTop ℝ) :
    V6.diff Real.sqrt [V6.Object.plane ⟨⟨0, 0, 0⟩, ⟨0, 1, 0⟩, col, refl⟩,
        V6.Object.plane ⟨⟨0, 2, 0⟩, ⟨0, 1, 0⟩, col2, refl2⟩] ⟨0, 4, 0⟩
        ⟨t, ⟨0, 0, 0⟩, ⟨0, 1, 0⟩, col, refl⟩ = 1 := by
  have h16 : Real.sqrt (4 * 4) = 4 := by
    rw [show (4 : ℝ) * 4 = 16 by norm_num]
    exact sqrt_sixteen
  simp [V6.diff, V6.blocked, V6.blockedStep, V6.Object.isPlane, V6.ldir, V6.Vec.norm,
    V6.Vec.sub, V6.Vec.scale, V6.Vec.dot, h16]

/-- C6 as stated fails in V5 and in V6 for a plane occluder.  V5: the floor plane `y = 0` lies
under the plane `y = 1`, the light is at `(0,4,0)`, the ray goes from `(0,1/2,0)` straight down.
The plane `y = 1` reports a hit for the shadow ray at `t = 1 - EPS`, below the distance `4` to
the light, but the shadow scan skips planes: the diffuse factor is `1` and `trace` returns
`(1,1,1)` for the floor material of reflectivity `0`.  V6: the floor plane `y = 0` lies under
the plane `y = 2`, the light is at `(0,4,0)`, the ray goes from `(0,1,0)` straight down.  The
plane `y = 2` reports a hit for the shadow ray, called with `sh.t = INF` as the shadow loop
calls `intersect`, at `t = 2 - 1/10000`, below the distance `4` to the light, but the shadow
loop skips planes: the diffuse factor is `1` and `trace` returns `(1,1,1)` for the floor of
reflectivity `0`. -/
theorem shadow_by_plane_counterexample :
    V5.nearest Real.sqrt ⟨⟨0, 1 / 2, 0⟩, ⟨0, -1, 0⟩⟩
        [V5.Object.plane (⟨⟨0, 1, 0⟩, 0, ⟨⟨1, 1, 1⟩, 0⟩⟩ : V5.Plane ℝ),
          V5.Object.plane ⟨⟨0, 1, 0⟩, -1, ⟨⟨1, 1, 1⟩, 0⟩⟩]
      = some ⟨1 / 2, ⟨0, 0, 0⟩, ⟨0, 1, 0⟩, ⟨⟨1, 1, 1⟩, 0⟩⟩ ∧
    V5.Object.intersect Real.sqrt
        (V5.Object.plane (⟨⟨0, 1, 0⟩, -1, ⟨⟨1, 1, 1⟩, 0⟩⟩ : V5.Plane ℝ))
        (V5.shadowRay Real.sqrt ⟨0, 4, 0⟩ ⟨1 / 2, ⟨0, 0, 0⟩, ⟨0, 1, 0⟩, ⟨⟨1, 1, 1⟩, 0⟩⟩)
      = some ⟨1 - V5.EPS, ⟨0, 1, 0⟩, ⟨0, 1, 0⟩, ⟨⟨1, 1, 1⟩, 0⟩⟩ ∧
    (1 - V5.EPS : ℝ) < Real.sqrt (V5.Vec.dot
        (V5.Vec.sub (⟨0, 4, 0⟩ : V5.Vec ℝ) ⟨0, 0, 0⟩) (V5.Vec.sub ⟨0, 4, 0⟩ ⟨0, 0, 0⟩)) ∧
    V5.diff Real.sqrt
        [V5.Object.plane (⟨⟨0, 1, 0⟩, 0, ⟨⟨1, 1, 1⟩, 0⟩⟩ : V5.Plane ℝ),
          V5.Object.plane ⟨⟨0, 1, 0⟩, -1, ⟨⟨1, 1, 1⟩, 0⟩⟩]
        ⟨0, 4, 0⟩ ⟨1 / 2, ⟨0, 0, 0⟩, ⟨0, 1, 0⟩, ⟨⟨1, 1, 1⟩, 0⟩⟩ = 1 ∧
    V5.trace Real.sqrt ⟨⟨0, 1 / 2, 0⟩, ⟨0, -1, 0⟩⟩
        [V5.Object.plane (⟨⟨0, 1, 0⟩, 0, ⟨⟨1, 1, 1⟩, 0⟩⟩ : V5.Plane ℝ),
          V5.Object.plane ⟨⟨0, 1, 0⟩, -1, ⟨⟨1, 1, 1⟩, 0⟩⟩]
        ⟨0, 4, 0⟩ 0 = ⟨1, 1, 1⟩ ∧
    V6.nearest Real.sqrt ⟨⟨0, 1, 0⟩, ⟨0, -1, 0⟩⟩
        [V6.Object.plane (⟨⟨0, 0, 0⟩, ⟨0, 1, 0⟩, ⟨1, 1, 1⟩, 0⟩ : V6.Plane ℝ),
          V6.Object.plane ⟨⟨0, 2, 0⟩, ⟨0, 1, 0⟩, ⟨1, 1, 1⟩, 0⟩]
      = (⟨((1 : ℝ) : WithTop ℝ), ⟨0, 0, 0⟩, ⟨0, 1, 0⟩, ⟨1, 1, 1⟩, 0⟩,
          some (V6.Object.plane ⟨⟨0, 0, 0⟩, ⟨0, 1, 0⟩, ⟨1, 1, 1⟩, 0⟩)) ∧
    V6.Object.intersect Real.sqrt
        (V6.Object.plane (⟨⟨0, 2, 0⟩, ⟨0, 1, 0⟩, ⟨1, 1, 1⟩, 0⟩ : V6.Plane ℝ))
        (V6.shadowRay Real.sqrt ⟨0, 4, 0⟩
          ⟨((1 : ℝ) : WithTop ℝ), ⟨0, 0, 0⟩, ⟨0, 1, 0⟩, ⟨1, 1, 1⟩, 0⟩)
        V6.Hit.init
      = (true, ⟨(((2 : ℝ) - 1 / 10000 : ℝ) : WithTop ℝ), ⟨0, 2, 0⟩, ⟨0, 1, 0⟩,
          ⟨1, 1, 1⟩, 0⟩) ∧
    ((2 : ℝ) - 1 / 10000) < Real.sqrt (V6.Vec.dot
        (V6.Vec.sub (⟨0, 4, 0⟩ : V6.Vec ℝ) ⟨0, 0, 0⟩) (V6.Vec.sub ⟨0, 4, 0⟩ ⟨0, 0, 0⟩)) ∧
    V6.diff Real.sqrt
        [V6.Object.plane (⟨⟨0, 0, 0⟩, ⟨0, 1, 0⟩, ⟨1, 1, 1⟩, 0⟩ : V6.Plane ℝ),
          V6.Object.plane ⟨⟨0, 2, 0⟩, ⟨0, 1, 0⟩, ⟨1, 1, 1⟩, 0⟩]
        ⟨0, 4, 0⟩ ⟨((1 : ℝ) : WithTop ℝ), ⟨0, 0, 0⟩, ⟨0, 1, 0⟩, ⟨1, 1, 1⟩, 0⟩ = 1 ∧
    V6.trace Real.sqrt ⟨⟨0, 1, 0⟩, ⟨0, -1, 0⟩⟩
        [V6.Object.plane (⟨⟨0, 0, 0⟩, ⟨0, 1, 0⟩, ⟨1, 1, 1⟩, 0⟩ : V6.Plane ℝ),
          V6.Object.plane ⟨⟨0, 2, 0⟩, ⟨0, 1, 0⟩, ⟨1, 1, 1⟩, 0⟩]
        ⟨0, 4, 0⟩ 0 = ⟨1, 1, 1⟩ := by
  have hn6 := V6_nearest_floor_pair (⟨1, 1, 1⟩ : V6.Vec ℝ) ⟨1, 1, 1⟩ 0 0
  have hd6 := V6_diff_floor_pair (⟨1, 1, 1⟩ : V6.Vec ℝ) ⟨1, 1, 1⟩ 0 0 ((1 : ℝ) : WithTop ℝ)
  have hn := V5_nearest_floor (⟨⟨1, 1, 1⟩, 0⟩ : V5.Material ℝ) _
    (V5_upper_plane_miss (⟨⟨1, 1, 1⟩, 0⟩ : V5.Material ℝ))
  have hsr := V5_shadowRay_up (1 / 2) (⟨⟨1, 1, 1⟩, 0⟩ : V5.Material ℝ)
  have hld : V5.ldir Real.sqrt ⟨0, 4, 0⟩
      (⟨1 / 2, ⟨0, 0, 0⟩, ⟨0, 1, 0⟩, ⟨⟨1, 1, 1⟩, 0⟩⟩ : V5.Hit ℝ) = ⟨0, 1, 0⟩ :=
    congrArg V5.Ray.d hsr
  have hdiff : V5.diff Real.sqrt
        [V5.Object.plane (⟨⟨0, 1, 0⟩, 0, ⟨⟨1, 1, 1⟩, 0⟩⟩ : V5.Plane ℝ),
          V5.Object.plane ⟨⟨0, 1, 0⟩, -1, ⟨⟨1, 1, 1⟩, 0⟩⟩]
        ⟨0, 4, 0⟩ ⟨1 / 2, ⟨0, 0, 0⟩, ⟨0, 1, 0⟩, ⟨⟨1, 1, 1⟩, 0⟩⟩ = 1 := by
    simp only [V5.diff, V5.shadowed, V5.Object.isPlane, hld, V5.Vec.dot]
    norm_num
  refine ⟨hn, ?_, ?_, hdiff, ?_, hn6, ?_, ?_, hd6, ?_⟩
  · rw [hsr]
    exact V5_upper_plane_occludes _
  · have h16 : V5.Vec.dot (V5.Vec.sub (⟨0, 4, 0⟩ : V5.Vec ℝ) ⟨0, 0, 0⟩)
        (V5.Vec.sub ⟨0, 4, 0⟩ ⟨0, 0, 0⟩) = 16 := by
      simp [V5.Vec.dot, V5.Vec.sub]
      norm_num
    rw [h16, sqrt_sixteen]
    norm_num [V5.EPS]
  · rw [V5.trace, hn]
    simp only [hdiff]
    simp [V5.MAX_DEPTH, V5.Vec.scale]
  · rw [V6_shadowRay_up]
    exact V6_upper_plane_occludes _ _
  · have h16 : V6.Vec.dot (V6.Vec.sub (⟨0, 4, 0⟩ : V6.Vec ℝ) ⟨0, 0, 0⟩)
        (V6.Vec.sub ⟨0, 4, 0⟩ ⟨0, 0, 0⟩) = 16 := by
      simp [V6.Vec.dot, V6.Vec.sub]
      norm_num
    rw [h16, sqrt_sixteen]
    norm_num
  · rw [V6.trace, hn6]
    simp only [hd6]
    simp [V6.MAX_DEPTH, V6.Vec.scale]

/-! ### C7 -/

/-- C8, as amended (V6, `MAX_DEPTH = 3`): when `trace` is called with `depth < MAX_DEPTH` and
the nearest hit has reflectivity exactly `1`, the direct-illumination term (hit colour times
diffuse factor) has weight `0`: the returned colour is the colour traced along the reflected
ray at `depth + 1`, which depends neither on the hit's colour nor on the diffuse factor.  When
`trace` is called with `depth = MAX_DEPTH`, the guard `depth<MAX_DEPTH` skips the reflection and
the returned colour is exactly the direct-illumination term, whatever the reflectivity. -/
theorem V6_trace_mirror_weight :
    (∀ (r : V6.Ray ℝ) (objs : List (V6.Object ℝ)) (light : V6.Vec ℝ) (depth : Int)
        (h : V6.Hit ℝ) (o : V6.Object ℝ),
      V6.nearest Real.sqrt r objs = (h, some o) → depth < V6.MAX_DEPTH → h.refl = 1 →
      V6.trace Real.sqrt r objs light depth
        = V6.trace Real.sqrt (V6.reflRay Real.sqrt r h) objs light (depth + 1)) ∧
    (∀ (r : V6.Ray ℝ) (objs : List (V6.Object ℝ)) (light : V6.Vec ℝ)
        (h : V6.Hit ℝ) (o : V6.Object ℝ),
      V6.nearest Real.sqrt r objs = (h, some o) →
      V6.trace Real.sqrt r objs light V6.MAX_DEPTH
        = h.color.scale (V6.diff Real.sqrt objs light h)) := by
  constructor
  · intro r objs light depth h o hn hdepth hrefl
    rw [V6.trace, hn]
    simp only [hdepth, hrefl, true_and]
    rw [if_pos (by norm_num)]
    apply V6.Vec.ext <;> simp [V6.Vec.add, V6.Vec.scale]
  · intro r objs light h o hn
    rw [V6.trace, hn]
    simp

/-- The nearest-hit scan of V6 over the single floor plane `y = 0`, for the ray from `(0,1,0)`
straight down. -/
theorem V6_nearest_floor (col : V6.Vec ℝ) (refl : ℝ) :
    V6.nearest Real.sqrt ⟨⟨0, 1, 0⟩, ⟨0, -1, 0⟩⟩
        [V6.Object.plane ⟨⟨0, 0, 0⟩, ⟨0, 1, 0⟩, col, refl⟩]
      = (⟨((1 : ℝ) : WithTop ℝ), ⟨0, 0, 0⟩, ⟨0, 1, 0⟩, col, refl⟩,
          some (V6.Object.plane ⟨⟨0, 0, 0⟩, ⟨0, 1, 0⟩, col, refl⟩)) := by
  have hinit : ((1 : ℝ) : WithTop ℝ) ≤ (V6.Hit.init : V6.Hit ℝ).t := by
    simp [V6.Hit.init, V6.INF]
  simp only [V6.nearest, List.foldl_cons, List.foldl_nil, V6.nearestStep]
  rw [V6_floor_hit _ _ _ hinit]
  simp only [if_true]

/-- The diffuse factor of V6 on the floor plane `y = 0` at the origin, lit from `(0,4,0)`,
when the scene holds only that plane: the shadow loop skips the plane and the factor is `1`. -/
theorem V6_diff_floor (col : V6.Vec ℝ) (refl : ℝ) (t : WithTop ℝ) :
    V6.diff Real.sqrt [V6.Object.plane ⟨⟨0, 0, 0⟩, ⟨0, 1, 0⟩, col, refl⟩] ⟨0, 4, 0⟩
        ⟨t, ⟨0, 0, 0⟩, ⟨0, 1, 0⟩, col, refl⟩ = 1 := by
  have h16 : Real.sqrt (4 * 4) = 4 := by
    rw [show (4 : ℝ) * 4 = 16 by norm_num]
    exact sqrt_sixteen
  simp [V6.diff, V6.blocked, V6.blockedStep, V6.Object.isPlane, V6.ldir, V6.Vec.norm,
    V6.Vec.sub, V6.Vec.scale, V6.Vec.dot, h16]

/-- C8 as amended, at the mirror floor plane `y = 0` (reflectivity `1`), the light at
`(0,4,0)` and the ray from `(0,1,0)` straight down, called at depth `0`: the returned colour
is the colour traced along the reflected ray at depth `1`. -/
theorem V6_trace_mirror_weight_witness :
    V6.nearest Real.sqrt ⟨⟨0, 1, 0⟩, ⟨0, -1, 0⟩⟩
        [V6.Object.plane (⟨⟨0, 0, 0⟩, ⟨0, 1, 0⟩, ⟨1, 1, 1⟩, 1⟩ : V6.Plane ℝ)]
      = (⟨((1 : ℝ) : WithTop ℝ), ⟨0, 0, 0⟩, ⟨0, 1, 0⟩, ⟨1, 1, 1⟩, 1⟩,
          some (V6.Object.plane ⟨⟨0, 0, 0⟩, ⟨0, 1, 0⟩, ⟨1, 1, 1⟩, 1⟩)) ∧
    (0 : Int) < V6.MAX_DEPTH ∧
    V6.trace Real.sqrt ⟨⟨0, 1, 0⟩, ⟨0, -1, 0⟩⟩
        [V6.Object.plane (⟨⟨0, 0, 0⟩, ⟨0, 1, 0⟩, ⟨1, 1, 1⟩, 1⟩ : V6.Plane ℝ)] ⟨0, 4, 0⟩ 0
      = V6.trace Real.sqrt
          (V6.reflRay Real.sqrt ⟨⟨0, 1, 0⟩, ⟨0, -1, 0⟩⟩
            ⟨((1 : ℝ) : WithTop ℝ), ⟨0, 0, 0⟩, ⟨0, 1, 0⟩, ⟨1, 1, 1⟩, 1⟩)
          [V6.Object.plane (⟨⟨0, 0, 0⟩, ⟨0, 1, 0⟩, ⟨1, 1, 1⟩, 1⟩ : V6.Plane ℝ)] ⟨0, 4, 0⟩
          (0 + 1) :=
  ⟨V6_nearest_floor _ _, by decide,
    V6_trace_mirror_weight.1 _ _ _ 0 _ _ (V6_nearest_floor _ _) (by decide) rfl⟩

/-- C8 as stated fails in V6: at `depth = MAX_DEPTH = 3` the reflection is skipped, so on the
mirror floor plane `y = 0` (reflectivity `1`, diffuse factor `1`) the returned colour is the
hit's colour itself: `(1,1,1)` for a white floor and `(0,0,1)` for a blue one, with everything
else the same. -/
theorem V6_trace_mirror_counterexample :
    V6.trace Real.sqrt ⟨⟨0, 1, 0⟩, ⟨0, -1, 0⟩⟩
        [V6.Object.plane (⟨⟨0, 0, 0⟩, ⟨0, 1, 0⟩, ⟨1, 1, 1⟩, 1⟩ : V6.Plane ℝ)] ⟨0, 4, 0⟩ 3
      = ⟨1, 1, 1⟩ ∧
    V6.trace Real.sqrt ⟨⟨0, 1, 0⟩, ⟨0, -1, 0⟩⟩
        [V6.Object.plane (⟨⟨0, 0, 0⟩, ⟨0, 1, 0⟩, ⟨0, 0, 1⟩, 1⟩ : V6.Plane ℝ)] ⟨0, 4, 0⟩ 3
      = ⟨0, 0, 1⟩ ∧
    V6.trace Real.sqrt ⟨⟨0, 1, 0⟩, ⟨0, -1, 0⟩⟩
        [V6.Object.plane (⟨⟨0, 0, 0⟩, ⟨0, 1, 0⟩, ⟨1, 1, 1⟩, 1⟩ : V6.Plane ℝ)] ⟨0, 4, 0⟩ 3
      ≠ V6.trace Real.sqrt ⟨⟨0, 1, 0⟩, ⟨0, -1, 0⟩⟩
        [V6.Object.plane (⟨⟨0, 0, 0⟩, ⟨0, 1, 0⟩, ⟨0, 0, 1⟩, 1⟩ : V6.Plane ℝ)] ⟨0, 4, 0⟩ 3 := by
  have hcol : ∀ col : V6.Vec ℝ, V6.trace Real.sqrt ⟨⟨0, 1, 0⟩, ⟨0, -1, 0⟩⟩
      [V6.Object.plane (⟨⟨0, 0, 0⟩, ⟨0, 1, 0⟩, col, 1⟩ : V6.Plane ℝ)] ⟨0, 4, 0⟩ 3 = col := by
    intro col
    rw [V6.trace, V6_nearest_floor]
    simp only [V6_diff_floor, V6.MAX_DEPTH]
    simp [V6.Vec.scale]
  refine ⟨hcol _, hcol _, ?_⟩
  rw [hcol, hcol]
  intro heq
  have := congrArg V6.Vec.x heq
  norm_num at this

/-! ### C9 -/

/-- A hit reported by `Plane::intersect` of V3. -/
theorem V3_plane_hit {pl : V3.Plane ℝ} {ray : V3.Ray ℝ} {h : V3.Hit ℝ}
    (hint : pl.intersect ray = some h) :
    ¬ (|pl.normal.dot ray.direction| < V3.EPS) ∧ ¬ (h.t < V3.EPS) ∧
    h.t = (pl.point.sub ray.origin).dot pl.normal / pl.normal.dot ray.direction ∧
    h.position = ray.origin.add (ray.direction.scale h.t) ∧ h.normal = pl.normal ∧
    h.material = pl.material := by
  simp only [V3.Plane.intersect] at hint
  split_ifs at hint with hden ht
  simp only [Option.some.injEq] at hint
  subst hint
  exact ⟨hden, ht, rfl, rfl, rfl, rfl⟩

/-- A real number whose absolute value is not below `1/10000` is not zero. -/
theorem ne_zero_of_not_abs_lt (x : ℝ) (h : ¬ (|x| < 1 / 10000)) : x ≠ 0 := by
  intro hx
  apply h
  rw [hx, abs_zero]
  norm_num

/-- C9 (V5 with the plane `n.x + d = 0`, V3 in point-normal form): `Plane::intersect` reports
no hit whenever `|normal.dot(direction)| < EPS`, and whenever it reports a hit the reported
position is `o + t*dir`, it satisfies the plane equation exactly (V5:
`n.dot(position) + d = 0`; V3: `(position - point).dot(normal) = 0`) and the reported normal is
the plane's stored normal, whichever side the ray arrives from. -/
theorem plane_intersect_on_plane :
    (∀ (pl : V5.Plane ℝ) (ray : V5.Ray ℝ),
      |pl.n.dot ray.d| < V5.EPS → pl.intersect ray = none) ∧
    (∀ (pl : V5.Plane ℝ) (ray : V5.Ray ℝ) (h : V5.Hit ℝ), pl.intersect ray = some h →
      h.p = ray.o.add (ray.d.scale h.t) ∧ pl.n.dot h.p + pl.d = 0 ∧ h.n = pl.n) ∧
    (∀ (pl : V3.Plane ℝ) (ray : V3.Ray ℝ),
      |pl.normal.dot ray.direction| < V3.EPS → pl.intersect ray = none) ∧
    (∀ (pl : V3.Plane ℝ) (ray : V3.Ray ℝ) (h : V3.Hit ℝ), pl.intersect ray = some h →
      h.position = ray.origin.add (ray.direction.scale h.t) ∧
      (h.position.sub pl.point).dot pl.normal = 0 ∧ h.normal = pl.normal) := by
  refine ⟨?_, ?_, ?_, ?_⟩
  · intro pl ray hpar
    simp only [V5.Plane.intersect, hpar, if_true]
  · intro pl ray h hint
    obtain ⟨hden, _, ht, hp, hn, _⟩ := V5_plane_hit hint
    have hne : pl.n.dot ray.d ≠ 0 := ne_zero_of_not_abs_lt _ hden
    refine ⟨hp, ?_, hn⟩
    have hmul : h.t * pl.n.dot ray.d = -(pl.n.dot ray.o + pl.d) := by
      rw [ht]
      field_simp
    rw [hp]
    simp only [V5.Vec.dot, V5.Vec.add, V5.Vec.scale] at hmul ⊢
    linear_combination hmul
  · intro pl ray hpar
    simp only [V3.Plane.intersect, hpar, if_true]
  · intro pl ray h hint
    obtain ⟨hden, _, ht, hp, hn, _⟩ := V3_plane_hit hint
    have hne : pl.normal.dot ray.direction ≠ 0 := ne_zero_of_not_abs_lt _ hden
    refine ⟨hp, ?_, hn⟩
    have hmul : h.t * pl.normal.dot ray.direction = (pl.point.sub ray.origin).dot pl.normal := by
      rw [ht]
      field_simp
    rw [hp]
    simp only [V3.Vec3.dot, V3.Vec3.add, V3.Vec3.scale, V3.Vec3.sub] at hmul ⊢
    linear_combination hmul

/-- C9, at the plane `z = 0` of V5 and the ray from `(0,0,-1)` toward `(0,0,1)`: the reported
point `(0,0,0)` is `o + 1*d`, it satisfies the plane equation and the normal is the stored
one. -/
theorem plane_intersect_on_plane_witness :
    V5.Plane.intersect (⟨⟨0, 0, 1⟩, 0, ⟨⟨1, 1, 1⟩, 0⟩⟩ : V5.Plane ℝ) ⟨⟨0, 0, -1⟩, ⟨0, 0, 1⟩⟩
      = some ⟨1, ⟨0, 0, 0⟩, ⟨0, 0, 1⟩, ⟨⟨1, 1, 1⟩, 0⟩⟩ ∧
    ((⟨0, 0, 0⟩ : V5.Vec ℝ) = V5.Vec.add ⟨0, 0, -1⟩ (V5.Vec.scale ⟨0, 0, 1⟩ 1) ∧
      V5.Vec.dot (⟨0, 0, 1⟩ : V5.Vec ℝ) ⟨0, 0, 0⟩ + 0 = 0 ∧
      (⟨0, 0, 1⟩ : V5.Vec ℝ) = ⟨0, 0, 1⟩) :=
  ⟨V5_plane_z_hit _,
    plane_intersect_on_plane.2.1 ⟨⟨0, 0, 1⟩, 0, ⟨⟨1, 1, 1⟩, 0⟩⟩ ⟨⟨0, 0, -1⟩, ⟨0, 0, 1⟩⟩
      ⟨1, ⟨0, 0, 0⟩, ⟨0, 0, 1⟩, ⟨⟨1, 1, 1⟩, 0⟩⟩ (V5_plane_z_hit _)⟩

/-! ### C10 -/

/-- C10 (V6): for every primitive (sphere or plane), every ray and every incoming record `h`,
calling `intersect` a second time with the same ray on the record left by the first call
returns the same boolean as the first call and leaves that record unchanged. -/
theorem V6_intersect_idempotent (o : V6.Object ℝ) (r : V6.Ray ℝ) (h : V6.Hit ℝ) :
    (o.intersect Real.sqrt r (o.intersect Real.sqrt r h).2).1 = (o.intersect Real.sqrt r h).1 ∧
    (o.intersect Real.sqrt r (o.intersect Real.sqrt r h).2).2
      = (o.intersect Real.sqrt r h).2 := by
  rcases V6_cand_cases o r with hno | ⟨hc, t, _, _, hall⟩
  · rw [hno h, hno h]
    exact ⟨rfl, rfl⟩
  · by_cases hle : hc.t ≤ h.t
    · rw [hall h, if_pos hle, hall hc, if_pos (le_refl _)]
      exact ⟨rfl, rfl⟩
    · rw [hall h, if_neg hle, hall h, if_neg hle]
      exact ⟨rfl, rfl⟩

/-! ### The logged `trace` functions compute the colours of `trace` -/

/-- The colour of `traceLog` of V5 is the colour of `trace`. -/
theorem V5_traceLog_fst (ray : V5.Ray ℝ) (objs : List (V5.Object ℝ)) (light : V5.Vec ℝ)
    (depth : Int) :
    (V5.traceLog Real.sqrt ray objs light depth).1 = V5.trace Real.sqrt ray objs light depth := by
  have key : ∀ (n : Nat) (depth : Int) (ray : V5.Ray ℝ),
      (V5.MAX_DEPTH + 1 - depth).toNat ≤ n →
      (V5.traceLog Real.sqrt ray objs light depth).1
        = V5.trace Real.sqrt ray objs light depth := by
    intro n
    induction n with
    | zero =>
      intro depth ray hn
      have hd : depth > V5.MAX_DEPTH := by
        simp only [V5.MAX_DEPTH] at hn ⊢
        omega
      rw [V5.traceLog, V5.trace, if_pos hd, if_pos hd]
    | succ n ih =>
      intro depth ray hn
      rw [V5.traceLog, V5.trace]
      by_cases hd : depth > V5.MAX_DEPTH
      · rw [if_pos hd, if_pos hd]
      · rw [if_neg hd, if_neg hd]
        cases hnear : V5.nearest Real.sqrt ray objs with
        | none => rfl
        | some hit =>
          simp only
          by_cases hr : hit.m.reflect > 0
          · rw [if_pos hr, if_pos hr]
            have hrec := ih (depth + 1) (V5.reflRay Real.sqrt ray hit) (by
              simp only [V5.MAX_DEPTH] at hn hd ⊢
              omega)
            simp only [hrec]
          · rw [if_neg hr, if_neg hr]
  exact key _ depth ray (le_refl _)

/-- The colour of `traceLog` of V6 is the colour of `trace`. -/
theorem V6_traceLog_fst (r : V6.Ray ℝ) (objs : List (V6.Object ℝ)) (light : V6.Vec ℝ)
    (depth : Int) :
    (V6.traceLog Real.sqrt r objs light depth).1 = V6.trace Real.sqrt r objs light depth := by
  have key : ∀ (n : Nat) (depth : Int) (r : V6.Ray ℝ),
      (V6.MAX_DEPTH - depth).toNat ≤ n →
      (V6.traceLog Real.sqrt r objs light depth).1
        = V6.trace Real.sqrt r objs light depth := by
    intro n
    induction n with
    | zero =>
      intro depth r hn
      have hd : ¬ depth < V6.MAX_DEPTH := by
        simp only [V6.MAX_DEPTH] at hn ⊢
        omega
      rw [V6.traceLog, V6.trace]
      rcases hnear : V6.nearest Real.sqrt r objs with ⟨h, _ | o⟩
      · rfl
      · simp only [hd, false_and, if_false]
    | succ n ih =>
      intro depth r hn
      rw [V6.traceLog, V6.trace]
      rcases hnear : V6.nearest Real.sqrt r objs with ⟨h, _ | o⟩
      · rfl
      · simp only
        by_cases hr : depth < V6.MAX_DEPTH ∧ h.refl > 0
        · rw [if_pos hr, if_pos hr]
          have hrec := ih (depth + 1) (V6.reflRay Real.sqrt r h) (by
            have := hr.1
            simp only [V6.MAX_DEPTH] at hn this ⊢
            omega)
          simp only [hrec]
        · rw [if_neg hr, if_neg hr]
  exact key _ depth r (le_refl _)

/-- The colour of `traceLog` of V3 is the colour of `trace`. -/
theorem V3_traceLog_fst (ray : V3.Ray ℝ) (scene : V3.Scene ℝ) (depth : Int) :
    (V3.traceLog Real.sqrt ray scene depth).1 = V3.trace Real.sqrt ray scene depth := by
  have key : ∀ (n : Nat) (depth : Int) (ray : V3.Ray ℝ), depth.toNat ≤ n →
      (V3.traceLog Real.sqrt ray scene depth).1 = V3.trace Real.sqrt ray scene depth := by
    intro n
    induction n with
    | zero =>
      intro depth ray hn
      have hd : depth ≤ 0 := by omega
      rw [V3.traceLog, V3.trace, if_pos hd, if_pos hd]
    | succ n ih =>
      intro depth ray hn
      rw [V3.traceLog, V3.trace]
      by_cases hd : depth ≤ 0
      · rw [if_pos hd, if_pos hd]
      · rw [if_neg hd, if_neg hd]
        cases hnear : V3.nearest Real.sqrt ray scene.objects with
        | none => rfl
        | some closestHit =>
          simp only
          by_cases hr : closestHit.material.reflectivity > 0
          · rw [if_pos hr, if_pos hr]
            have hrec := ih (depth - 1) (V3.reflRay Real.sqrt ray closestHit) (by omega)
            simp only [hrec]
          · rw [if_neg hr, if_neg hr]
  exact key _ depth ray (le_refl _)

/-! ### C13 -/

/-- C13 (V5, `MAX_DEPTH = 3`): a call of `trace` with `depth > MAX_DEPTH` returns `(0,0,0)`
without scanning any primitive (its log of scans is empty), and therefore a call with
`depth = MAX_DEPTH` whose nearest hit has reflectivity `rho > 0` takes black as the reflected
colour and returns exactly `direct*(1 - rho)`, where `direct` is the material colour times the
diffuse factor. -/
theorem V5_trace_at_max_depth :
    (∀ (ray : V5.Ray ℝ) (objs : List (V5.Object ℝ)) (light : V5.Vec ℝ) (depth : Int),
      depth > V5.MAX_DEPTH →
      V5.trace Real.sqrt ray objs light depth = ⟨0, 0, 0⟩ ∧
      V5.traceLog Real.sqrt ray objs light depth = (⟨0, 0, 0⟩, [])) ∧
    (∀ (ray : V5.Ray ℝ) (objs : List (V5.Object ℝ)) (light : V5.Vec ℝ) (hit : V5.Hit ℝ),
      V5.nearest Real.sqrt ray objs = some hit → hit.m.reflect > 0 →
      V5.trace Real.sqrt (V5.reflRay Real.sqrt ray hit) objs light (V5.MAX_DEPTH + 1)
        = ⟨0, 0, 0⟩ ∧
      V5.trace Real.sqrt ray objs light V5.MAX_DEPTH
        = (hit.m.color.scale (V5.diff Real.sqrt objs light hit)).scale (1 - hit.m.reflect)) := by
  have hover : ∀ (ray : V5.Ray ℝ) (objs : List (V5.Object ℝ)) (light : V5.Vec ℝ) (depth : Int),
      depth > V5.MAX_DEPTH → V5.trace Real.sqrt ray objs light depth = ⟨0, 0, 0⟩ := by
    intro ray objs light depth hd
    rw [V5.trace, if_pos hd]
  refine ⟨?_, ?_⟩
  · intro ray objs light depth hd
    refine ⟨hover ray objs light depth hd, ?_⟩
    rw [V5.traceLog, if_pos hd]
  · intro ray objs light hit hn hr
    have hsub := hover (V5.reflRay Real.sqrt ray hit) objs light (V5.MAX_DEPTH + 1)
      (by simp [V5.MAX_DEPTH])
    refine ⟨hsub, ?_⟩
    rw [V5.trace, if_neg (lt_irrefl _), hn]
    simp only [if_pos hr, hsub]
    apply V5.Vec.ext <;> simp [V5.Vec.add, V5.Vec.scale]

/-- C13, at the mirror floor plane `y = 0` (reflectivity `1`) under the plane `y = 1`, for the
ray from `(0,1/2,0)` straight down at depth `3`: the reflected colour is black and `trace`
returns `direct*(1 - 1)`. -/
theorem V5_trace_at_max_depth_witness :
    V5.nearest Real.sqrt ⟨⟨0, 1 / 2, 0⟩, ⟨0, -1, 0⟩⟩
        [V5.Object.plane (⟨⟨0, 1, 0⟩, 0, ⟨⟨1, 1, 1⟩, 1⟩⟩ : V5.Plane ℝ),
          V5.Object.plane ⟨⟨0, 1, 0⟩, -1, ⟨⟨1, 1, 1⟩, 0⟩⟩]
      = some ⟨1 / 2, ⟨0, 0, 0⟩, ⟨0, 1, 0⟩, ⟨⟨1, 1, 1⟩, 1⟩⟩ ∧
    (⟨1 / 2, ⟨0, 0, 0⟩, ⟨0, 1, 0⟩, ⟨⟨1, 1, 1⟩, 1⟩⟩ : V5.Hit ℝ).m.reflect > 0 ∧
    V5.trace Real.sqrt ⟨⟨0, 1 / 2, 0⟩, ⟨0, -1, 0⟩⟩
        [V5.Object.plane (⟨⟨0, 1, 0⟩, 0, ⟨⟨1, 1, 1⟩, 1⟩⟩ : V5.Plane ℝ),
          V5.Object.plane ⟨⟨0, 1, 0⟩, -1, ⟨⟨1, 1, 1⟩, 0⟩⟩] ⟨0, 4, 0⟩ V5.MAX_DEPTH
      = ((⟨1, 1, 1⟩ : V5.Vec ℝ).scale (V5.diff Real.sqrt
          [V5.Object.plane (⟨⟨0, 1, 0⟩, 0, ⟨⟨1, 1, 1⟩, 1⟩⟩ : V5.Plane ℝ),
            V5.Object.plane ⟨⟨0, 1, 0⟩, -1, ⟨⟨1, 1, 1⟩, 0⟩⟩] ⟨0, 4, 0⟩
          ⟨1 / 2, ⟨0, 0, 0⟩, ⟨0, 1, 0⟩, ⟨⟨1, 1, 1⟩, 1⟩⟩)).scale (1 - 1) :=
  ⟨V5_nearest_floor _ _ (V5_upper_plane_miss _), by norm_num,
    (V5_trace_at_max_depth.2 _ _ ⟨0, 4, 0⟩ _
      (V5_nearest_floor _ _ (V5_upper_plane_miss _)) (by norm_num)).2⟩

/-! ### C14 -/

/-- The scans of `traceLog` of V5: at most `MAX_DEPTH + 1 - depth` of them, each at a depth
between the depth of the call and `MAX_DEPTH`. -/
theorem V5_traceLog_bounds (objs : List (V5.Object ℝ)) (light : V5.Vec ℝ) :
    ∀ (n : Nat) (depth : Int) (ray : V5.Ray ℝ), (V5.MAX_DEPTH + 1 - depth).toNat ≤ n →
      (V5.traceLog Real.sqrt ray objs light depth).2.length ≤ (V5.MAX_DEPTH + 1 - depth).toNat ∧
      ∀ e ∈ (V5.traceLog Real.sqrt ray objs light depth).2,
        depth ≤ e.depth ∧ e.depth ≤ V5.MAX_DEPTH := by
  intro n
  induction n with
  | zero =>
    intro depth ray hn
    have hd : depth > V5.MAX_DEPTH := by
      simp only [V5.MAX_DEPTH] at hn ⊢
      omega
    rw [V5.traceLog, if_pos hd]
    simp
  | succ n ih =>
    intro depth ray hn
    rw [V5.traceLog]
    by_cases hd : depth > V5.MAX_DEPTH
    · rw [if_pos hd]
      simp
    · rw [if_neg hd]
      have hpos : 1 ≤ (V5.MAX_DEPTH + 1 - depth).toNat := by
        simp only [V5.MAX_DEPTH] at hd ⊢
        omega
      cases hnear : V5.nearest Real.sqrt ray objs with
      | none =>
        simp only [List.length_singleton, List.mem_singleton, forall_eq]
        exact ⟨hpos, le_refl _, not_lt.mp hd⟩
      | some hit =>
        simp only
        by_cases hr : hit.m.reflect > 0
        · rw [if_pos hr]
          obtain ⟨hlen, hall⟩ := ih (depth + 1) (V5.reflRay Real.sqrt ray hit) (by
            simp only [V5.MAX_DEPTH] at hn hd ⊢
            omega)
          refine ⟨?_, ?_⟩
          · simp only [List.length_cons]
            simp only [V5.MAX_DEPTH] at hlen hd ⊢
            omega
          · intro e he
            rcases List.mem_cons.mp he with rfl | hin
            · exact ⟨le_refl _, not_lt.mp hd⟩
            · have := hall e hin
              exact ⟨by omega, this.2⟩
        · rw [if_neg hr]
          simp only [List.length_singleton, List.mem_singleton, forall_eq]
          exact ⟨hpos, le_refl _, not_lt.mp hd⟩

/-- The scans of `traceLog` of V6: the call itself scans, deeper calls only below
`MAX_DEPTH`. -/
theorem V6_traceLog_bounds (objs : List (V6.Object ℝ)) (light : V6.Vec ℝ) :
    ∀ (n : Nat) (depth : Int) (r : V6.Ray ℝ), (V6.MAX_DEPTH - depth).toNat ≤ n →
      (V6.traceLog Real.sqrt r objs light depth).2.length ≤ (V6.MAX_DEPTH - depth).toNat + 1 ∧
      ∀ d ∈ (V6.traceLog Real.sqrt r objs light depth).2,
        depth ≤ d ∧ d ≤ max depth V6.MAX_DEPTH := by
  intro n
  induction n with
  | zero =>
    intro depth r hn
    have hd : ¬ depth < V6.MAX_DEPTH := by
      simp only [V6.MAX_DEPTH] at hn ⊢
      omega
    rw [V6.traceLog]
    rcases hnear : V6.nearest Real.sqrt r objs with ⟨h, _ | o⟩
    · simp
    · simp [hd]
  | succ n ih =>
    intro depth r hn
    rw [V6.traceLog]
    rcases hnear : V6.nearest Real.sqrt r objs with ⟨h, _ | o⟩
    · simp
    · simp only
      by_cases hr : depth < V6.MAX_DEPTH ∧ h.refl > 0
      · rw [if_pos hr]
        have hlt := hr.1
        obtain ⟨hlen, hall⟩ := ih (depth + 1) (V6.reflRay Real.sqrt r h) (by
          simp only [V6.MAX_DEPTH] at hn hlt ⊢
          omega)
        refine ⟨?_, ?_⟩
        · simp only [List.length_cons]
          simp only [V6.MAX_DEPTH] at hlen hlt ⊢
          omega
        · intro d hdm
          rcases List.mem_cons.mp hdm with rfl | hin
          · exact ⟨le_refl _, le_max_left _ _⟩
          · have := hall d hin
            refine ⟨by omega, ?_⟩
            have h2 := this.2
            simp only [V6.MAX_DEPTH] at h2 hlt ⊢
            omega
      · rw [if_neg hr]
        simp

/-- The scans of `traceLog` of V3: at most `depth` of them, each at a depth between `1` and the
depth of the call. -/
theorem V3_traceLog_bounds (scene : V3.Scene ℝ) :
    ∀ (n : Nat) (depth : Int) (ray : V3.Ray ℝ), depth.toNat ≤ n →
      (V3.traceLog Real.sqrt ray scene depth).2.length ≤ depth.toNat ∧
      ∀ d ∈ (V3.traceLog Real.sqrt ray scene depth).2, 1 ≤ d ∧ d ≤ depth := by
  intro n
  induction n with
  | zero =>
    intro depth ray hn
    have hd : depth ≤ 0 := by omega
    rw [V3.traceLog, if_pos hd]
    simp
  | succ n ih =>
    intro depth ray hn
    rw [V3.traceLog]
    by_cases hd : depth ≤ 0
    · rw [if_pos hd]
      simp
    · rw [if_neg hd]
      have hpos : 1 ≤ depth.toNat := by omega
      cases hnear : V3.nearest Real.sqrt ray scene.objects with
      | none =>
        simp only [List.length_singleton, List.mem_singleton, forall_eq]
        exact ⟨hpos, by omega, le_refl _⟩
      | some closestHit =>
        simp only
        by_cases hr : closestHit.material.reflectivity > 0
        · rw [if_pos hr]
          obtain ⟨hlen, hall⟩ := ih (depth - 1) (V3.reflRay Real.sqrt ray closestHit) (by omega)
          refine ⟨?_, ?_⟩
          · simp only [List.length_cons]
            omega
          · intro d hdm
            rcases List.mem_cons.mp hdm with rfl | hin
            · exact ⟨by omega, le_refl _⟩
            · have := hall d hin
              exact ⟨this.1, by omega⟩
        · rw [if_neg hr]
          simp only [List.length_singleton, List.mem_singleton, forall_eq]
          exact ⟨hpos, by omega, le_refl _⟩

/-- C14 (V5, V6, V3): `trace` is a total function of every primitive list, ray, light and
integer depth, and its recursion is bounded by the remaining depth: the logged function returns
the colour of `trace` together with a finite list of nearest-hit scans, at most
`MAX_DEPTH + 1 - depth` of them in V5, one more than `MAX_DEPTH - depth` in V6 and `depth` in
V3.  A top-level call at depth `0` in V5 and V6 scans only at depths `0..MAX_DEPTH`, and a call
of V3 with `depth = maxDepth` scans at no more than `maxDepth` nested levels, at depths
`1..maxDepth`. -/
theorem trace_scans_bounded :
    (∀ (ray : V5.Ray ℝ) (objs : List (V5.Object ℝ)) (light : V5.Vec ℝ) (depth : Int),
      (V5.traceLog Real.sqrt ray objs light depth).1 = V5.trace Real.sqrt ray objs light depth ∧
      (V5.traceLog Real.sqrt ray objs light depth).2.length
        ≤ (V5.MAX_DEPTH + 1 - depth).toNat) ∧
    (∀ (ray : V5.Ray ℝ) (objs : List (V5.Object ℝ)) (light : V5.Vec ℝ),
      ∀ e ∈ (V5.traceLog Real.sqrt ray objs light 0).2, 0 ≤ e.depth ∧ e.depth ≤ V5.MAX_DEPTH) ∧
    (∀ (r : V6.Ray ℝ) (objs : List (V6.Object ℝ)) (light : V6.Vec ℝ) (depth : Int),
      (V6.traceLog Real.sqrt r objs light depth).1 = V6.trace Real.sqrt r objs light depth ∧
      (V6.traceLog Real.sqrt r objs light depth).2.length
        ≤ (V6.MAX_DEPTH - depth).toNat + 1) ∧
    (∀ (r : V6.Ray ℝ) (objs : List (V6.Object ℝ)) (light : V6.Vec ℝ),
      ∀ d ∈ (V6.traceLog Real.sqrt r objs light 0).2, 0 ≤ d ∧ d ≤ V6.MAX_DEPTH) ∧
    (∀ (ray : V3.Ray ℝ) (scene : V3.Scene ℝ) (maxDepth : Int),
      (V3.traceLog Real.sqrt ray scene maxDepth).1 = V3.trace Real.sqrt ray scene maxDepth ∧
      (V3.traceLog Real.sqrt ray scene maxDepth).2.length ≤ maxDepth.toNat ∧
      ∀ d ∈ (V3.traceLog Real.sqrt ray scene maxDepth).2, 1 ≤ d ∧ d ≤ maxDepth) := by
  refine ⟨?_, ?_, ?_, ?_, ?_⟩
  · intro ray objs light depth
    exact ⟨V5_traceLog_fst ray objs light depth,
      (V5_traceLog_bounds objs light _ depth ray (le_refl _)).1⟩
  · intro ray objs light e he
    exact (V5_traceLog_bounds objs light _ 0 ray (le_refl _)).2 e he
  · intro r objs light depth
    exact ⟨V6_traceLog_fst r objs light depth,
      (V6_traceLog_bounds objs light _ depth r (le_refl _)).1⟩
  · intro r objs light d hd
    have := (V6_traceLog_bounds objs light _ 0 r (le_refl _)).2 d hd
    refine ⟨this.1, ?_⟩
    have h2 := this.2
    simp only [V6.MAX_DEPTH] at h2 ⊢
    omega
  · intro ray scene maxDepth
    exact ⟨V3_traceLog_fst ray scene maxDepth,
      V3_traceLog_bounds scene _ maxDepth ray (le_refl _)⟩

/-! ### C20 -/

/-- C20 (V5 and V3): for every vector `d` and every unit-length `n`, `reflect(d, n)` is the
mirror image of `d` about the plane with normal `n`: it has the length of `d`
(`|reflect(d,n)|^2 = |d|^2`, and so `|reflect(d,n)| = |d|`), its component along `n` is
reversed (`reflect(d,n).dot(n) = -(d.dot(n))`), and reflecting twice gives `d` back. -/
theorem reflect_is_mirror :
    (∀ (d n : V5.Vec ℝ), n.dot n = 1 →
      (V5.reflect d n).dot (V5.reflect d n) = d.dot d ∧
      Real.sqrt ((V5.reflect d n).dot (V5.reflect d n)) = Real.sqrt (d.dot d) ∧
      (V5.reflect d n).dot n = -(d.dot n) ∧
      V5.reflect (V5.reflect d n) n = d) ∧
    (∀ (v n : V3.Vec3 ℝ), n.dot n = 1 →
      (V3.reflect v n).dot (V3.reflect v n) = v.dot v ∧
      Real.sqrt ((V3.reflect v n).dot (V3.reflect v n)) = Real.sqrt (v.dot v) ∧
      (V3.reflect v n).dot n = -(v.dot n) ∧
      V3.reflect (V3.reflect v n) n = v) := by
  constructor
  · intro d n hn
    have hlen : (V5.reflect d n).dot (V5.reflect d n) = d.dot d := by
      simp only [V5.reflect, V5.Vec.dot, V5.Vec.sub, V5.Vec.scale] at hn ⊢
      linear_combination (4 * (d.x * n.x + d.y * n.y + d.z * n.z) ^ 2) * hn
    have hdot : (V5.reflect d n).dot n = -(d.dot n) := by
      simp only [V5.reflect, V5.Vec.dot, V5.Vec.sub, V5.Vec.scale] at hn ⊢
      linear_combination (-2 * (d.x * n.x + d.y * n.y + d.z * n.z)) * hn
    refine ⟨hlen, by rw [hlen], hdot, ?_⟩
    simp only [V5.reflect, V5.Vec.dot, V5.Vec.sub, V5.Vec.scale] at hn ⊢
    apply V5.Vec.ext
    · simp only
      linear_combination (4 * n.x * (d.x * n.x + d.y * n.y + d.z * n.z)) * hn
    · simp only
      linear_combination (4 * n.y * (d.x * n.x + d.y * n.y + d.z * n.z)) * hn
    · simp only
      linear_combination (4 * n.z * (d.x * n.x + d.y * n.y + d.z * n.z)) * hn
  · intro v n hn
    have hlen : (V3.reflect v n).dot (V3.reflect v n) = v.dot v := by
      simp only [V3.reflect, V3.Vec3.dot, V3.Vec3.sub, V3.Vec3.scale] at hn ⊢
      linear_combination (4 * (v.x * n.x + v.y * n.y + v.z * n.z) ^ 2) * hn
    have hdot : (V3.reflect v n).dot n = -(v.dot n) := by
      simp only [V3.reflect, V3.Vec3.dot, V3.Vec3.sub, V3.Vec3.scale] at hn ⊢
      linear_combination (-2 * (v.x * n.x + v.y * n.y + v.z * n.z)) * hn
    refine ⟨hlen, by rw [hlen], hdot, ?_⟩
    simp only [V3.reflect, V3.Vec3.dot, V3.Vec3.sub, V3.Vec3.scale] at hn ⊢
    apply V3.Vec3.ext
    · simp only
      linear_combination (4 * n.x * (v.x * n.x + v.y * n.y + v.z * n.z)) * hn
    · simp only
      linear_combination (4 * n.y * (v.x * n.x + v.y * n.y + v.z * n.z)) * hn
    · simp only
      linear_combination (4 * n.z * (v.x * n.x + v.y * n.y + v.z * n.z)) * hn

/-- C20, at `d = (1,2,3)` and the unit normal `n = (0,1,0)`: the reflection is `(1,-2,3)`. -/
theorem reflect_is_mirror_witness :
    V5.Vec.dot (⟨0, 1, 0⟩ : V5.Vec ℝ) ⟨0, 1, 0⟩ = 1 ∧
    V5.reflect (⟨1, 2, 3⟩ : V5.Vec ℝ) ⟨0, 1, 0⟩ = ⟨1, -2, 3⟩ ∧
    ((V5.reflect (⟨1, 2, 3⟩ : V5.Vec ℝ) ⟨0, 1, 0⟩).dot (V5.reflect ⟨1, 2, 3⟩ ⟨0, 1, 0⟩)
        = V5.Vec.dot (⟨1, 2, 3⟩ : V5.Vec ℝ) ⟨1, 2, 3⟩ ∧
      Real.sqrt ((V5.reflect (⟨1, 2, 3⟩ : V5.Vec ℝ) ⟨0, 1, 0⟩).dot
          (V5.reflect ⟨1, 2, 3⟩ ⟨0, 1, 0⟩))
        = Real.sqrt (V5.Vec.dot (⟨1, 2, 3⟩ : V5.Vec ℝ) ⟨1, 2, 3⟩) ∧
      (V5.reflect (⟨1, 2, 3⟩ : V5.Vec ℝ) ⟨0, 1, 0⟩).dot ⟨0, 1, 0⟩
        = -(V5.Vec.dot (⟨1, 2, 3⟩ : V5.Vec ℝ) ⟨0, 1, 0⟩) ∧
      V5.reflect (V5.reflect (⟨1, 2, 3⟩ : V5.Vec ℝ) ⟨0, 1, 0⟩) ⟨0, 1, 0⟩ = ⟨1, 2, 3⟩) := by
  have hn : V5.Vec.dot (⟨0, 1, 0⟩ : V5.Vec ℝ) ⟨0, 1, 0⟩ = 1 := by simp [V5.Vec.dot]
  refine ⟨hn, ?_, reflect_is_mirror.1 _ _ hn⟩
  simp [V5.reflect, V5.Vec.dot, V5.Vec.sub, V5.Vec.scale]
  norm_num

/-! ### C19 -/

/-- A dot product of a vector of V5 with itself is not negative. -/
theorem V5_dot_self_nonneg (v : V5.Vec ℝ) : 0 ≤ v.dot v := by
  simp only [V5.Vec.dot]
  nlinarith [mul_self_nonneg v.x, mul_self_nonneg v.y, mul_self_nonneg v.z]

/-- C19 (V5): for every sphere with centre `c` and radius `r` and every ray whose origin `o`
satisfies `|o - c| ≤ r`, whatever its direction, `Sphere::intersect` reports no hit; although,
when the origin is interior (`|o - c| < r`) and the direction unit-length, the ray does meet the
sphere at the larger root `-b + sqrt(disc) > 0`. -/
theorem V5_sphere_inside_no_hit :
    (∀ (s : V5.Sphere ℝ) (ray : V5.Ray ℝ),
      Real.sqrt ((ray.o.sub s.c).dot (ray.o.sub s.c)) ≤ s.r →
      s.intersect Real.sqrt ray = none) ∧
    (∀ (s : V5.Sphere ℝ) (ray : V5.Ray ℝ), ray.d.dot ray.d = 1 →
      Real.sqrt ((ray.o.sub s.c).dot (ray.o.sub s.c)) < s.r →
      0 < -(ray.o.sub s.c).dot ray.d + Real.sqrt ((ray.o.sub s.c).dot ray.d
        * (ray.o.sub s.c).dot ray.d - ((ray.o.sub s.c).dot (ray.o.sub s.c) - s.r * s.r)) ∧
      ((ray.o.add (ray.d.scale (-(ray.o.sub s.c).dot ray.d + Real.sqrt ((ray.o.sub s.c).dot ray.d
        * (ray.o.sub s.c).dot ray.d - ((ray.o.sub s.c).dot (ray.o.sub s.c) - s.r * s.r))))).sub
          s.c).dot
        ((ray.o.add (ray.d.scale (-(ray.o.sub s.c).dot ray.d + Real.sqrt ((ray.o.sub s.c).dot ray.d
        * (ray.o.sub s.c).dot ray.d - ((ray.o.sub s.c).dot (ray.o.sub s.c) - s.r * s.r))))).sub
          s.c)
        = s.r * s.r) := by
  constructor
  · intro s ray hin
    have hq := V5_dot_self_nonneg (ray.o.sub s.c)
    have hsq := Real.mul_self_sqrt hq
    have hs0 := Real.sqrt_nonneg ((ray.o.sub s.c).dot (ray.o.sub s.c))
    have hle : (ray.o.sub s.c).dot (ray.o.sub s.c) ≤ s.r * s.r := by
      rw [← hsq]
      exact mul_self_le_mul_self hs0 hin
    have habs : |(ray.o.sub s.c).dot ray.d| ≤ Real.sqrt ((ray.o.sub s.c).dot ray.d
        * (ray.o.sub s.c).dot ray.d - ((ray.o.sub s.c).dot (ray.o.sub s.c) - s.r * s.r)) := by
      apply Real.abs_le_sqrt
      nlinarith
    have hneg := neg_abs_le ((ray.o.sub s.c).dot ray.d)
    have hb := neg_le_abs ((ray.o.sub s.c).dot ray.d)
    simp only [V5.Sphere.intersect]
    split_ifs with hdisc ht
    · rfl
    · rfl
    · exfalso
      apply ht
      have : (0 : ℝ) < V5.EPS := by norm_num [V5.EPS]
      linarith
  · intro s ray hd hin
    have hq := V5_dot_self_nonneg (ray.o.sub s.c)
    have hsq := Real.mul_self_sqrt hq
    have hs0 := Real.sqrt_nonneg ((ray.o.sub s.c).dot (ray.o.sub s.c))
    have hlt : (ray.o.sub s.c).dot (ray.o.sub s.c) < s.r * s.r := by
      rw [← hsq]
      exact mul_self_lt_mul_self hs0 hin
    have hdisc : 0 ≤ (ray.o.sub s.c).dot ray.d * (ray.o.sub s.c).dot ray.d
        - ((ray.o.sub s.c).dot (ray.o.sub s.c) - s.r * s.r) := by
      nlinarith [mul_self_nonneg ((ray.o.sub s.c).dot ray.d)]
    have hroot := Real.mul_self_sqrt hdisc
    have hr0 := Real.sqrt_nonneg ((ray.o.sub s.c).dot ray.d * (ray.o.sub s.c).dot ray.d
        - ((ray.o.sub s.c).dot (ray.o.sub s.c) - s.r * s.r))
    have hpos : 0 < -(ray.o.sub s.c).dot ray.d + Real.sqrt ((ray.o.sub s.c).dot ray.d
        * (ray.o.sub s.c).dot ray.d - ((ray.o.sub s.c).dot (ray.o.sub s.c) - s.r * s.r)) := by
      by_contra hcon
      push_neg at hcon
      nlinarith
    refine ⟨hpos, ?_⟩
    have he := quad_expand (ray.o.x - s.c.x) (ray.o.y - s.c.y) (ray.o.z - s.c.z)
      ray.d.x ray.d.y ray.d.z (-(ray.o.sub s.c).dot ray.d + Real.sqrt ((ray.o.sub s.c).dot ray.d
        * (ray.o.sub s.c).dot ray.d - ((ray.o.sub s.c).dot (ray.o.sub s.c) - s.r * s.r))) hd
    simp only [V5.Vec.dot, V5.Vec.sub, V5.Vec.add, V5.Vec.scale] at he hroot ⊢
    linear_combination he + hroot

/-- C19, at the unit sphere around the origin and the ray from its centre toward `(0,0,1)`:
the origin is interior and no hit is reported. -/
theorem V5_sphere_inside_no_hit_witness :
    Real.sqrt (V5.Vec.dot (V5.Vec.sub (⟨0, 0, 0⟩ : V5.Vec ℝ) ⟨0, 0, 0⟩)
        (V5.Vec.sub ⟨0, 0, 0⟩ ⟨0, 0, 0⟩)) ≤ 1 ∧
    V5.Sphere.intersect Real.sqrt (⟨⟨0, 0, 0⟩, 1, ⟨⟨1, 1, 1⟩, 0⟩⟩ : V5.Sphere ℝ)
        ⟨⟨0, 0, 0⟩, ⟨0, 0, 1⟩⟩ = none := by
  have hin : Real.sqrt (V5.Vec.dot (V5.Vec.sub (⟨0, 0, 0⟩ : V5.Vec ℝ) ⟨0, 0, 0⟩)
        (V5.Vec.sub ⟨0, 0, 0⟩ ⟨0, 0, 0⟩)) ≤ 1 := by
    simp [V5.Vec.dot, V5.Vec.sub]
  exact ⟨hin, V5_sphere_inside_no_hit.1 ⟨⟨0, 0, 0⟩, 1, ⟨⟨1, 1, 1⟩, 0⟩⟩ ⟨⟨0, 0, 0⟩, ⟨0, 0, 1⟩⟩ hin⟩

/-! ### C17 -/

/-- The square root of four. -/
theorem sqrt_four : Real.sqrt 4 = 2 := by
  rw [show (4 : ℝ) = 2 ^ 2 by norm_num]
  exact Real.sqrt_sq (by norm_num)

/-- For a unit-length direction, `Sphere::intersect` of V3 (general quadratic) computes the
reduced form: discriminant `b*b - c2` with `b = oc.dot(direction)`, root `-b - sqrt(disc)`. -/
theorem V3_sphere_unit (s : V3.Sphere ℝ) (ray : V3.Ray ℝ)
    (hd : ray.direction.dot ray.direction = 1) :
    s.intersect Real.sqrt ray =
      if (ray.origin.sub s.center).dot ray.direction * (ray.origin.sub s.center).dot ray.direction
          - ((ray.origin.sub s.center).dot (ray.origin.sub s.center) - s.radius * s.radius) < 0
      then none
      else if -(ray.origin.sub s.center).dot ray.direction
          - Real.sqrt ((ray.origin.sub s.center).dot ray.direction
            * (ray.origin.sub s.center).dot ray.direction
            - ((ray.origin.sub s.center).dot (ray.origin.sub s.center)
              - s.radius * s.radius)) < V3.EPS
      then none
      else some ⟨-(ray.origin.sub s.center).dot ray.direction
          - Real.sqrt ((ray.origin.sub s.center).dot ray.direction
            * (ray.origin.sub s.center).dot ray.direction
            - ((ray.origin.sub s.center).dot (ray.origin.sub s.center)
              - s.radius * s.radius)),
        ray.origin.add (ray.direction.scale (-(ray.origin.sub s.center).dot ray.direction
          - Real.sqrt ((ray.origin.sub s.center).dot ray.direction
            * (ray.origin.sub s.center).dot ray.direction
            - ((ray.origin.sub s.center).dot (ray.origin.sub s.center)
              - s.radius * s.radius)))),
        ((ray.origin.add (ray.direction.scale (-(ray.origin.sub s.center).dot ray.direction
          - Real.sqrt ((ray.origin.sub s.center).dot ray.direction
            * (ray.origin.sub s.center).dot ray.direction
            - ((ray.origin.sub s.center).dot (ray.origin.sub s.center)
              - s.radius * s.radius))))).sub s.center).normalize Real.sqrt,
        s.material⟩ := by
  simp only [V3.Sphere.intersect, hd]
  generalize (ray.origin.sub s.center).dot ray.direction = X
  generalize (ray.origin.sub s.center).dot (ray.origin.sub s.center) - s.radius * s.radius = C
  have h4 : 2 * X * (2 * X) - 4 * 1 * C = 4 * (X * X - C) := by ring
  rw [h4]
  by_cases hdisc : X * X - C < 0
  · have h4neg : 4 * (X * X - C) < 0 := by linarith
    rw [if_pos h4neg, if_pos hdisc]
  · have h4neg : ¬ 4 * (X * X - C) < 0 := by linarith
    rw [if_neg h4neg, if_neg hdisc]
    have hs : Real.sqrt (4 * (X * X - C)) = 2 * Real.sqrt (X * X - C) := by
      rw [Real.sqrt_mul (by norm_num), sqrt_four]
    have ht : (-(2 * X) - Real.sqrt (4 * (X * X - C))) / (2 * 1)
        = -X - Real.sqrt (X * X - C) := by
      rw [hs]
      ring
    simp only [ht]

/-- C17 (V3 against V5): for every sphere and every ray whose direction is unit-length,
`Sphere::intersect` of V3 (general quadratic with `a = d.d`, `b = 2*oc.d`, discriminant
`b*b - 4*a*c`) and `Sphere::intersect` of V5 (reduced form with discriminant `b*b - c2`),
called on the same centre, radius, origin and direction, report a hit for exactly the same
inputs and, when they do, report the same `t`, the same position and the same normal. -/
theorem sphere_intersect_V3_eq_V5 (c o d : V5.Vec ℝ) (r : ℝ) (m5 : V5.Material ℝ)
    (m3 : V3.Material ℝ) (hd : d.dot d = 1) :
    ((V5.Sphere.intersect Real.sqrt ⟨c, r, m5⟩ ⟨o, d⟩).isSome
      = (V3.Sphere.intersect Real.sqrt ⟨⟨c.x, c.y, c.z⟩, r, m3⟩
          ⟨⟨o.x, o.y, o.z⟩, ⟨d.x, d.y, d.z⟩⟩).isSome) ∧
    ∀ (h5 : V5.Hit ℝ) (h3 : V3.Hit ℝ),
      V5.Sphere.intersect Real.sqrt ⟨c, r, m5⟩ ⟨o, d⟩ = some h5 →
      V3.Sphere.intersect Real.sqrt ⟨⟨c.x, c.y, c.z⟩, r, m3⟩
          ⟨⟨o.x, o.y, o.z⟩, ⟨d.x, d.y, d.z⟩⟩ = some h3 →
      h3.t = h5.t ∧
      h3.position = ⟨h5.p.x, h5.p.y, h5.p.z⟩ ∧
      h3.normal = ⟨h5.n.x, h5.n.y, h5.n.z⟩ := by
  have hd3 : V3.Vec3.dot (⟨d.x, d.y, d.z⟩ : V3.Vec3 ℝ) ⟨d.x, d.y, d.z⟩ = 1 := hd
  rw [V3_sphere_unit _ _ hd3]
  simp only [V5.Sphere.intersect, V5.Vec.dot, V5.Vec.sub, V5.Vec.add, V5.Vec.scale, V5.Vec.norm,
    V5.EPS, V3.EPS, V3.Vec3.dot, V3.Vec3.sub, V3.Vec3.add, V3.Vec3.scale, V3.Vec3.normalize,
    V3.Vec3.div]
  split_ifs with hdisc ht
  · simp
  · simp
  · refine ⟨rfl, ?_⟩
    intro h5 h3 e5 e3
    simp only [Option.some.injEq] at e5 e3
    subst e5
    subst e3
    exact ⟨rfl, rfl, rfl⟩

/-- C17, at the unit sphere around the origin and the ray from `(0,0,-4)` toward `(0,0,1)`:
both variants report a hit. -/
theorem sphere_intersect_V3_eq_V5_witness :
    V5.Vec.dot (⟨0, 0, 1⟩ : V5.Vec ℝ) ⟨0, 0, 1⟩ = 1 ∧
    (V5.Sphere.intersect Real.sqrt (⟨⟨0, 0, 0⟩, 1, ⟨⟨1, 1, 1⟩, 0⟩⟩ : V5.Sphere ℝ)
        ⟨⟨0, 0, -4⟩, ⟨0, 0, 1⟩⟩).isSome
      = (V3.Sphere.intersect Real.sqrt (⟨⟨0, 0, 0⟩, 1, ⟨⟨1, 1, 1⟩, 0⟩⟩ : V3.Sphere ℝ)
          ⟨⟨0, 0, -4⟩, ⟨0, 0, 1⟩⟩).isSome := by
  have hd : V5.Vec.dot (⟨0, 0, 1⟩ : V5.Vec ℝ) ⟨0, 0, 1⟩ = 1 := by simp [V5.Vec.dot]
  exact ⟨hd, (sphere_intersect_V3_eq_V5 ⟨0, 0, 0⟩ ⟨0, 0, -4⟩ ⟨0, 0, 1⟩ 1 ⟨⟨1, 1, 1⟩, 0⟩
    ⟨⟨1, 1, 1⟩, 0⟩ hd).1⟩

/-! ### C15 -/

/-- C15 (V5, V3, V6 with incoming `h.t = INF`): for every sphere and every ray with a
unit-length direction that is tangent to the sphere (discriminant `b*b - c2` exactly `0`) with
tangent parameter `t = -(o - c).dot(d) ≥ EPS`, `Sphere::intersect` reports a hit with that `t`.
The ray from `(1,0,-4)` toward `(0,0,1)` against the unit sphere around the origin reports a hit
with `t = 4` at position `(1,0,0)`. -/
theorem sphere_tangent_is_hit :
    (∀ (s : V5.Sphere ℝ) (ray : V5.Ray ℝ), ray.d.dot ray.d = 1 →
      (ray.o.sub s.c).dot ray.d * (ray.o.sub s.c).dot ray.d
        - ((ray.o.sub s.c).dot (ray.o.sub s.c) - s.r * s.r) = 0 →
      V5.EPS ≤ -(ray.o.sub s.c).dot ray.d →
      ∃ h, s.intersect Real.sqrt ray = some h ∧ h.t = -(ray.o.sub s.c).dot ray.d) ∧
    (∀ (s : V3.Sphere ℝ) (ray : V3.Ray ℝ), ray.direction.dot ray.direction = 1 →
      (ray.origin.sub s.center).dot ray.direction * (ray.origin.sub s.center).dot ray.direction
        - ((ray.origin.sub s.center).dot (ray.origin.sub s.center) - s.radius * s.radius) = 0 →
      V3.EPS ≤ -(ray.origin.sub s.center).dot ray.direction →
      ∃ h, s.intersect Real.sqrt ray = some h ∧
        h.t = -(ray.origin.sub s.center).dot ray.direction) ∧
    (∀ (s : V6.Sphere ℝ) (ray : V6.Ray ℝ) (h0 : V6.Hit ℝ), ray.d.dot ray.d = 1 →
      (ray.o.sub s.c).dot ray.d * (ray.o.sub s.c).dot ray.d
        - ((ray.o.sub s.c).dot (ray.o.sub s.c) - s.r * s.r) = 0 →
      (1 / 10000 : ℝ) ≤ -(ray.o.sub s.c).dot ray.d → h0.t = V6.INF →
      (s.intersect Real.sqrt ray h0).1 = true ∧
      (s.intersect Real.sqrt ray h0).2.t = ((-(ray.o.sub s.c).dot ray.d : ℝ) : WithTop ℝ)) ∧
    (∀ m : V5.Material ℝ,
      V5.Sphere.intersect Real.sqrt ⟨⟨0, 0, 0⟩, 1, m⟩ ⟨⟨1, 0, -4⟩, ⟨0, 0, 1⟩⟩
        = some ⟨4, ⟨1, 0, 0⟩, ⟨1, 0, 0⟩, m⟩) ∧
    (∀ m : V3.Material ℝ,
      V3.Sphere.intersect Real.sqrt ⟨⟨0, 0, 0⟩, 1, m⟩ ⟨⟨1, 0, -4⟩, ⟨0, 0, 1⟩⟩
        = some ⟨4, ⟨1, 0, 0⟩, ⟨1, 0, 0⟩, m⟩) ∧
    (∀ (col : V6.Vec ℝ) (refl : ℝ) (h0 : V6.Hit ℝ), h0.t = V6.INF →
      V6.Sphere.intersect Real.sqrt ⟨⟨0, 0, 0⟩, col, 1, refl⟩ ⟨⟨1, 0, -4⟩, ⟨0, 0, 1⟩⟩ h0
        = (true, ⟨((4 : ℝ) : WithTop ℝ), ⟨1, 0, 0⟩, ⟨1, 0, 0⟩, col, refl⟩)) := by
  refine ⟨?_, ?_, ?_, ?_, ?_, ?_⟩
  · intro s ray _ hdisc ht
    simp only [V5.Sphere.intersect, hdisc, Real.sqrt_zero, sub_zero, lt_irrefl, if_false,
      not_lt.mpr ht]
    exact ⟨_, rfl, rfl⟩
  · intro s ray hd hdisc ht
    rw [V3_sphere_unit s ray hd]
    simp only [hdisc, Real.sqrt_zero, sub_zero, lt_irrefl, if_false, not_lt.mpr ht]
    exact ⟨_, rfl, rfl⟩
  · intro s ray h0 _ hdisc ht h0t
    have hnot : ¬ (-(ray.o.sub s.c).dot ray.d < 1 / 10000 ∨
        ((-(ray.o.sub s.c).dot ray.d : ℝ) : WithTop ℝ) > h0.t) := by
      rw [h0t]
      simp only [V6.INF, gt_iff_lt, not_top_lt, or_false]
      exact not_lt.mpr ht
    simp only [V6.Sphere.intersect, hdisc, Real.sqrt_zero, sub_zero, lt_irrefl, if_false, hnot]
    exact ⟨trivial, trivial⟩
  · intro m
    simp [V5.Sphere.intersect, V5.Vec.dot, V5.Vec.sub, V5.Vec.add, V5.Vec.scale, V5.Vec.norm,
      V5.EPS]
    norm_num
  · intro m
    have hd : V3.Vec3.dot (⟨0, 0, 1⟩ : V3.Vec3 ℝ) ⟨0, 0, 1⟩ = 1 := by simp [V3.Vec3.dot]
    rw [V3_sphere_unit _ _ hd]
    simp [V3.Vec3.dot, V3.Vec3.sub, V3.Vec3.add, V3.Vec3.scale, V3.Vec3.normalize, V3.Vec3.div,
      V3.EPS]
    norm_num
  · intro col refl h0 h0t
    have h44 : (16 : ℝ) - (1 + 16 - 1) = 0 := by norm_num
    simp [V6.Sphere.intersect, V6.Vec.dot, V6.Vec.sub, V6.Vec.add, V6.Vec.scale, V6.Vec.norm,
      h0t, V6.INF, h44]
    norm_num

/-- C15, at the unit sphere around the origin and the ray from `(1,0,-4)` toward `(0,0,1)`: the
direction is unit-length, the discriminant is `0`, the tangent parameter `4` is not below `EPS`,
and a hit with `t = 4` is reported. -/
theorem sphere_tangent_is_hit_witness :
    V5.Vec.dot (⟨0, 0, 1⟩ : V5.Vec ℝ) ⟨0, 0, 1⟩ = 1 ∧
    V5.Vec.dot (V5.Vec.sub (⟨1, 0, -4⟩ : V5.Vec ℝ) ⟨0, 0, 0⟩) ⟨0, 0, 1⟩
        * V5.Vec.dot (V5.Vec.sub (⟨1, 0, -4⟩ : V5.Vec ℝ) ⟨0, 0, 0⟩) ⟨0, 0, 1⟩
      - (V5.Vec.dot (V5.Vec.sub (⟨1, 0, -4⟩ : V5.Vec ℝ) ⟨0, 0, 0⟩)
          (V5.Vec.sub ⟨1, 0, -4⟩ ⟨0, 0, 0⟩) - 1 * 1) = 0 ∧
    (V5.EPS : ℝ) ≤ -V5.Vec.dot (V5.Vec.sub (⟨1, 0, -4⟩ : V5.Vec ℝ) ⟨0, 0, 0⟩) ⟨0, 0, 1⟩ ∧
    ∃ h, V5.Sphere.intersect Real.sqrt (⟨⟨0, 0, 0⟩, 1, ⟨⟨1, 1, 1⟩, 0⟩⟩ : V5.Sphere ℝ)
        ⟨⟨1, 0, -4⟩, ⟨0, 0, 1⟩⟩ = some h ∧
      h.t = -V5.Vec.dot (V5.Vec.sub (⟨1, 0, -4⟩ : V5.Vec ℝ) ⟨0, 0, 0⟩) ⟨0, 0, 1⟩ := by
  have hd : V5.Vec.dot (⟨0, 0, 1⟩ : V5.Vec ℝ) ⟨0, 0, 1⟩ = 1 := by simp [V5.Vec.dot]
  have hdisc : V5.Vec.dot (V5.Vec.sub (⟨1, 0, -4⟩ : V5.Vec ℝ) ⟨0, 0, 0⟩) ⟨0, 0, 1⟩
        * V5.Vec.dot (V5.Vec.sub (⟨1, 0, -4⟩ : V5.Vec ℝ) ⟨0, 0, 0⟩) ⟨0, 0, 1⟩
      - (V5.Vec.dot (V5.Vec.sub (⟨1, 0, -4⟩ : V5.Vec ℝ) ⟨0, 0, 0⟩)
          (V5.Vec.sub ⟨1, 0, -4⟩ ⟨0, 0, 0⟩) - 1 * 1) = 0 := by
    simp only [V5.Vec.dot, V5.Vec.sub]
    norm_num
  have ht : (V5.EPS : ℝ)
      ≤ -V5.Vec.dot (V5.Vec.sub (⟨1, 0, -4⟩ : V5.Vec ℝ) ⟨0, 0, 0⟩) ⟨0, 0, 1⟩ := by
    simp only [V5.Vec.dot, V5.Vec.sub, V5.EPS]
    norm_num
  exact ⟨hd, hdisc, ht,
    sphere_tangent_is_hit.1 ⟨⟨0, 0, 0⟩, 1, ⟨⟨1, 1, 1⟩, 0⟩⟩ ⟨⟨1, 0, -4⟩, ⟨0, 0, 1⟩⟩ hd hdisc ht⟩

/-! ### C16 -/

/-- A dot product of a vector of V3 with itself is not negative. -/
theorem V3_dot_self_nonneg (v : V3.Vec3 ℝ) : 0 ≤ v.dot v := by
  simp only [V3.Vec3.dot]
  nlinarith [mul_self_nonneg v.x, mul_self_nonneg v.y, mul_self_nonneg v.z]

/-- `Sphere::intersect` of V3 reports no hit for a ray whose origin is outside or on the sphere
and whose direction points away from the centre (`oc.dot(direction) ≥ 0`). -/
theorem V3_sphere_away_no_hit (s : V3.Sphere ℝ) (ray : V3.Ray ℝ)
    (hb : 0 ≤ (ray.origin.sub s.center).dot ray.direction) :
    s.intersect Real.sqrt ray = none := by
  simp only [V3.Sphere.intersect]
  split_ifs with hdisc ht
  · rfl
  · rfl
  · exfalso
    apply ht
    have ha := V3_dot_self_nonneg ray.direction
    have hs := Real.sqrt_nonneg (2 * (ray.origin.sub s.center).dot ray.direction
      * (2 * (ray.origin.sub s.center).dot ray.direction)
      - 4 * ray.direction.dot ray.direction
        * ((ray.origin.sub s.center).dot (ray.origin.sub s.center) - s.radius * s.radius))
    have hnum : -(2 * (ray.origin.sub s.center).dot ray.direction)
        - Real.sqrt (2 * (ray.origin.sub s.center).dot ray.direction
          * (2 * (ray.origin.sub s.center).dot ray.direction)
          - 4 * ray.direction.dot ray.direction
            * ((ray.origin.sub s.center).dot (ray.origin.sub s.center)
              - s.radius * s.radius)) ≤ 0 := by
      linarith
    have hden : 0 ≤ 2 * ray.direction.dot ray.direction := by linarith
    have hle := div_nonpos_of_nonpos_of_nonneg hnum hden
    have heps : (0 : ℝ) < V3.EPS := by norm_num [V3.EPS]
    linarith

/-- C16 (V3): for a sphere of radius `> 0` or a plane with a unit normal, every point `p` on
its surface with the hit normal `n` at `p` (`normalize(p - center)` for the sphere, the stored
normal for the plane) and every direction `d` with `d.dot(n) > 0` (so `d` is not zero), the ray
with origin `p + n*EPS` and direction `d`, the origin `trace` gives to shadow and reflection
rays, gets no hit from that primitive's `intersect`. -/
theorem V3_no_self_intersection :
    (∀ (s : V3.Sphere ℝ) (p d : V3.Vec3 ℝ), 0 < s.radius →
      (p.sub s.center).dot (p.sub s.center) = s.radius * s.radius →
      d.dot ((p.sub s.center).normalize Real.sqrt) > 0 →
      s.intersect Real.sqrt
        ⟨p.add (((p.sub s.center).normalize Real.sqrt).scale V3.EPS), d⟩ = none) ∧
    (∀ (pl : V3.Plane ℝ) (p d : V3.Vec3 ℝ), pl.normal.dot pl.normal = 1 →
      (p.sub pl.point).dot pl.normal = 0 → d.dot pl.normal > 0 →
      pl.intersect ⟨p.add (pl.normal.scale V3.EPS), d⟩ = none) := by
  constructor
  · intro s p d hr hsurf hdn
    apply V3_sphere_away_no_hit
    have hsqrt : Real.sqrt ((p.sub s.center).dot (p.sub s.center)) = s.radius := by
      rw [hsurf]
      exact Real.sqrt_mul_self (le_of_lt hr)
    have hne : s.radius ≠ 0 := ne_of_gt hr
    have heps : (0 : ℝ) < V3.EPS := by norm_num [V3.EPS]
    simp only [V3.Vec3.normalize, hsqrt] at hdn ⊢
    have key : ((p.add (((p.sub s.center).div s.radius).scale V3.EPS)).sub s.center).dot d
        = (s.radius + V3.EPS) * d.dot ((p.sub s.center).div s.radius) := by
      simp only [V3.Vec3.dot, V3.Vec3.sub, V3.Vec3.add, V3.Vec3.scale, V3.Vec3.div]
      field_simp
      ring
    rw [key]
    exact le_of_lt (mul_pos (by linarith) hdn)
  · intro pl p d hn hon hdn
    have heps : (0 : ℝ) < V3.EPS := by norm_num [V3.EPS]
    have hden : 0 < pl.normal.dot d := by
      have hcomm : pl.normal.dot d = d.dot pl.normal := by
        simp only [V3.Vec3.dot]
        ring
      rw [hcomm]
      exact hdn
    have hnum : (pl.point.sub (p.add (pl.normal.scale V3.EPS))).dot pl.normal = -V3.EPS := by
      simp only [V3.Vec3.dot, V3.Vec3.sub, V3.Vec3.add, V3.Vec3.scale] at hn hon ⊢
      linear_combination -hon - V3.EPS * hn
    simp only [V3.Plane.intersect, hnum]
    split_ifs with hpar ht
    · rfl
    · rfl
    · exfalso
      apply ht
      have : -V3.EPS / pl.normal.dot d < 0 := div_neg_of_neg_of_pos (by linarith) hden
      linarith

/-- C16, at the floor plane `y = 0` of V3, the point `(0,0,0)` on it and the direction
`(0,1,0)`: the ray from `(0,EPS,0)` straight up gets no hit from the plane. -/
theorem V3_no_self_intersection_witness :
    V3.Vec3.dot (⟨0, 1, 0⟩ : V3.Vec3 ℝ) ⟨0, 1, 0⟩ = 1 ∧
    V3.Vec3.dot (V3.Vec3.sub (⟨0, 0, 0⟩ : V3.Vec3 ℝ) ⟨0, 0, 0⟩) ⟨0, 1, 0⟩ = 0 ∧
    V3.Vec3.dot (⟨0, 1, 0⟩ : V3.Vec3 ℝ) ⟨0, 1, 0⟩ > 0 ∧
    V3.Plane.intersect (⟨⟨0, 0, 0⟩, ⟨0, 1, 0⟩, ⟨⟨1, 1, 1⟩, 0⟩⟩ : V3.Plane ℝ)
      ⟨V3.Vec3.add ⟨0, 0, 0⟩ (V3.Vec3.scale ⟨0, 1, 0⟩ V3.EPS), ⟨0, 1, 0⟩⟩ = none := by
  have hn : V3.Vec3.dot (⟨0, 1, 0⟩ : V3.Vec3 ℝ) ⟨0, 1, 0⟩ = 1 := by simp [V3.Vec3.dot]
  have hon : V3.Vec3.dot (V3.Vec3.sub (⟨0, 0, 0⟩ : V3.Vec3 ℝ) ⟨0, 0, 0⟩) ⟨0, 1, 0⟩ = 0 := by
    simp [V3.Vec3.dot, V3.Vec3.sub]
  have hdn : V3.Vec3.dot (⟨0, 1, 0⟩ : V3.Vec3 ℝ) ⟨0, 1, 0⟩ > 0 := by
    rw [hn]
    norm_num
  exact ⟨hn, hon, hdn,
    V3_no_self_intersection.2 ⟨⟨0, 0, 0⟩, ⟨0, 1, 0⟩, ⟨⟨1, 1, 1⟩, 0⟩⟩ ⟨0, 0, 0⟩ ⟨0, 1, 0⟩ hn hon hdn⟩

/-! ### C12 -/

/-- The conversion `int(x)` is defined on `(-1, 2^31)` and is `0` on `(-1, 0)`, the floor from
`0` on. -/
theorem toInt_of_gt_neg_one (x : ℝ) (hlo : -1 < x) (hhi : x < 2 ^ 31) :
    Cxx.toInt x = some (if 0 ≤ x then Int.floor x else 0) := by
  have hrange : -(2 ^ 31 : ℝ) - 1 < x ∧ x < (2 ^ 31 : ℝ) := ⟨by linarith [show (0 : ℝ) < 2 ^ 31 by norm_num], hhi⟩
  simp only [Cxx.toInt, hrange, and_self, if_true, Cxx.trunc]
  by_cases h0 : 0 ≤ x
  · simp only [h0, if_true]
  · simp only [h0, if_false]
    congr 1
    rw [Int.ceil_eq_iff]
    push_neg at h0
    constructor
    · simpa using hlo
    · simpa using le_of_lt h0

/-- The method `Vec::norm` of V5 gives a unit-length vector when the vector is not zero. -/
theorem V5_norm_unit (v : V5.Vec ℝ) (hv : v.dot v ≠ 0) :
    (v.norm Real.sqrt).dot (v.norm Real.sqrt) = 1 := by
  have hq := V5_dot_self_nonneg v
  have hsq := Real.mul_self_sqrt hq
  simp only [V5.Vec.dot] at hv hsq hq
  have hl : Real.sqrt (v.x * v.x + v.y * v.y + v.z * v.z) ≠ 0 := by
    intro h0
    rw [h0] at hsq
    apply hv
    linarith
  simp only [V5.Vec.norm, V5.Vec.dot]
  field_simp

/-- The method `Vec::norm` of V5 never gives a vector longer than `1` (a zero vector is divided
by zero, which the reals of Mathlib make the zero vector). -/
theorem V5_norm_le_one (v : V5.Vec ℝ) : (v.norm Real.sqrt).dot (v.norm Real.sqrt) ≤ 1 := by
  by_cases hv : v.dot v = 0
  · have hl : Real.sqrt (v.x * v.x + v.y * v.y + v.z * v.z) = 0 := by
      simp only [V5.Vec.dot] at hv
      rw [hv]
      exact Real.sqrt_zero
    simp only [V5.Vec.norm, V5.Vec.dot, hl, div_zero, mul_zero, add_zero]
    norm_num
  · exact le_of_eq (V5_norm_unit v hv)

/-- The dot product of two vectors of V5 of length at most `1` is at most `1`. -/
theorem V5_dot_le_one (a b : V5.Vec ℝ) (ha : a.dot a ≤ 1) (hb : b.dot b ≤ 1) : a.dot b ≤ 1 := by
  simp only [V5.Vec.dot] at ha hb ⊢
  nlinarith [mul_self_nonneg (a.x - b.x), mul_self_nonneg (a.y - b.y),
    mul_self_nonneg (a.z - b.z)]

/-- The record kept by the nearest-hit scan of V5 is the record reported by an object of the
list. -/
theorem V5_nearest_mem (ray : V5.Ray ℝ) (objs : List (V5.Object ℝ)) (hit : V5.Hit ℝ)
    (hn : V5.nearest Real.sqrt ray objs = some hit) :
    ∃ o ∈ objs, o.intersect Real.sqrt ray = some hit := by
  rcases V5_nearest_scan ray objs none with ⟨hres, _⟩ | ⟨pre, o, post, h, hl, hf, hres, _, _, _⟩
  · rw [V5.nearest] at hn
    rw [hres] at hn
    cases hn
  · rw [V5.nearest] at hn
    rw [hres] at hn
    simp only [Option.some.injEq] at hn
    subst hn
    exact ⟨o, by rw [hl]; simp, hf⟩

/-- The diffuse factor of V5 lies in `[0,1]` when the hit normal is not longer than `1`. -/
theorem V5_diff_unit (objs : List (V5.Object ℝ)) (light : V5.Vec ℝ) (hit : V5.Hit ℝ)
    (hnorm : hit.n.dot hit.n ≤ 1) :
    0 ≤ V5.diff Real.sqrt objs light hit ∧ V5.diff Real.sqrt objs light hit ≤ 1 := by
  simp only [V5.diff]
  split_ifs
  · exact ⟨le_refl _, by norm_num⟩
  · refine ⟨le_max_left _ _, max_le (by norm_num) ?_⟩
    exact V5_dot_le_one _ _ hnorm (V5_norm_le_one _)

/-- The pixel conversion of V5 of a channel in `[0,1]` is defined and lies in `0..255`, for
every monotone rounding of the product that is exact at `0` and at `255`. -/
theorem V5_channel_unit (rnd : ℝ → ℝ) (hmono : Monotone rnd) (hr0 : rnd 0 = 0)
    (hr255 : rnd 255 = 255) (c : ℝ) (h0 : 0 ≤ c) (h1 : c ≤ 1) :
    ∃ k, V5.channel rnd c = some k ∧ 0 ≤ k ∧ k ≤ 255 := by
  have hnn : (0 : ℝ) ≤ rnd (c * 255) := by
    rw [← hr0]
    exact hmono (by positivity)
  have hle : rnd (c * 255) ≤ 255 := by
    have hm := hmono (show c * 255 ≤ 255 by linarith)
    rw [hr255] at hm
    exact hm
  have hhi : rnd (c * 255) < 2 ^ 31 := by
    have : (255 : ℝ) < 2 ^ 31 := by norm_num
    linarith
  refine ⟨min 255 (Int.floor (rnd (c * 255))), ?_, ?_, min_le_left _ _⟩
  · rw [V5.channel, toInt_of_gt_neg_one _ (by linarith) hhi]
    simp only [hnn, if_true, Option.map_some']
  · exact le_min (by norm_num) (Int.floor_nonneg.mpr hnn)

/-! ### C18 -/

/-- A blend `a*(1 - rho) + t*rho` of two values of `[0,1]` with a weight of `[0,1]` lies in
`[0,1]`. -/
theorem blend_unit (a t rho : ℝ) (ha : 0 ≤ a ∧ a ≤ 1) (ht : 0 ≤ t ∧ t ≤ 1)
    (hrho : 0 ≤ rho ∧ rho ≤ 1) :
    0 ≤ a * (1 - rho) + t * rho ∧ a * (1 - rho) + t * rho ≤ 1 := by
  have h1 : 0 ≤ 1 - rho := by linarith
  constructor
  · nlinarith [mul_nonneg ha.1 h1, mul_nonneg ht.1 hrho.1]
  · nlinarith [mul_le_mul_of_nonneg_right ha.2 h1, mul_le_mul_of_nonneg_right ht.2 hrho.1]

/-- The nearest hit of V5 in a scene whose materials have colour channels and reflectivity in
`[0,1]` and whose planes have unit normals: its normal is not longer than `1` and its material
has colour channels and reflectivity in `[0,1]`. -/
theorem V5_hit_in_scene (objs : List (V5.Object ℝ))
    (hs : ∀ s : V5.Sphere ℝ, V5.Object.sphere s ∈ objs →
      0 < s.r ∧ (0 ≤ s.m.color.x ∧ s.m.color.x ≤ 1) ∧ (0 ≤ s.m.color.y ∧ s.m.color.y ≤ 1) ∧
        (0 ≤ s.m.color.z ∧ s.m.color.z ≤ 1) ∧ (0 ≤ s.m.reflect ∧ s.m.reflect ≤ 1))
    (hp : ∀ pl : V5.Plane ℝ, V5.Object.plane pl ∈ objs →
      pl.n.dot pl.n = 1 ∧ (0 ≤ pl.m.color.x ∧ pl.m.color.x ≤ 1) ∧
        (0 ≤ pl.m.color.y ∧ pl.m.color.y ≤ 1) ∧ (0 ≤ pl.m.color.z ∧ pl.m.color.z ≤ 1) ∧
        (0 ≤ pl.m.reflect ∧ pl.m.reflect ≤ 1))
    (ray : V5.Ray ℝ) (hit : V5.Hit ℝ) (hn : V5.nearest Real.sqrt ray objs = some hit) :
    hit.n.dot hit.n ≤ 1 ∧ (0 ≤ hit.m.color.x ∧ hit.m.color.x ≤ 1) ∧
      (0 ≤ hit.m.color.y ∧ hit.m.color.y ≤ 1) ∧ (0 ≤ hit.m.color.z ∧ hit.m.color.z ≤ 1) ∧
      (0 ≤ hit.m.reflect ∧ hit.m.reflect ≤ 1) := by
  obtain ⟨o, ho, hint⟩ := V5_nearest_mem ray objs hit hn
  cases o with
  | sphere s =>
    obtain ⟨_, _, _, _, hnrm, hm⟩ := V5_sphere_hit hint
    rw [hm, hnrm]
    exact ⟨V5_norm_le_one _, (hs s ho).2⟩
  | plane pl =>
    obtain ⟨_, _, _, _, hnrm, hm⟩ := V5_plane_hit hint
    rw [hm, hnrm]
    exact ⟨le_of_eq (hp pl ho).1, (hp pl ho).2⟩

/-- C18 (V5): if every material colour channel lies in `[0,1]`, every reflectivity lies in
`[0,1]`, every plane normal is unit-length and every sphere radius is positive, then for every
ray, every light position and every integer depth, each channel of the colour returned by
`trace` lies in `[0,1]`, so no channel is negative and the pixel conversion yields values in
`0..255` (whatever the rounding of the product `c*255`, as long as it is monotone and exact at
`0` and at `255`, as the rounding `Cxx.fl` to binary64 is). -/
theorem V5_trace_channels_unit (objs : List (V5.Object ℝ)) (light : V5.Vec ℝ)
    (hs : ∀ s : V5.Sphere ℝ, V5.Object.sphere s ∈ objs →
      0 < s.r ∧ (0 ≤ s.m.color.x ∧ s.m.color.x ≤ 1) ∧ (0 ≤ s.m.color.y ∧ s.m.color.y ≤ 1) ∧
        (0 ≤ s.m.color.z ∧ s.m.color.z ≤ 1) ∧ (0 ≤ s.m.reflect ∧ s.m.reflect ≤ 1))
    (hp : ∀ pl : V5.Plane ℝ, V5.Object.plane pl ∈ objs →
      pl.n.dot pl.n = 1 ∧ (0 ≤ pl.m.color.x ∧ pl.m.color.x ≤ 1) ∧
        (0 ≤ pl.m.color.y ∧ pl.m.color.y ≤ 1) ∧ (0 ≤ pl.m.color.z ∧ pl.m.color.z ≤ 1) ∧
        (0 ≤ pl.m.reflect ∧ pl.m.reflect ≤ 1))
    (ray : V5.Ray ℝ) (depth : Int) :
    ((0 ≤ (V5.trace Real.sqrt ray objs light depth).x ∧
        (V5.trace Real.sqrt ray objs light depth).x ≤ 1) ∧
      (0 ≤ (V5.trace Real.sqrt ray objs light depth).y ∧
        (V5.trace Real.sqrt ray objs light depth).y ≤ 1) ∧
      (0 ≤ (V5.trace Real.sqrt ray objs light depth).z ∧
        (V5.trace Real.sqrt ray objs light depth).z ≤ 1)) ∧
    (∀ rnd : ℝ → ℝ, Monotone rnd → rnd 0 = 0 → rnd 255 = 255 →
      (∃ k, V5.channel rnd (V5.trace Real.sqrt ray objs light depth).x = some k
        ∧ 0 ≤ k ∧ k ≤ 255) ∧
      (∃ k, V5.channel rnd (V5.trace Real.sqrt ray objs light depth).y = some k
        ∧ 0 ≤ k ∧ k ≤ 255) ∧
      (∃ k, V5.channel rnd (V5.trace Real.sqrt ray objs light depth).z = some k
        ∧ 0 ≤ k ∧ k ≤ 255)) := by
  have key : ∀ (n : Nat) (depth : Int) (ray : V5.Ray ℝ),
      (V5.MAX_DEPTH + 1 - depth).toNat ≤ n →
      (0 ≤ (V5.trace Real.sqrt ray objs light depth).x ∧
        (V5.trace Real.sqrt ray objs light depth).x ≤ 1) ∧
      (0 ≤ (V5.trace Real.sqrt ray objs light depth).y ∧
        (V5.trace Real.sqrt ray objs light depth).y ≤ 1) ∧
      (0 ≤ (V5.trace Real.sqrt ray objs light depth).z ∧
        (V5.trace Real.sqrt ray objs light depth).z ≤ 1) := by
    have hzero : ((0 : ℝ) ≤ 0 ∧ (0 : ℝ) ≤ 1) ∧ ((0 : ℝ) ≤ 0 ∧ (0 : ℝ) ≤ 1)
        ∧ ((0 : ℝ) ≤ 0 ∧ (0 : ℝ) ≤ 1) := by norm_num
    intro n
    induction n with
    | zero =>
      intro depth ray hn
      have hd : depth > V5.MAX_DEPTH := by
        simp only [V5.MAX_DEPTH] at hn ⊢
        omega
      rw [V5.trace, if_pos hd]
      exact hzero
    | succ n ih =>
      intro depth ray hn
      rw [V5.trace]
      by_cases hd : depth > V5.MAX_DEPTH
      · rw [if_pos hd]
        exact hzero
      · rw [if_neg hd]
        cases hnear : V5.nearest Real.sqrt ray objs with
        | none => exact hzero
        | some hit =>
          obtain ⟨hnorm, hx, hy, hz, hrho⟩ := V5_hit_in_scene objs hs hp ray hit hnear
          obtain ⟨hd0, hd1⟩ := V5_diff_unit objs light hit hnorm
          have hcx : 0 ≤ hit.m.color.x * V5.diff Real.sqrt objs light hit ∧
              hit.m.color.x * V5.diff Real.sqrt objs light hit ≤ 1 :=
            ⟨mul_nonneg hx.1 hd0, mul_le_one₀ hx.2 hd0 hd1⟩
          have hcy : 0 ≤ hit.m.color.y * V5.diff Real.sqrt objs light hit ∧
              hit.m.color.y * V5.diff Real.sqrt objs light hit ≤ 1 :=
            ⟨mul_nonneg hy.1 hd0, mul_le_one₀ hy.2 hd0 hd1⟩
          have hcz : 0 ≤ hit.m.color.z * V5.diff Real.sqrt objs light hit ∧
              hit.m.color.z * V5.diff Real.sqrt objs light hit ≤ 1 :=
            ⟨mul_nonneg hz.1 hd0, mul_le_one₀ hz.2 hd0 hd1⟩
          simp only
          by_cases hr : hit.m.reflect > 0
          · rw [if_pos hr]
            obtain ⟨htx, hty, htz⟩ := ih (depth + 1) (V5.reflRay Real.sqrt ray hit) (by
              simp only [V5.MAX_DEPTH] at hn hd ⊢
              omega)
            simp only [V5.Vec.add, V5.Vec.scale]
            exact ⟨blend_unit _ _ _ hcx htx hrho, blend_unit _ _ _ hcy hty hrho,
              blend_unit _ _ _ hcz htz hrho⟩
          · rw [if_neg hr]
            simp only [V5.Vec.scale]
            exact ⟨hcx, hcy, hcz⟩
  obtain ⟨hx, hy, hz⟩ := key _ depth ray (le_refl _)
  exact ⟨⟨hx, hy, hz⟩, fun rnd hmono hr0 hr255 =>
    ⟨V5_channel_unit rnd hmono hr0 hr255 _ hx.1 hx.2,
      V5_channel_unit rnd hmono hr0 hr255 _ hy.1 hy.2,
      V5_channel_unit rnd hmono hr0 hr255 _ hz.1 hz.2⟩⟩

/-- The spheres of the scene "floor plane `y = 0` under the sphere of radius `1` around
`(0,2,0)`", both white with reflectivity `0`, have a positive radius and a material in
range. -/
theorem V5_box_spheres (s : V5.Sphere ℝ)
    (hmem : V5.Object.sphere s ∈
      [V5.Object.plane (⟨⟨0, 1, 0⟩, 0, ⟨⟨1, 1, 1⟩, 0⟩⟩ : V5.Plane ℝ),
        V5.Object.sphere ⟨⟨0, 2, 0⟩, 1, ⟨⟨1, 1, 1⟩, 0⟩⟩]) :
    0 < s.r ∧ (0 ≤ s.m.color.x ∧ s.m.color.x ≤ 1) ∧ (0 ≤ s.m.color.y ∧ s.m.color.y ≤ 1) ∧
      (0 ≤ s.m.color.z ∧ s.m.color.z ≤ 1) ∧ (0 ≤ s.m.reflect ∧ s.m.reflect ≤ 1) := by
  simp only [List.mem_cons, List.mem_singleton, V5.Object.sphere.injEq, false_or,
    List.not_mem_nil, or_false] at hmem
  rcases hmem with hmem | hmem
  · cases hmem
  · subst hmem
    norm_num

/-- The planes of the same scene have a unit normal and a material in range. -/
theorem V5_box_planes (pl : V5.Plane ℝ)
    (hmem : V5.Object.plane pl ∈
      [V5.Object.plane (⟨⟨0, 1, 0⟩, 0, ⟨⟨1, 1, 1⟩, 0⟩⟩ : V5.Plane ℝ),
        V5.Object.sphere ⟨⟨0, 2, 0⟩, 1, ⟨⟨1, 1, 1⟩, 0⟩⟩]) :
    pl.n.dot pl.n = 1 ∧ (0 ≤ pl.m.color.x ∧ pl.m.color.x ≤ 1) ∧
      (0 ≤ pl.m.color.y ∧ pl.m.color.y ≤ 1) ∧ (0 ≤ pl.m.color.z ∧ pl.m.color.z ≤ 1) ∧
      (0 ≤ pl.m.reflect ∧ pl.m.reflect ≤ 1) := by
  simp only [List.mem_cons, List.mem_singleton, V5.Object.plane.injEq, or_false,
    List.not_mem_nil] at hmem
  rcases hmem with hmem | hmem
  · subst hmem
    norm_num [V5.Vec.dot]
  · cases hmem

/-- C18, at the floor plane `y = 0` under the sphere of radius `1` around `(0,2,0)` (both white,
reflectivity `0`), the light at `(0,4,0)` and the ray from `(0,1/2,0)` straight down at depth
`0`: the scene meets the hypotheses and every channel of the traced colour lies in `[0,1]`. -/
theorem V5_trace_channels_unit_witness :
    ((0 ≤ (V5.trace Real.sqrt ⟨⟨0, 1 / 2, 0⟩, ⟨0, -1, 0⟩⟩
        [V5.Object.plane (⟨⟨0, 1, 0⟩, 0, ⟨⟨1, 1, 1⟩, 0⟩⟩ : V5.Plane ℝ),
          V5.Object.sphere ⟨⟨0, 2, 0⟩, 1, ⟨⟨1, 1, 1⟩, 0⟩⟩] ⟨0, 4, 0⟩ 0).x ∧
      (V5.trace Real.sqrt ⟨⟨0, 1 / 2, 0⟩, ⟨0, -1, 0⟩⟩
        [V5.Object.plane (⟨⟨0, 1, 0⟩, 0, ⟨⟨1, 1, 1⟩, 0⟩⟩ : V5.Plane ℝ),
          V5.Object.sphere ⟨⟨0, 2, 0⟩, 1, ⟨⟨1, 1, 1⟩, 0⟩⟩] ⟨0, 4, 0⟩ 0).x ≤ 1) ∧
      (0 ≤ (V5.trace Real.sqrt ⟨⟨0, 1 / 2, 0⟩, ⟨0, -1, 0⟩⟩
        [V5.Object.plane (⟨⟨0, 1, 0⟩, 0, ⟨⟨1, 1, 1⟩, 0⟩⟩ : V5.Plane ℝ),
          V5.Object.sphere ⟨⟨0, 2, 0⟩, 1, ⟨⟨1, 1, 1⟩, 0⟩⟩] ⟨0, 4, 0⟩ 0).y ∧
      (V5.trace Real.sqrt ⟨⟨0, 1 / 2, 0⟩, ⟨0, -1, 0⟩⟩
        [V5.Object.plane (⟨⟨0, 1, 0⟩, 0, ⟨⟨1, 1, 1⟩, 0⟩⟩ : V5.Plane ℝ),
          V5.Object.sphere ⟨⟨0, 2, 0⟩, 1, ⟨⟨1, 1, 1⟩, 0⟩⟩] ⟨0, 4, 0⟩ 0).y ≤ 1) ∧
      (0 ≤ (V5.trace Real.sqrt ⟨⟨0, 1 / 2, 0⟩, ⟨0, -1, 0⟩⟩
        [V5.Object.plane (⟨⟨0, 1, 0⟩, 0, ⟨⟨1, 1, 1⟩, 0⟩⟩ : V5.Plane ℝ),
          V5.Object.sphere ⟨⟨0, 2, 0⟩, 1, ⟨⟨1, 1, 1⟩, 0⟩⟩] ⟨0, 4, 0⟩ 0).z ∧
      (V5.trace Real.sqrt ⟨⟨0, 1 / 2, 0⟩, ⟨0, -1, 0⟩⟩
        [V5.Object.plane (⟨⟨0, 1, 0⟩, 0, ⟨⟨1, 1, 1⟩, 0⟩⟩ : V5.Plane ℝ),
          V5.Object.sphere ⟨⟨0, 2, 0⟩, 1, ⟨⟨1, 1, 1⟩, 0⟩⟩] ⟨0, 4, 0⟩ 0).z ≤ 1)) :=
  (V5_trace_channels_unit _ ⟨0, 4, 0⟩ V5_box_spheres V5_box_planes
    ⟨⟨0, 1 / 2, 0⟩, ⟨0, -1, 0⟩⟩ 0).1

/-! ### C11 -/

/-- The log of `traceLog` of V5 past the depth limit is empty. -/
theorem V5_traceLog_snd_over (ray : V5.Ray ℝ) (objs : List (V5.Object ℝ)) (light : V5.Vec ℝ)
    (depth : Int) (hd : depth > V5.MAX_DEPTH) :
    (V5.traceLog Real.sqrt ray objs light depth).2 = [] := by
  rw [V5.traceLog, if_pos hd]

/-- The log of `traceLog` of V5 when the ray hits nothing: one level without a hit. -/
theorem V5_traceLog_snd_none (ray : V5.Ray ℝ) (objs : List (V5.Object ℝ)) (light : V5.Vec ℝ)
    (depth : Int) (hd : ¬ depth > V5.MAX_DEPTH) (hn : V5.nearest Real.sqrt ray objs = none) :
    (V5.traceLog Real.sqrt ray objs light depth).2
      = [⟨depth, objs.map (fun _ => ray), none⟩] := by
  rw [V5.traceLog, if_neg hd, hn]

/-- The log of `traceLog` of V5 when the nearest hit does not reflect: one level. -/
theorem V5_traceLog_snd_matte (ray : V5.Ray ℝ) (objs : List (V5.Object ℝ)) (light : V5.Vec ℝ)
    (depth : Int) (hit : V5.Hit ℝ) (hd : ¬ depth > V5.MAX_DEPTH)
    (hn : V5.nearest Real.sqrt ray objs = some hit) (hr : ¬ hit.m.reflect > 0) :
    (V5.traceLog Real.sqrt ray objs light depth).2
      = [⟨depth, objs.map (fun _ => ray)
          ++ V5.shadowCalls Real.sqrt (V5.shadowRay Real.sqrt light hit) objs, some hit⟩] := by
  rw [V5.traceLog, if_neg hd, hn]
  simp only [if_neg hr]

/-- The log of `traceLog` of V5 when the nearest hit reflects: one level, then the log of the
call on the reflection ray. -/
theorem V5_traceLog_snd_mirror (ray : V5.Ray ℝ) (objs : List (V5.Object ℝ)) (light : V5.Vec ℝ)
    (depth : Int) (hit : V5.Hit ℝ) (hd : ¬ depth > V5.MAX_DEPTH)
    (hn : V5.nearest Real.sqrt ray objs = some hit) (hr : hit.m.reflect > 0) :
    (V5.traceLog Real.sqrt ray objs light depth).2
      = ⟨depth, objs.map (fun _ => ray)
          ++ V5.shadowCalls Real.sqrt (V5.shadowRay Real.sqrt light hit) objs, some hit⟩
        :: (V5.traceLog Real.sqrt (V5.reflRay Real.sqrt ray hit) objs light (depth + 1)).2 := by
  rw [V5.traceLog, if_neg hd, hn]
  simp only [if_pos hr]

/-- Every ray the shadow loop of V5 passes to `intersect` is the shadow ray. -/
theorem V5_shadowCalls_eq (shadow : V5.Ray ℝ) (objs : List (V5.Object ℝ)) :
    ∀ r ∈ V5.shadowCalls Real.sqrt shadow objs, r = shadow := by
  induction objs with
  | nil =>
    intro r hr
    simp [V5.shadowCalls] at hr
  | cons o rest ih =>
    intro r hr
    simp only [V5.shadowCalls] at hr
    split_ifs at hr
    · exact ih r hr
    · exact List.mem_singleton.mp hr
    · rcases List.mem_cons.mp hr with rfl | hin
      · rfl
      · exact ih r hin

/-- The shadow loop of V5 passes the shadow ray to `intersect` as soon as the list holds an
object that is not a plane. -/
theorem V5_shadowCalls_mem (shadow : V5.Ray ℝ) (objs : List (V5.Object ℝ))
    (hex : ∃ o ∈ objs, o.isPlane = false) :
    shadow ∈ V5.shadowCalls Real.sqrt shadow objs := by
  obtain ⟨o, ho, hpl⟩ := hex
  induction objs with
  | nil => cases ho
  | cons o' rest ih =>
    simp only [V5.shadowCalls]
    split_ifs with h1 h2
    · rcases List.mem_cons.mp ho with heq | hin
      · rw [heq] at hpl
        rw [hpl] at h1
        cases h1
      · exact ih hin
    · exact List.mem_singleton.mpr rfl
    · exact List.mem_cons_self _ _

/-- A vector of V5 whose dot product with itself is zero is the zero vector. -/
theorem V5_eq_of_sub_dot_zero (a b : V5.Vec ℝ) (h : (a.sub b).dot (a.sub b) = 0) : b = a := by
  simp only [V5.Vec.dot, V5.Vec.sub] at h
  have h1 := mul_self_nonneg (a.x - b.x)
  have h2 := mul_self_nonneg (a.y - b.y)
  have h3 := mul_self_nonneg (a.z - b.z)
  have hx : a.x - b.x = 0 := mul_self_eq_zero.mp (by linarith)
  have hy : a.y - b.y = 0 := mul_self_eq_zero.mp (by linarith)
  have hz : a.z - b.z = 0 := mul_self_eq_zero.mp (by linarith)
  apply V5.Vec.ext <;> linarith

/-- The function `reflect` of V5 keeps the squared length when the normal is unit-length. -/
theorem V5_reflect_dot_self (d n : V5.Vec ℝ) (hn : n.dot n = 1) :
    (V5.reflect d n).dot (V5.reflect d n) = d.dot d := by
  simp only [V5.reflect, V5.Vec.dot, V5.Vec.sub, V5.Vec.scale] at hn ⊢
  linear_combination (4 * (d.x * n.x + d.y * n.y + d.z * n.z) ^ 2) * hn

/-- A hit of `Sphere::intersect` of V5 for a unit-length direction lies on the sphere. -/
theorem V5_sphere_hit_on_sphere (s : V5.Sphere ℝ) (ray : V5.Ray ℝ) (h : V5.Hit ℝ)
    (hd : ray.d.dot ray.d = 1) (hint : s.intersect Real.sqrt ray = some h) :
    (h.p.sub s.c).dot (h.p.sub s.c) = s.r * s.r := by
  obtain ⟨hdisc, _, ht, hp, _, _⟩ := V5_sphere_hit hint
  simp only [V5.Vec.dot, V5.Vec.sub] at hdisc ht hd
  have hr := small_root_is_root _ _ hdisc
  rw [← ht] at hr
  have he := quad_expand (ray.o.x - s.c.x) (ray.o.y - s.c.y) (ray.o.z - s.c.z)
    ray.d.x ray.d.y ray.d.z h.t hd
  rw [hp]
  simp only [V5.Vec.dot, V5.Vec.sub, V5.Vec.add, V5.Vec.scale]
  linear_combination he + hr

/-- The nearest hit of V5 for a unit-length direction, in a scene whose spheres have a positive
radius and whose planes have a unit normal, has a unit-length normal. -/
theorem V5_hit_normal_unit (objs : List (V5.Object ℝ))
    (hs : ∀ s : V5.Sphere ℝ, V5.Object.sphere s ∈ objs → 0 < s.r)
    (hp : ∀ pl : V5.Plane ℝ, V5.Object.plane pl ∈ objs → pl.n.dot pl.n = 1)
    (ray : V5.Ray ℝ) (hd : ray.d.dot ray.d = 1) (hit : V5.Hit ℝ)
    (hn : V5.nearest Real.sqrt ray objs = some hit) : hit.n.dot hit.n = 1 := by
  obtain ⟨o, ho, hint⟩ := V5_nearest_mem ray objs hit hn
  cases o with
  | sphere s =>
    have hon := V5_sphere_hit_on_sphere s ray hit hd hint
    obtain ⟨_, _, _, _, hnrm, _⟩ := V5_sphere_hit hint
    rw [hnrm]
    apply V5_norm_unit
    rw [hon]
    exact ne_of_gt (mul_pos (hs s ho) (hs s ho))
  | plane pl =>
    obtain ⟨_, _, _, _, hnrm, _⟩ := V5_plane_hit hint
    rw [hnrm]
    exact hp pl ho

/-- The rays one level of `trace` of V5 passes to `intersect` have unit-length directions when
the traced ray has one and the light is not at the hit point. -/
theorem V5_level_rays_unit (ray : V5.Ray ℝ) (hd : ray.d.dot ray.d = 1)
    (objs : List (V5.Object ℝ)) (light : V5.Vec ℝ) (hit : V5.Hit ℝ) (hne : hit.p ≠ light) :
    ∀ r ∈ objs.map (fun _ => ray)
        ++ V5.shadowCalls Real.sqrt (V5.shadowRay Real.sqrt light hit) objs,
      r.d.dot r.d = 1 := by
  intro r hr
  rcases List.mem_append.mp hr with hin | hin
  · obtain ⟨_, _, heq⟩ := List.mem_map.mp hin
    rw [← heq]
    exact hd
  · rw [V5_shadowCalls_eq _ _ r hin]
    simp only [V5.shadowRay, V5.ldir]
    apply V5_norm_unit
    intro h0
    exact hne (V5_eq_of_sub_dot_zero light hit.p h0)

/-- C11, as amended (V5): if the primary ray's direction is unit-length, every plane normal in
the scene is unit-length, every sphere radius is positive, and the light position is not the
position of any nearest hit that `trace` finds (so that `light - hit.p` can be normalised), then
every ray that `trace` passes to an `intersect` call (the primary ray, every shadow ray and
every reflection ray, at every recursion level) has a unit-length direction. -/
theorem V5_traced_rays_unit (objs : List (V5.Object ℝ)) (light : V5.Vec ℝ)
    (hs : ∀ s : V5.Sphere ℝ, V5.Object.sphere s ∈ objs → 0 < s.r)
    (hp : ∀ pl : V5.Plane ℝ, V5.Object.plane pl ∈ objs → pl.n.dot pl.n = 1)
    (ray : V5.Ray ℝ) (depth : Int) (hd : ray.d.dot ray.d = 1)
    (hlight : ∀ e ∈ (V5.traceLog Real.sqrt ray objs light depth).2,
      ∀ h, e.hit = some h → h.p ≠ light) :
    ∀ e ∈ (V5.traceLog Real.sqrt ray objs light depth).2, ∀ r ∈ e.rays, r.d.dot r.d = 1 := by
  have key : ∀ (n : Nat) (depth : Int) (ray : V5.Ray ℝ),
      (V5.MAX_DEPTH + 1 - depth).toNat ≤ n → ray.d.dot ray.d = 1 →
      (∀ e ∈ (V5.traceLog Real.sqrt ray objs light depth).2,
        ∀ h, e.hit = some h → h.p ≠ light) →
      ∀ e ∈ (V5.traceLog Real.sqrt ray objs light depth).2,
        ∀ r ∈ e.rays, r.d.dot r.d = 1 := by
    intro n
    induction n with
    | zero =>
      intro depth ray hn _ _
      have hover : depth > V5.MAX_DEPTH := by
        simp only [V5.MAX_DEPTH] at hn ⊢
        omega
      rw [V5_traceLog_snd_over ray objs light depth hover]
      intro e he
      cases he
    | succ n ih =>
      intro depth ray hn hd hlight
      by_cases hover : depth > V5.MAX_DEPTH
      · rw [V5_traceLog_snd_over ray objs light depth hover]
        intro e he
        cases he
      · cases hnear : V5.nearest Real.sqrt ray objs with
        | none =>
          rw [V5_traceLog_snd_none ray objs light depth hover hnear]
          intro e he r hr
          rw [List.mem_singleton.mp he] at hr
          obtain ⟨_, _, heq⟩ := List.mem_map.mp hr
          rw [← heq]
          exact hd
        | some hit =>
          by_cases hr : hit.m.reflect > 0
          · rw [V5_traceLog_snd_mirror ray objs light depth hit hover hnear hr] at hlight ⊢
            have hne : hit.p ≠ light := hlight _ (List.mem_cons_self _ _) hit rfl
            have hnrm := V5_hit_normal_unit objs hs hp ray hd hit hnear
            have hrefl : (V5.reflRay Real.sqrt ray hit).d.dot (V5.reflRay Real.sqrt ray hit).d
                = 1 := by
              simp only [V5.reflRay]
              apply V5_norm_unit
              rw [V5_reflect_dot_self _ _ hnrm, hd]
              exact one_ne_zero
            have hsub := ih (depth + 1) (V5.reflRay Real.sqrt ray hit) (by
              simp only [V5.MAX_DEPTH] at hn hover ⊢
              omega) hrefl (fun e he => hlight e (List.mem_cons_of_mem _ he))
            intro e he
            rcases List.mem_cons.mp he with rfl | hin
            · exact V5_level_rays_unit ray hd objs light hit hne
            · exact hsub e hin
          · rw [V5_traceLog_snd_matte ray objs light depth hit hover hnear hr] at hlight ⊢
            have hne : hit.p ≠ light := hlight _ (List.mem_singleton.mpr rfl) hit rfl
            intro e he
            rw [List.mem_singleton.mp he]
            exact V5_level_rays_unit ray hd objs light hit hne
  exact key _ depth ray (le_refl _) hd hlight

/-- The log of `traceLog` of V5 for the scene "floor plane `y = 0` under the sphere of radius
`1` around `(0,2,0)`" (white, reflectivity `0`) and the ray from `(0,1/2,0)` straight down at
depth `0`: one level, whose nearest hit is the floor at the origin. -/
theorem V5_box_log (light : V5.Vec ℝ) :
    (V5.traceLog Real.sqrt ⟨⟨0, 1 / 2, 0⟩, ⟨0, -1, 0⟩⟩
        [V5.Object.plane (⟨⟨0, 1, 0⟩, 0, ⟨⟨1, 1, 1⟩, 0⟩⟩ : V5.Plane ℝ),
          V5.Object.sphere ⟨⟨0, 2, 0⟩, 1, ⟨⟨1, 1, 1⟩, 0⟩⟩] light 0).2
      = [⟨0, [V5.Object.plane (⟨⟨0, 1, 0⟩, 0, ⟨⟨1, 1, 1⟩, 0⟩⟩ : V5.Plane ℝ),
              V5.Object.sphere ⟨⟨0, 2, 0⟩, 1, ⟨⟨1, 1, 1⟩, 0⟩⟩].map
            (fun _ => (⟨⟨0, 1 / 2, 0⟩, ⟨0, -1, 0⟩⟩ : V5.Ray ℝ))
          ++ V5.shadowCalls Real.sqrt (V5.shadowRay Real.sqrt light
              ⟨1 / 2, ⟨0, 0, 0⟩, ⟨0, 1, 0⟩, ⟨⟨1, 1, 1⟩, 0⟩⟩)
            [V5.Object.plane (⟨⟨0, 1, 0⟩, 0, ⟨⟨1, 1, 1⟩, 0⟩⟩ : V5.Plane ℝ),
              V5.Object.sphere ⟨⟨0, 2, 0⟩, 1, ⟨⟨1, 1, 1⟩, 0⟩⟩],
          some ⟨1 / 2, ⟨0, 0, 0⟩, ⟨0, 1, 0⟩, ⟨⟨1, 1, 1⟩, 0⟩⟩⟩] :=
  V5_traceLog_snd_matte _ _ light 0 _ (by decide)
    (V5_nearest_floor _ _ (V5_upper_sphere_miss _)) (lt_irrefl (0 : ℝ))

/-- C11 as amended, at the scene "floor plane `y = 0` under the sphere of radius `1` around
`(0,2,0)`", the light at `(0,4,0)` and the ray from `(0,1/2,0)` straight down at depth `0`: the
hypotheses hold (the only hit is at the origin, away from the light) and every ray passed to
`intersect` has a unit-length direction. -/
theorem V5_traced_rays_unit_witness :
    V5.Vec.dot (⟨0, -1, 0⟩ : V5.Vec ℝ) ⟨0, -1, 0⟩ = 1 ∧
    (∀ e ∈ (V5.traceLog Real.sqrt ⟨⟨0, 1 / 2, 0⟩, ⟨0, -1, 0⟩⟩
        [V5.Object.plane (⟨⟨0, 1, 0⟩, 0, ⟨⟨1, 1, 1⟩, 0⟩⟩ : V5.Plane ℝ),
          V5.Object.sphere ⟨⟨0, 2, 0⟩, 1, ⟨⟨1, 1, 1⟩, 0⟩⟩] ⟨0, 4, 0⟩ 0).2,
      ∀ h, e.hit = some h → h.p ≠ ⟨0, 4, 0⟩) ∧
    (∀ e ∈ (V5.traceLog Real.sqrt ⟨⟨0, 1 / 2, 0⟩, ⟨0, -1, 0⟩⟩
        [V5.Object.plane (⟨⟨0, 1, 0⟩, 0, ⟨⟨1, 1, 1⟩, 0⟩⟩ : V5.Plane ℝ),
          V5.Object.sphere ⟨⟨0, 2, 0⟩, 1, ⟨⟨1, 1, 1⟩, 0⟩⟩] ⟨0, 4, 0⟩ 0).2,
      ∀ r ∈ e.rays, r.d.dot r.d = 1) := by
  have hd : V5.Vec.dot (⟨0, -1, 0⟩ : V5.Vec ℝ) ⟨0, -1, 0⟩ = 1 := by simp [V5.Vec.dot]
  have hlight : ∀ e ∈ (V5.traceLog Real.sqrt ⟨⟨0, 1 / 2, 0⟩, ⟨0, -1, 0⟩⟩
        [V5.Object.plane (⟨⟨0, 1, 0⟩, 0, ⟨⟨1, 1, 1⟩, 0⟩⟩ : V5.Plane ℝ),
          V5.Object.sphere ⟨⟨0, 2, 0⟩, 1, ⟨⟨1, 1, 1⟩, 0⟩⟩] ⟨0, 4, 0⟩ 0).2,
      ∀ h, e.hit = some h → h.p ≠ ⟨0, 4, 0⟩ := by
    rw [V5_box_log]
    intro e he h hh
    rw [List.mem_singleton.mp he] at hh
    simp only [Option.some.injEq] at hh
    rw [← hh]
    intro heq
    have := congrArg V5.Vec.y heq
    norm_num at this
  exact ⟨hd, hlight,
    V5_traced_rays_unit _ ⟨0, 4, 0⟩ (fun s h => (V5_box_spheres s h).1)
      (fun pl h => (V5_box_planes pl h).1) ⟨⟨0, 1 / 2, 0⟩, ⟨0, -1, 0⟩⟩ 0 hd hlight⟩

/-- C11 as stated fails in V5 when the light sits on a hit point: in the scene "floor plane
`y = 0` under the sphere of radius `1` around `(0,2,0)`" with the light at `(0,0,0)`, the
unit-direction ray from `(0,1/2,0)` straight down hits the floor at the light, `ldir` is the
normalised zero vector (`0/0` in every component: the zero vector here, NaN in C++), and the
shadow ray with that direction is passed to the sphere's `intersect`. -/
theorem V5_traced_rays_counterexample :
    V5.Vec.dot (⟨0, -1, 0⟩ : V5.Vec ℝ) ⟨0, -1, 0⟩ = 1 ∧
    V5.Vec.dot (⟨0, 1, 0⟩ : V5.Vec ℝ) ⟨0, 1, 0⟩ = 1 ∧ (0 : ℝ) < 1 ∧
    ∃ e ∈ (V5.traceLog Real.sqrt ⟨⟨0, 1 / 2, 0⟩, ⟨0, -1, 0⟩⟩
        [V5.Object.plane (⟨⟨0, 1, 0⟩, 0, ⟨⟨1, 1, 1⟩, 0⟩⟩ : V5.Plane ℝ),
          V5.Object.sphere ⟨⟨0, 2, 0⟩, 1, ⟨⟨1, 1, 1⟩, 0⟩⟩] ⟨0, 0, 0⟩ 0).2,
      ∃ r ∈ e.rays, r.d = ⟨0, 0, 0⟩ ∧ r.d.dot r.d ≠ 1 := by
  refine ⟨by simp [V5.Vec.dot], by simp [V5.Vec.dot], by norm_num, ?_⟩
  rw [V5_box_log]
  refine ⟨_, List.mem_singleton.mpr rfl,
    V5.shadowRay Real.sqrt ⟨0, 0, 0⟩ ⟨1 / 2, ⟨0, 0, 0⟩, ⟨0, 1, 0⟩, ⟨⟨1, 1, 1⟩, 0⟩⟩, ?_, ?_, ?_⟩
  · apply List.mem_append_right
    apply V5_shadowCalls_mem
    exact ⟨V5.Object.sphere ⟨⟨0, 2, 0⟩, 1, ⟨⟨1, 1, 1⟩, 0⟩⟩, by simp, rfl⟩
  · simp [V5.shadowRay, V5.ldir, V5.Vec.norm, V5.Vec.sub]
  · simp [V5.shadowRay, V5.ldir, V5.Vec.norm, V5.Vec.sub, V5.Vec.dot]
